import Mathlib

/-!
# Runtime resource ingestion: `DynamicResourceCache` and `WebResourceCache`

A shallow embedding of the two sample subsystems
(`Source/Samples/55_DynamicResourceCache/DynamicResourceCache.cpp` and
`Source/Samples/55_TankPrototype/WebResourceCache.cpp`).

* Strings (`Urho3D::String`, `std::string`, `const char*` + size) are lists of
  characters; a zero byte is an ordinary element of such a list.
* The host engine's resource cache is a list of resource objects in registration
  order; the address of a registered object is its position in that list (nothing
  in these two classes ever unregisters a resource).
* The format parsers and the script runtime are parameters (`Engine`).
* Preprocessor switches are parameters (`Build`).
* Log lines, JavaScript callbacks, script executions and evaluated JavaScript are
  recorded in the state, oldest first.
-/

namespace Urho3D

/-- A character string with explicit length (`Urho3D::String`, `std::string`). -/
abbrev Str := List Char

/-- Reading a string through `c_str()` / `CString()` as a C string: the characters
before the first zero byte. -/
def c_str (s : Str) : Str := s.takeWhile (fun c => c != Char.ofNat 0)

/-- What a callee reads that is handed a `const char*` and no length, told by the bytes
the caller had at the pointer: when they hold a zero byte, the text before the first one
(`text`); when they hold none, all of them and on behind them (`past`). Behind the
characters of a `std::string` lies a zero byte, so there the read ends right after the
bytes; behind the data of a `VectorBuffer`, or of a block of `length` bytes, lies none,
and there the read leaves the buffer. -/
inductive CStringRead where
  | text (script : Str)
  | past (bytes : Str)
deriving DecidableEq, Repr

/-- Reading the pointer `content` as a C string when `content` are the bytes at it. -/
def readCString (content : Str) : CStringRead :=
  if Char.ofNat 0 ∈ content then CStringRead.text (c_str content)
  else CStringRead.past content

/-- Modelled from the spec: `String::EndsWith` of the host engine, which is not part of
these samples; the spec calls it a suffix match. -/
def EndsWith (s suffix : Str) : Bool := suffix.isSuffixOf s

/-- Preprocessor switches the two classes are compiled under. -/
structure Build where
  /-- Switch `URHO3D_ANGELSCRIPT`. -/
  angelscript : Bool
  /-- Switch `__EMSCRIPTEN__`. -/
  emscripten : Bool
  /-- Switch `URHO3D_NETWORK`. -/
  network : Bool
deriving DecidableEq, Repr

/-- The engine resource types the materializers instantiate. -/
inductive ResType where
  | ScriptFile | XMLFile | JSONFile | Technique | Material | Shader | Texture2D | Model
deriving DecidableEq, Repr

/-- A resource object: its type, its name (`SetName`), the content most recently passed
to `Load` (`none` before the first `Load`) and the result of that `Load`. -/
structure Resource where
  type : ResType
  name : Str
  data : Option Str := none
  loaded : Bool := false
deriving DecidableEq, Repr

/-- Log severity (`URHO3D_LOGINFOF` / `URHO3D_LOGERROR[F]`). -/
inductive LogLevel where
  | info | error
deriving DecidableEq, Repr

/-- An argument of a formatted log line. -/
inductive LogArg where
  | str (s : Str)
  | int (n : Nat)
deriving DecidableEq, Repr

/-- One log line: severity, format string, arguments. -/
structure LogEntry where
  level : LogLevel
  format : String
  args : List LogArg
deriving DecidableEq, Repr

/-- A call into the JavaScript `Module` object. -/
inductive Callback where
  | FileLoaded (name : Str)
  | FileLoadFailed (name : Str)
deriving DecidableEq, Repr

/-- The external collaborators: the format parsers and what they report. -/
structure Engine where
  /-- Result of `Load` on a resource of the given type and name for the given bytes. -/
  load : ResType → Str → Str → Bool
  /-- Name of the root element of an `XMLFile` after loading the given bytes. -/
  xmlRoot : Str → Str
  /-- Whether a script loaded from the given bytes defines `void Start()`. -/
  hasStart : Str → Bool

/-- Everything the materializers read and write: the resource registry of the engine, the
`asScripts_` member (file name to script object), the log, the callbacks made into
JavaScript, the script objects on which `void Start()` was executed, and what
`emscripten_run_script` read at the pointers it was handed. -/
structure Cache where
  registry : List Resource := []
  asScripts : List (Str × Nat) := []
  log : List LogEntry := []
  callbacks : List Callback := []
  executed : List Nat := []
  jsRun : List CStringRead := []
deriving DecidableEq, Repr

/-- Modelled from the spec: `ResourceCache::GetResource<T>(name)` of the host engine
(not part of these samples): look up an existing named resource of that engine type.
Returns the address of the first registered object of type `t` named `name`. -/
def GetResource : List Resource → ResType → Str → Option Nat
  | [], _, _ => none
  | r :: rs, t, name =>
    if r.type = t ∧ r.name = name then some 0
    else (GetResource rs t name).map (fun i => i + 1)

/-- Modelled from the spec: `ResourceCache::AddManualResource` of the host engine (not
part of these samples): register the object as a manually-managed entry. -/
def AddManualResource (reg : List Resource) (r : Resource) : List Resource := reg ++ [r]

/-- The effect of `file->Load(...)` on the object at address `file`: it now holds
`content` and remembers whether parsing succeeded. -/
def Load : List Resource → Nat → Str → Bool → List Resource
  | [], _, _, _ => []
  | r :: rs, 0, content, ok => { r with data := some content, loaded := ok } :: rs
  | r :: rs, i + 1, content, ok => r :: Load rs i content ok

/-- The effect of `file->SetName(name)` on the object at address `file`. -/
def SetName : List Resource → Nat → Str → List Resource
  | [], _, _ => []
  | r :: rs, 0, name => { r with name := name } :: rs
  | r :: rs, i + 1, name => r :: SetName rs i name

/-- Append a log line. -/
def logLine (s : Cache) (level : LogLevel) (format : String) (args : List LogArg) : Cache :=
  { s with log := s.log ++ [{ level := level, format := format, args := args }] }

/-- The statement sequence every materializer opens with:
`file = GetResource<T>(filename); if (!file) { file = new T; file->SetName(filename);
AddManualResource(file); URHO3D_LOGINFOF(format, ...); }`.
Returns the state and the address of `file`. -/
def lookupOrCreate (s : Cache) (t : ResType) (filename : Str) (format : String)
    (args : List LogArg) : Cache × Nat :=
  match GetResource s.registry t filename with
  | some file => (s, file)
  | none =>
    (logLine { s with registry := AddManualResource s.registry { type := t, name := filename } }
        LogLevel.info format args,
      s.registry.length)

/-- The statement `file->Load(buffer)` lifted to the state. -/
def loadInto (s : Cache) (file : Nat) (content : Str) (ok : Bool) : Cache :=
  { s with registry := Load s.registry file content ok }

/-- The block `#ifdef __EMSCRIPTEN__ if (loaded) Module.FileLoaded(filename.CString())
else Module.FileLoadFailed(filename.CString()) #endif`. -/
def report (b : Build) (s : Cache) (filename : Str) (loaded : Bool) : Cache :=
  if b.emscripten then
    { s with callbacks := s.callbacks ++
        [if loaded then Callback.FileLoaded (c_str filename)
         else Callback.FileLoadFailed (c_str filename)] }
  else s

/-- The registry that results from the look-up-or-create sequence followed by `Load`,
written out by cases: on a hit the found object is loaded in place, on a miss a new
object of that type and name is appended and loaded. (Shown equal to the registry the
materializers compute in `registry_lookupOrCreate_loadInto`.) -/
def ingest (reg : List Resource) (t : ResType) (filename content : Str) (ok : Bool) :
    List Resource :=
  match GetResource reg t filename with
  | some file => Load reg file content ok
  | none => reg ++ [{ type := t, name := filename, data := some content, loaded := ok }]

/-- The statement `asScripts_[filename] = file` on an insertion-ordered hash map:
overwrite the value of an existing key, otherwise append the pair. -/
def mapSet (m : List (Str × Nat)) (k : Str) (v : Nat) : List (Str × Nat) :=
  if m.any (fun p => p.1 = k) then m.map (fun p => if p.1 = k then (k, v) else p)
  else m ++ [(k, v)]

end Urho3D

namespace DynamicResourceCache
open Urho3D

/-- Embeds `DynamicResourceCache::IsImage` -/
def IsImage (filename : Str) : Bool :=
  EndsWith filename ".dds".toList
    || EndsWith filename ".jpg".toList
    || EndsWith filename ".jpeg".toList
    || EndsWith filename ".png".toList
    || EndsWith filename ".icns".toList

/-- Embeds `DynamicResourceCache::AddAngelScriptFile` -/
def AddAngelScriptFile (b : Build) (e : Engine) (s : Cache) (filename content : Str) : Cache :=
  if b.angelscript then
    let r := lookupOrCreate s ResType.ScriptFile filename
      "Creating new manual AngelScript resource %s" [LogArg.str (c_str filename)]
    let loaded := e.load ResType.ScriptFile filename content
    let s1 := loadInto r.1 r.2 content loaded
    let s2 := { s1 with asScripts := mapSet s1.asScripts filename r.2 }
    report b s2 filename loaded
  else
    logLine s LogLevel.error "Engine built without AngelScript support!" []

/-- Embeds `DynamicResourceCache::AddLuaScriptFile` -/
def AddLuaScriptFile (_b : Build) (_e : Engine) (s : Cache) (_filename _content : Str) : Cache :=
  logLine s LogLevel.error "Lua script dynamic loading is not yet supported!" []

/-- Embeds `DynamicResourceCache::AddJSONFile` -/
def AddJSONFile (b : Build) (e : Engine) (s : Cache) (filename content : Str) : Cache :=
  let r := lookupOrCreate s ResType.JSONFile filename
    "Creating new manual AngelScript resource %s" [LogArg.str (c_str filename)]
  let loaded := e.load ResType.JSONFile filename content
  report b (loadInto r.1 r.2 content loaded) filename loaded

/-- Embeds `DynamicResourceCache::AddTechniqueFile` -/
def AddTechniqueFile (b : Build) (e : Engine) (s : Cache) (filename content : Str) : Cache :=
  let r := lookupOrCreate s ResType.Technique filename
    "Creating new manual Material resource %s" [LogArg.str (c_str filename)]
  let loaded := e.load ResType.Technique filename content
  report b (loadInto r.1 r.2 content loaded) filename loaded

/-- Embeds `DynamicResourceCache::AddMaterialFile`; the `XMLElement` argument is the root of the
document parsed from `source`. -/
def AddMaterialFile (b : Build) (e : Engine) (s : Cache) (filename source : Str) : Cache :=
  let r := lookupOrCreate s ResType.Material filename
    "Creating new manual Material resource %s" [LogArg.str (c_str filename)]
  let loaded := e.load ResType.Material filename source
  report b (loadInto r.1 r.2 source loaded) filename loaded

/-- Embeds `DynamicResourceCache::AddXMLFile`: the content is parsed into a temporary `XMLFile`
and the name of its root element selects the path. -/
def AddXMLFile (b : Build) (e : Engine) (s : Cache) (filename content : Str) : Cache :=
  if e.xmlRoot content = "material".toList then
    AddMaterialFile b e s filename content
  else if e.xmlRoot content = "technique".toList then
    AddTechniqueFile b e s filename content
  else
    let r := lookupOrCreate s ResType.XMLFile filename
      "Creating new manual XML resource %s" [LogArg.str (c_str filename)]
    let loaded := e.load ResType.XMLFile filename content
    report b (loadInto r.1 r.2 content loaded) filename loaded

/-- Embeds `DynamicResourceCache::AddGLSLShader` -/
def AddGLSLShader (b : Build) (e : Engine) (s : Cache) (filename content : Str) : Cache :=
  let r := lookupOrCreate s ResType.Shader filename
    "Creating new manual GLSL resource %s" [LogArg.str (c_str filename)]
  let loaded := e.load ResType.Shader filename content
  report b (loadInto r.1 r.2 content loaded) filename loaded

/-- Embeds `DynamicResourceCache::AddImageFile` (the result of `Load` is discarded). -/
def AddImageFile (_b : Build) (e : Engine) (s : Cache) (filename content : Str) : Cache :=
  let r := lookupOrCreate s ResType.Texture2D filename
    "Creating new manual Material resource %s" [LogArg.str (c_str filename)]
  loadInto r.1 r.2 content (e.load ResType.Texture2D filename content)

/-- Embeds `DynamicResourceCache::AddModel` (the result of `Load` is discarded). -/
def AddModel (_b : Build) (e : Engine) (s : Cache) (filename content : Str) : Cache :=
  let r := lookupOrCreate s ResType.Model filename
    "Creating new manual Model resource %s, size=%d"
    [LogArg.str (c_str filename), LogArg.int content.length]
  loadInto r.1 r.2 content (e.load ResType.Model filename content)

/-- Embeds `DynamicResourceCache::ProcessResource(filename, content, size)`; `content` stands
for the `size` bytes at the pointer. The materializers are handed `size`; the `.js` branch
calls `emscripten_run_script(content)` with the pointer alone, so what is run is what a
C-string read finds at the pointer, not the `size` bytes. -/
def ProcessResource (b : Build) (e : Engine) (s : Cache) (filename content : Str) : Cache :=
  if EndsWith filename ".as".toList then AddAngelScriptFile b e s filename content
  else if EndsWith filename ".lua".toList then AddLuaScriptFile b e s filename content
  else if EndsWith filename ".xml".toList then AddXMLFile b e s filename content
  else if EndsWith filename ".json".toList then AddJSONFile b e s filename content
  else if EndsWith filename ".glsl".toList then AddGLSLShader b e s filename content
  else if EndsWith filename ".mdl".toList then AddModel b e s filename content
  else if IsImage filename then AddImageFile b e s filename content
  else if EndsWith filename ".js".toList then
    if b.emscripten then { s with jsRun := s.jsRun ++ [readCString content] } else s
  else
    logLine s LogLevel.error "Unable to process file %s, no handler implemented"
      [LogArg.str (c_str filename)]

/-- The table of what `ProcessResource` materializes: the engine type that is looked up or
created for a file name and content. `.as` gives a `ScriptFile` (in a build with
AngelScript), `.xml` a `Material`, `Technique` or `XMLFile` according to the root
element, `.json` a `JSONFile`, `.glsl` a `Shader`, `.mdl` a `Model`, an image suffix a
`Texture2D`. -/
def Materializes (b : Build) (e : Engine) (filename content : Str) (t : ResType) : Prop :=
  (EndsWith filename ".as".toList = true ∧ b.angelscript = true ∧ t = ResType.ScriptFile) ∨
  (EndsWith filename ".xml".toList = true ∧ e.xmlRoot content = "material".toList
    ∧ t = ResType.Material) ∨
  (EndsWith filename ".xml".toList = true ∧ e.xmlRoot content = "technique".toList
    ∧ t = ResType.Technique) ∨
  (EndsWith filename ".xml".toList = true ∧ e.xmlRoot content ≠ "material".toList
    ∧ e.xmlRoot content ≠ "technique".toList ∧ t = ResType.XMLFile) ∨
  (EndsWith filename ".json".toList = true ∧ t = ResType.JSONFile) ∨
  (EndsWith filename ".glsl".toList = true ∧ t = ResType.Shader) ∨
  (EndsWith filename ".mdl".toList = true ∧ t = ResType.Model) ∨
  (IsImage filename = true ∧ t = ResType.Texture2D)

instance (b : Build) (e : Engine) (filename content : Str) (t : ResType) :
    Decidable (Materializes b e filename content t) := by
  unfold Materializes
  infer_instance

/-- Ingest a list of `(filename, content)` items with `ProcessResource`, first to last. -/
def processAll (b : Build) (e : Engine) (s : Cache) (items : List (Str × Str)) : Cache :=
  items.foldl (fun st item => ProcessResource b e st item.1 item.2) s

end DynamicResourceCache

namespace WebResourceCache
open Urho3D

/-- State of a `WebResourceCache`: what its materializers touch, the member `queue_`
(a `std::list<std::string>`, oldest entry first), and a ghost record of the
`(filename, content)` pairs `HandleUpdate` took off the queue and handed to its
dispatch chain, oldest first. -/
structure State where
  cache : Cache := {}
  queue : List Str := []
  dispatched : List (Str × Str) := []
deriving DecidableEq, Repr

/-- Embeds `std::list::front()` -/
def front (q : List Str) : Str := q.headD []

/-- Embeds `std::list::pop_front()` -/
def pop_front (q : List Str) : List Str := q.tail

/-- Embeds `WebResourceCache::AddToQueue` -/
def AddToQueue (s : State) (filename content : Str) : State :=
  { s with queue := (s.queue ++ [filename]) ++ [content] }

/-- Embeds `WebResourceCache::AddAngelScriptFile` -/
def AddAngelScriptFile (b : Build) (e : Engine) (s : Cache) (filename content : Str) : Cache :=
  let r := lookupOrCreate s ResType.ScriptFile filename
    "Creating new manual AngelScript resource %s" [LogArg.str (c_str filename)]
  let loaded := e.load ResType.ScriptFile filename content
  let s1 := loadInto r.1 r.2 content loaded
  let s2 := { s1 with asScripts := mapSet s1.asScripts filename r.2 }
  report b s2 filename loaded

/-- Embeds `WebResourceCache::AddLuaScriptFile` -/
def AddLuaScriptFile (_b : Build) (_e : Engine) (s : Cache) (_filename _content : Str) : Cache :=
  logLine s LogLevel.error "Lua script dynamic loading is not yet supported!" []

/-- Embeds `WebResourceCache::AddJSONFile` -/
def AddJSONFile (b : Build) (e : Engine) (s : Cache) (filename content : Str) : Cache :=
  let r := lookupOrCreate s ResType.JSONFile filename
    "Creating new manual AngelScript resource %s" [LogArg.str (c_str filename)]
  let loaded := e.load ResType.JSONFile filename content
  report b (loadInto r.1 r.2 content loaded) filename loaded

/-- Embeds `WebResourceCache::AddTechniqueFile` -/
def AddTechniqueFile (b : Build) (e : Engine) (s : Cache) (filename content : Str) : Cache :=
  let r := lookupOrCreate s ResType.Technique filename
    "Creating new manual Material resource %s" [LogArg.str (c_str filename)]
  let loaded := e.load ResType.Technique filename content
  report b (loadInto r.1 r.2 content loaded) filename loaded

/-- Embeds `WebResourceCache::AddMaterialFile`; the `XMLElement` argument is the root of the
document parsed from `source`. -/
def AddMaterialFile (b : Build) (e : Engine) (s : Cache) (filename source : Str) : Cache :=
  let r := lookupOrCreate s ResType.Material filename
    "Creating new manual Material resource %s" [LogArg.str (c_str filename)]
  let loaded := e.load ResType.Material filename source
  report b (loadInto r.1 r.2 source loaded) filename loaded

/-- Embeds `WebResourceCache::AddXMLFile` -/
def AddXMLFile (b : Build) (e : Engine) (s : Cache) (filename content : Str) : Cache :=
  if e.xmlRoot content = "material".toList then
    AddMaterialFile b e s filename content
  else if e.xmlRoot content = "technique".toList then
    AddTechniqueFile b e s filename content
  else
    let r := lookupOrCreate s ResType.XMLFile filename
      "Creating new manual XML resource %s" [LogArg.str (c_str filename)]
    let loaded := e.load ResType.XMLFile filename content
    report b (loadInto r.1 r.2 content loaded) filename loaded

/-- Embeds `WebResourceCache::AddGLSLShader` (it calls `SetName` once more after the lookup). -/
def AddGLSLShader (b : Build) (e : Engine) (s : Cache) (filename content : Str) : Cache :=
  let r := lookupOrCreate s ResType.Shader filename
    "Creating new manual GLSL resource %s" [LogArg.str (c_str filename)]
  let s1 := { r.1 with registry := SetName r.1.registry r.2 filename }
  let loaded := e.load ResType.Shader filename content
  report b (loadInto s1 r.2 content loaded) filename loaded

/-- The `if` / `else if` chain in the body of `WebResourceCache::HandleUpdate`, which
selects the handler for a dequeued item. -/
def dispatch (b : Build) (e : Engine) (s : Cache) (filename content : Str) : Cache :=
  if EndsWith filename ".as".toList then AddAngelScriptFile b e s filename content
  else if EndsWith filename ".lua".toList then AddLuaScriptFile b e s filename content
  else if EndsWith filename ".xml".toList then AddXMLFile b e s filename content
  else if EndsWith filename ".json".toList then AddJSONFile b e s filename content
  else if EndsWith filename ".glsl".toList then AddGLSLShader b e s filename content
  else
    logLine s LogLevel.error "Unable to process file %s, no handler implemented"
      [LogArg.str filename]

/-- Embeds `WebResourceCache::HandleUpdate`: the per-tick drain of `queue_`. Both entries
are converted with `String x = queue_.front().c_str()`. -/
def HandleUpdate (b : Build) (e : Engine) (s : State) : State :=
  if s.queue.length ≥ 2 then
    let filename := c_str (front s.queue)
    let q1 := pop_front s.queue
    let content := c_str (front q1)
    let q2 := pop_front q1
    let c0 := logLine s.cache LogLevel.info "Processing queue item: %s" [LogArg.str filename]
    { cache := dispatch b e c0 filename content,
      queue := q2,
      dispatched := s.dispatched ++ [(filename, content)] }
  else s

/-- One call made on a `WebResourceCache` by its environment. -/
inductive Op where
  | add (filename content : Str)
  | tick
deriving DecidableEq, Repr

/-- Perform one call. -/
def step (b : Build) (e : Engine) (s : State) : Op → State
  | Op.add filename content => AddToQueue s filename content
  | Op.tick => HandleUpdate b e s

/-- Perform a sequence of calls, first to last. -/
def run (b : Build) (e : Engine) (s : State) (ops : List Op) : State :=
  ops.foldl (step b e) s

/-- The pairs passed to `AddToQueue` by a sequence of calls, in call order. -/
def enqueued : List Op → List (Str × Str)
  | [] => []
  | Op.add filename content :: ops => (filename, content) :: enqueued ops
  | Op.tick :: ops => enqueued ops

/-- A pair as `HandleUpdate` sees it: each component read through `c_str()`. -/
def cut (p : Str × Str) : Str × Str := (c_str p.1, c_str p.2)

/-- The queue entries a list of pairs occupies. -/
def flat : List (Str × Str) → List Str
  | [] => []
  | p :: ps => p.1 :: p.2 :: flat ps

end WebResourceCache

namespace Urho3D

/-- A stand-in engine for concrete evaluations: every parse succeeds, the root element
of `<material/>` is `material`, of `<technique/>` is `technique`, and anything else has
an empty root; no script defines `void Start()`. -/
def demoEngine : Engine where
  load := fun _ _ _ => true
  xmlRoot := fun c =>
    if c = "<material/>".toList then "material".toList
    else if c = "<technique/>".toList then "technique".toList
    else []
  hasStart := fun _ => false

/-- The browser build: all three switches on. -/
def browserBuild : Build := { angelscript := true, emscripten := true, network := true }

end Urho3D

/-! ## Script activation, the remote fetch poller, the JavaScript entry point -/

namespace Urho3D

/-- The file of the script object at address `file` answers
`GetFunction("void Start()")` with a non-null function: the object exists, has been
loaded, and the loaded bytes define the function. -/
def GetFunction (e : Engine) (reg : List Resource) (file : Nat) : Bool :=
  match reg[file]? with
  | some r =>
    match r.data with
    | some content => e.hasStart content
    | none => false
  | none => false

/-- The name of the object at address `file` (`GetName()`). -/
def GetName (reg : List Resource) (file : Nat) : Str :=
  match reg[file]? with
  | some r => r.name
  | none => []

/-- Membership test `asScripts_.Contains(key)` of the script map. -/
def mapContains (m : List (Str × Nat)) (k : Str) : Bool := m.any (fun p => p.1 = k)

/-- The value `asScripts_[key]` of a key the map contains. -/
def mapGet (m : List (Str × Nat)) (k : Str) : Option Nat :=
  (m.find? (fun p => p.1 = k)).map (fun p => p.2)

/-- One visit of the loop in `StartScripts`: if the script defines `void Start()`, log
and execute it. -/
def startOne (e : Engine) (s : Cache) (p : Str × Nat) : Cache :=
  if GetFunction e s.registry p.2 then
    { logLine s LogLevel.info "Starting script %s" [LogArg.str (c_str (GetName s.registry p.2))]
        with executed := s.executed ++ [p.2] }
  else s

/-- The states of an `HttpRequest` (`HttpRequestState`). -/
inductive HttpRequestState where
  | HTTP_INITIALIZING | HTTP_ERROR | HTTP_OPEN | HTTP_CLOSED
deriving DecidableEq, Repr

/-- Modelled from the spec: the HTTP client object of the host engine (issue-request,
poll-state, read-available-bytes), not part of these samples. `available` holds the
bytes received and not yet read, oldest first. -/
structure HttpRequest where
  url : Str
  state : HttpRequestState
  error : Str := []
  available : Str := []
deriving DecidableEq, Repr

/-- Modelled from the spec: `HttpRequest::GetAvailableSize`, the number of bytes that can
be read now. -/
def HttpRequest.GetAvailableSize (r : HttpRequest) : Nat := r.available.length

/-- Modelled from the spec: `HttpRequest::ReadByte`, which returns the oldest unread byte
and consumes it, so that `GetAvailableSize` drops by one. -/
def HttpRequest.ReadByte (r : HttpRequest) : Char × HttpRequest :=
  (r.available.headD (Char.ofNat 0), { r with available := r.available.tail })

/-- The network subsystem: `MakeHttpRequest(url)` returns a shared pointer to a request,
which the poller tests for null. -/
structure Network where
  MakeHttpRequest : Str → Option HttpRequest

/-- The pair `NetworkResourceResponse`: target file name (`first_`) and the accumulated
bytes of the `VectorBuffer` (`second_`). -/
structure NetworkResourceResponse where
  first_ : Str
  second_ : Str := []
deriving DecidableEq, Repr

/-- The pair `NetworkResourceRequest`: the request pointer (`first_`, possibly null) and
the response under construction (`second_`). -/
structure NetworkResourceRequest where
  first_ : Option HttpRequest
  second_ : NetworkResourceResponse
deriving DecidableEq, Repr

end Urho3D

namespace DynamicResourceCache
open Urho3D

/-- Embeds `DynamicResourceCache::StartScripts`: the map is visited in insertion order. -/
def StartScripts (b : Build) (e : Engine) (s : Cache) : Cache :=
  if b.angelscript then s.asScripts.foldl (startOne e) s else s

/-- Embeds `DynamicResourceCache::StartSingleScript`. The index expression
`asScripts_[filename]` is only evaluated for a key the map contains. -/
def StartSingleScript (b : Build) (e : Engine) (s : Cache) (filename : Str) : Cache :=
  if b.angelscript then
    if mapContains s.asScripts filename then
      match mapGet s.asScripts filename with
      | some file =>
        if GetFunction e s.registry file then { s with executed := s.executed ++ [file] }
        else s
      | none => s
    else s
  else s

/-- State of a `DynamicResourceCache`: what its materializers touch, the member
`remoteResources_` (a list of strings, oldest first) and the member `httpRequests_`. -/
structure DState where
  cache : Cache := {}
  remoteResources : List Str := []
  httpRequests : List NetworkResourceRequest := []
deriving DecidableEq, Repr

/-- Embeds `List::Front()` on `remoteResources_`. -/
def Front (q : List Str) : Str := q.headD []

/-- Embeds `List::PopFront()` on `remoteResources_`. -/
def PopFront (q : List Str) : List Str := q.tail

/-- Embeds `DynamicResourceCache::LoadResourceFromUrl`. -/
def LoadResourceFromUrl (b : Build) (s : DState) (url filename : Str) : DState :=
  if b.network then
    { s with remoteResources := (s.remoteResources ++ [url]) ++ [filename] }
  else
    { s with cache := logLine s.cache LogLevel.error "Engine built without network support!" [] }

/-- One turn of the loop `while (!remoteResources_.Empty())` of `HandleUpdate`: take a
URL and a file name off the list, issue the request and track it with an empty
accumulator. -/
def issueOne (net : Network) (s : DState) : DState :=
  let url := Front s.remoteResources
  let q1 := PopFront s.remoteResources
  let filename := Front q1
  let q2 := PopFront q1
  { cache := logLine s.cache LogLevel.info "Loading remote resource %s from %s"
      [LogArg.str (c_str filename), LogArg.str (c_str url)],
    remoteResources := q2,
    httpRequests := s.httpRequests ++
      [{ first_ := net.MakeHttpRequest url,
         second_ := { first_ := filename, second_ := [] } }] }

/-- The loop `while (!remoteResources_.Empty())` of `HandleUpdate`. Every turn shortens
the list, so `fuel` equal to its length is enough. -/
def issueLoop (net : Network) : Nat → DState → DState
  | 0, s => s
  | fuel + 1, s =>
    if s.remoteResources.isEmpty then s else issueLoop net fuel (issueOne net s)

/-- The byte pump `for (int i = 0; i < GetAvailableSize(); i++) WriteByte(ReadByte())`:
the bound is read again on every turn. Every turn consumes a byte, so `fuel` equal to
the number of available bytes is enough. -/
def pumpLoop : Nat → Nat → HttpRequest → Str → HttpRequest × Str
  | 0, _, req, buffer => (req, buffer)
  | fuel + 1, i, req, buffer =>
    if i < req.GetAvailableSize then
      pumpLoop fuel (i + 1) req.ReadByte.2 (buffer ++ [req.ReadByte.1])
    else (req, buffer)

/-- The byte pump run from `i = 0`. -/
def pump (req : HttpRequest) (buffer : Str) : HttpRequest × Str :=
  pumpLoop req.GetAvailableSize 0 req buffer

/-- The tracked entry `r` after the byte pump ran on its request `req`: the request has
lost the bytes read, the accumulator `second_.second_` has gained them. -/
def pumpEntry (r : NetworkResourceRequest) (req : HttpRequest) : NetworkResourceRequest :=
  { first_ := some (pump req r.second_.second_).1,
    second_ := { first_ := r.second_.first_, second_ := (pump req r.second_.second_).2 } }

/-- The body of the loop over `httpRequests_` in `HandleUpdate`, at iterator position
`it` holding the entry `r`. The second component tells whether the body left the loop
with `break`. `ProcessResource` is handed `GetData()` and `GetSize()` of the accumulator,
a `VectorBuffer`, which keeps no zero byte behind its data. -/
def pollBody (b : Build) (e : Engine) (s : DState) (it : Nat) (r : NetworkResourceRequest) :
    DState × Bool :=
  match r.first_ with
  | some req =>
    if req.state = HttpRequestState.HTTP_INITIALIZING then (s, false)
    else if req.state = HttpRequestState.HTTP_ERROR then
      ({ s with
          cache := logLine s.cache LogLevel.error
            "Failed to load resource from url due to error: %s" [LogArg.str (c_str req.error)],
          httpRequests := s.httpRequests.eraseIdx it }, true)
    else if req.state = HttpRequestState.HTTP_CLOSED then
      if req.GetAvailableSize > 0 then
        ({ s with httpRequests := s.httpRequests.set it (pumpEntry r req) }, false)
      else if r.second_.second_.length > 0 then
        let filename := r.second_.first_
        let c0 := logLine s.cache LogLevel.info
          "Remote resource %s downloaded from %s, size = %d"
          [LogArg.str (c_str filename), LogArg.str (c_str req.url),
            LogArg.int r.second_.second_.length]
        let c1 := ProcessResource b e c0 filename r.second_.second_
        let c2 := if EndsWith filename ".as".toList then StartSingleScript b e c1 filename else c1
        ({ s with cache := c2, httpRequests := s.httpRequests.eraseIdx it }, true)
      else (s, false)
    else (s, false)
  | none => ({ s with httpRequests := s.httpRequests.eraseIdx it }, false)

/-- The loop `for (it = Begin(); it != End(); ++it)` over `httpRequests_`. `Erase(it)`
leaves `it` at the same position, and `++it` follows unless the body left with `break`.
The result is `none` when the iterator is dereferenced beyond `End()` (undefined in the
source). Every turn advances `it`, so `fuel` above the number of entries is enough. -/
def pollLoop (b : Build) (e : Engine) : Nat → DState → Nat → Option DState
  | 0, _, _ => none
  | fuel + 1, s, it =>
    if it = s.httpRequests.length then some s
    else
      match s.httpRequests[it]? with
      | none => none
      | some r =>
        if (pollBody b e s it r).2 then some (pollBody b e s it r).1
        else pollLoop b e fuel (pollBody b e s it r).1 (it + 1)

/-- Embeds `DynamicResourceCache::HandleUpdate`. -/
def HandleUpdate (b : Build) (e : Engine) (net : Network) (s : DState) : Option DState :=
  if b.network then
    pollLoop b e
      ((issueLoop net s.remoteResources.length s).httpRequests.length + 1)
      (issueLoop net s.remoteResources.length s) 0
  else some s

/-- Ticks with network progress in between: before each tick the environment rewrites
the tracked requests with the next function of the list. -/
def runTicks (b : Build) (e : Engine) (net : Network) :
    List (List NetworkResourceRequest → List NetworkResourceRequest) → DState → Option DState
  | [], s => some s
  | g :: gs, s =>
    match HandleUpdate b e net { s with httpRequests := g s.httpRequests } with
    | some s1 => runTicks b e net gs s1
    | none => none

/-- A tracked entry without a null request. -/
def nonNull (r : NetworkResourceRequest) : Bool := r.first_.isSome

/-- A tracked entry the poller passes over untouched: its request is initializing or
open, or is closed with no byte available and nothing accumulated. -/
def Stuck (r : NetworkResourceRequest) : Bool :=
  match r.first_ with
  | some req =>
    decide (req.state = HttpRequestState.HTTP_INITIALIZING) ||
      decide (req.state = HttpRequestState.HTTP_OPEN) ||
      (decide (req.state = HttpRequestState.HTTP_CLOSED) && req.available.isEmpty
        && r.second_.second_.isEmpty)
  | none => false

/-- A tracked entry the poller removes when it visits it: its request is in error, or is
closed with no byte available and a non-empty accumulator. -/
def Removable (r : NetworkResourceRequest) : Bool :=
  match r.first_ with
  | some req =>
    decide (req.state = HttpRequestState.HTTP_ERROR) ||
      (decide (req.state = HttpRequestState.HTTP_CLOSED) && req.available.isEmpty
        && !r.second_.second_.isEmpty)
  | none => false

end DynamicResourceCache

namespace WebResourceCache
open Urho3D

/-- Embeds `WebResourceCache::StartScripts`. -/
def StartScripts (e : Engine) (s : Cache) : Cache := s.asScripts.foldl (startOne e) s

/-- Embeds `WebResourceCache::StartSingleScript`. The index expression
`asScripts_[filename]` is only evaluated for a key the map contains. -/
def StartSingleScript (e : Engine) (s : Cache) (filename : Str) : Cache :=
  if mapContains s.asScripts filename then
    match mapGet s.asScripts filename with
    | some file =>
      if GetFunction e s.registry file then { s with executed := s.executed ++ [file] }
      else s
    | none => s
  else s

/-- The free function `AddResource` bound into JavaScript: `resourceCacheObject` is the
global pointer to the cache (possibly null); the result is the returned `size_t`. -/
def AddResource (resourceCacheObject : Option State) (filename content : Str) :
    Option State × Nat :=
  match resourceCacheObject with
  | some s => (some (AddToQueue s filename content), content.length)
  | none => (none, 0)

end WebResourceCache

namespace DynamicResourceCache
open Urho3D

/-- The handlers `ProcessResource` selects between; `RunScript` stands for the `.js`
branch (`emscripten_run_script` in the Emscripten build, nothing otherwise). -/
inductive Handler where
  | AddAngelScriptFile | AddLuaScriptFile | AddXMLFile | AddJSONFile | AddGLSLShader
  | AddModel | AddImageFile | RunScript
deriving DecidableEq, Repr

/-- The suffix tests of `ProcessResource` (with `IsImage` written out) in the order the
`if` / `else if` chain makes them, each with the handler of its branch. -/
def chain : List (Str × Handler) :=
  [(".as".toList, Handler.AddAngelScriptFile),
   (".lua".toList, Handler.AddLuaScriptFile),
   (".xml".toList, Handler.AddXMLFile),
   (".json".toList, Handler.AddJSONFile),
   (".glsl".toList, Handler.AddGLSLShader),
   (".mdl".toList, Handler.AddModel),
   (".dds".toList, Handler.AddImageFile),
   (".jpg".toList, Handler.AddImageFile),
   (".jpeg".toList, Handler.AddImageFile),
   (".png".toList, Handler.AddImageFile),
   (".icns".toList, Handler.AddImageFile),
   (".js".toList, Handler.RunScript)]

/-- The handler of the first test in `order` that the file name passes, if any. -/
def selectHandler (order : List (Str × Handler)) (filename : Str) : Option Handler :=
  (order.find? (fun p => EndsWith filename p.1)).map (fun p => p.2)

/-- What `ProcessResource` does once a handler is selected; with no handler it logs the
error of the final `else`. -/
def runHandler (h : Option Handler) (b : Build) (e : Engine) (s : Cache)
    (filename content : Str) : Cache :=
  match h with
  | some Handler.AddAngelScriptFile => AddAngelScriptFile b e s filename content
  | some Handler.AddLuaScriptFile => AddLuaScriptFile b e s filename content
  | some Handler.AddXMLFile => AddXMLFile b e s filename content
  | some Handler.AddJSONFile => AddJSONFile b e s filename content
  | some Handler.AddGLSLShader => AddGLSLShader b e s filename content
  | some Handler.AddModel => AddModel b e s filename content
  | some Handler.AddImageFile => AddImageFile b e s filename content
  | some Handler.RunScript =>
    if b.emscripten then { s with jsRun := s.jsRun ++ [readCString content] } else s
  | none =>
    logLine s LogLevel.error "Unable to process file %s, no handler implemented"
      [LogArg.str (c_str filename)]

/-- One public call made on a `DynamicResourceCache` by its environment. -/
inductive DOp where
  | load (url filename : Str)
  | process (filename content : Str)
  | tick
deriving DecidableEq, Repr

/-- Perform one public call (`none`: the tick ran into undefined behaviour). -/
def dstep (b : Build) (e : Engine) (net : Network) (s : DState) : DOp → Option DState
  | DOp.load url filename => some (LoadResourceFromUrl b s url filename)
  | DOp.process filename content =>
    some { s with cache := ProcessResource b e s.cache filename content }
  | DOp.tick => HandleUpdate b e net s

/-- Perform a sequence of public calls, first to last. -/
def drun (b : Build) (e : Engine) (net : Network) : DState → List DOp → Option DState
  | s, [] => some s
  | s, op :: ops =>
    match dstep b e net s op with
    | some s1 => drun b e net s1 ops
    | none => none

end DynamicResourceCache

namespace DynamicResourceCache
open Urho3D

/-- The byte pump run `rounds` times in a row on the same request and accumulator: one
run per tick that finds bytes available, with no new byte arriving in between. -/
def pumpRounds : Nat → HttpRequest → Str → HttpRequest × Str
  | 0, req, buffer => (req, buffer)
  | rounds + 1, req, buffer => pumpRounds rounds (pump req buffer).1 (pump req buffer).2

end DynamicResourceCache

/-! ## Suffix tests and the dispatch chain of `ProcessResource` -/

namespace Urho3D

theorem endsWith_disjoint {f a b : Str} (hab : EndsWith b a = false)
    (hba : EndsWith a b = false) (ha : EndsWith f a = true) : EndsWith f b = false := by
  cases hb : EndsWith f b with
  | false => rfl
  | true =>
    exfalso
    unfold EndsWith at *
    rcases List.suffix_or_suffix_of_suffix (List.isSuffixOf_iff_suffix.mp ha)
      (List.isSuffixOf_iff_suffix.mp hb) with h | h
    · rw [List.isSuffixOf_iff_suffix.mpr h] at hab
      exact Bool.noConfusion hab
    · rw [List.isSuffixOf_iff_suffix.mpr h] at hba
      exact Bool.noConfusion hba

end Urho3D

namespace DynamicResourceCache
open Urho3D

theorem isImage_iff (f : Str) :
    IsImage f = true ↔
      (EndsWith f ".dds".toList = true ∨ EndsWith f ".jpg".toList = true ∨
        EndsWith f ".jpeg".toList = true ∨ EndsWith f ".png".toList = true ∨
        EndsWith f ".icns".toList = true) := by
  unfold IsImage
  simp only [Bool.or_eq_true]
  tauto

/-- A file name with an image suffix ends with no suffix that is incomparable with all
five image suffixes. -/
theorem isImage_disjoint {f : Str} (h : IsImage f = true) (x : Str)
    (a1 : EndsWith x ".dds".toList = false) (a2 : EndsWith x ".jpg".toList = false)
    (a3 : EndsWith x ".jpeg".toList = false) (a4 : EndsWith x ".png".toList = false)
    (a5 : EndsWith x ".icns".toList = false) (b1 : EndsWith ".dds".toList x = false)
    (b2 : EndsWith ".jpg".toList x = false) (b3 : EndsWith ".jpeg".toList x = false)
    (b4 : EndsWith ".png".toList x = false) (b5 : EndsWith ".icns".toList x = false) :
    EndsWith f x = false := by
  rcases (isImage_iff f).mp h with h | h | h | h | h
  · exact endsWith_disjoint a1 b1 h
  · exact endsWith_disjoint a2 b2 h
  · exact endsWith_disjoint a3 b3 h
  · exact endsWith_disjoint a4 b4 h
  · exact endsWith_disjoint a5 b5 h

theorem processResource_as (b : Build) (e : Engine) (s : Cache) (f c : Str)
    (h : EndsWith f ".as".toList = true) :
    ProcessResource b e s f c = AddAngelScriptFile b e s f c := by
  simp only [ProcessResource, h, if_true]

theorem processResource_lua (b : Build) (e : Engine) (s : Cache) (f c : Str)
    (h : EndsWith f ".lua".toList = true) :
    ProcessResource b e s f c = AddLuaScriptFile b e s f c := by
  have h1 := endsWith_disjoint (b := ".as".toList) (by decide) (by decide) h
  simp only [ProcessResource, h, h1, if_true, Bool.false_eq_true, if_false]

theorem processResource_xml (b : Build) (e : Engine) (s : Cache) (f c : Str)
    (h : EndsWith f ".xml".toList = true) :
    ProcessResource b e s f c = AddXMLFile b e s f c := by
  have h1 := endsWith_disjoint (b := ".as".toList) (by decide) (by decide) h
  have h2 := endsWith_disjoint (b := ".lua".toList) (by decide) (by decide) h
  simp only [ProcessResource, h, h1, h2, if_true, Bool.false_eq_true, if_false]

theorem processResource_json (b : Build) (e : Engine) (s : Cache) (f c : Str)
    (h : EndsWith f ".json".toList = true) :
    ProcessResource b e s f c = AddJSONFile b e s f c := by
  have h1 := endsWith_disjoint (b := ".as".toList) (by decide) (by decide) h
  have h2 := endsWith_disjoint (b := ".lua".toList) (by decide) (by decide) h
  have h3 := endsWith_disjoint (b := ".xml".toList) (by decide) (by decide) h
  simp only [ProcessResource, h, h1, h2, h3, if_true, Bool.false_eq_true, if_false]

theorem processResource_glsl (b : Build) (e : Engine) (s : Cache) (f c : Str)
    (h : EndsWith f ".glsl".toList = true) :
    ProcessResource b e s f c = AddGLSLShader b e s f c := by
  have h1 := endsWith_disjoint (b := ".as".toList) (by decide) (by decide) h
  have h2 := endsWith_disjoint (b := ".lua".toList) (by decide) (by decide) h
  have h3 := endsWith_disjoint (b := ".xml".toList) (by decide) (by decide) h
  have h4 := endsWith_disjoint (b := ".json".toList) (by decide) (by decide) h
  simp only [ProcessResource, h, h1, h2, h3, h4, if_true, Bool.false_eq_true, if_false]

theorem processResource_mdl (b : Build) (e : Engine) (s : Cache) (f c : Str)
    (h : EndsWith f ".mdl".toList = true) :
    ProcessResource b e s f c = AddModel b e s f c := by
  have h1 := endsWith_disjoint (b := ".as".toList) (by decide) (by decide) h
  have h2 := endsWith_disjoint (b := ".lua".toList) (by decide) (by decide) h
  have h3 := endsWith_disjoint (b := ".xml".toList) (by decide) (by decide) h
  have h4 := endsWith_disjoint (b := ".json".toList) (by decide) (by decide) h
  have h5 := endsWith_disjoint (b := ".glsl".toList) (by decide) (by decide) h
  simp only [ProcessResource, h, h1, h2, h3, h4, h5, if_true, Bool.false_eq_true, if_false]

theorem processResource_image (b : Build) (e : Engine) (s : Cache) (f c : Str)
    (h : IsImage f = true) :
    ProcessResource b e s f c = AddImageFile b e s f c := by
  have h1 := isImage_disjoint h ".as".toList (by decide) (by decide) (by decide) (by decide)
    (by decide) (by decide) (by decide) (by decide) (by decide) (by decide)
  have h2 := isImage_disjoint h ".lua".toList (by decide) (by decide) (by decide) (by decide)
    (by decide) (by decide) (by decide) (by decide) (by decide) (by decide)
  have h3 := isImage_disjoint h ".xml".toList (by decide) (by decide) (by decide) (by decide)
    (by decide) (by decide) (by decide) (by decide) (by decide) (by decide)
  have h4 := isImage_disjoint h ".json".toList (by decide) (by decide) (by decide) (by decide)
    (by decide) (by decide) (by decide) (by decide) (by decide) (by decide)
  have h5 := isImage_disjoint h ".glsl".toList (by decide) (by decide) (by decide) (by decide)
    (by decide) (by decide) (by decide) (by decide) (by decide) (by decide)
  have h6 := isImage_disjoint h ".mdl".toList (by decide) (by decide) (by decide) (by decide)
    (by decide) (by decide) (by decide) (by decide) (by decide) (by decide)
  simp only [ProcessResource, h, h1, h2, h3, h4, h5, h6, if_true, Bool.false_eq_true, if_false]

end DynamicResourceCache

/-! ## The drain of `WebResourceCache` -/

namespace WebResourceCache
open Urho3D

theorem handleUpdate_cons (b : Build) (e : Engine) (s : State) (n c : Str) (rest : List Str)
    (hq : s.queue = n :: c :: rest) :
    HandleUpdate b e s =
      { cache := dispatch b e
          (logLine s.cache LogLevel.info "Processing queue item: %s" [LogArg.str (c_str n)])
          (c_str n) (c_str c),
        queue := rest,
        dispatched := s.dispatched ++ [(c_str n, c_str c)] } := by
  have hlen : (n :: c :: rest).length ≥ 2 := by simp
  simp only [HandleUpdate, hq, hlen, if_true, front, pop_front, List.headD_cons, List.tail_cons]

theorem handleUpdate_nil (b : Build) (e : Engine) (s : State) (hq : s.queue = []) :
    HandleUpdate b e s = s := by
  have hlen : ¬ ([] : List Str).length ≥ 2 := by simp
  simp only [HandleUpdate, hq, hlen, if_false]

end WebResourceCache

namespace WebResourceCache
open Urho3D

theorem flat_append (xs ys : List (Str × Str)) : flat (xs ++ ys) = flat xs ++ flat ys := by
  induction xs with
  | nil => rfl
  | cons p ps ih =>
    show p.1 :: p.2 :: flat (ps ++ ys) = p.1 :: p.2 :: flat ps ++ flat ys
    rw [ih]
    rfl

theorem run_append (b : Build) (e : Engine) (s : State) (xs ys : List Op) :
    run b e s (xs ++ ys) = run b e (run b e s xs) ys := by
  simp only [run, List.foldl_append]

theorem run_cons (b : Build) (e : Engine) (s : State) (op : Op) (ops : List Op) :
    run b e s (op :: ops) = run b e (step b e s op) ops := rfl

/-- The queue always holds the not yet dispatched pairs, and the dispatched pairs are the
`c_str()` readings of the pairs that left the queue, in order. -/
theorem run_invariant (b : Build) (e : Engine) (ops : List Op) :
    ∀ (s : State) (pending : List (Str × Str)), s.queue = flat pending →
      ∃ done rest, pending ++ enqueued ops = done ++ rest ∧
        (run b e s ops).dispatched = s.dispatched ++ done.map cut ∧
        (run b e s ops).queue = flat rest := by
  induction ops with
  | nil =>
    intro s pending hq
    exact ⟨[], pending, by simp [enqueued], by simp [run], by simpa [run] using hq⟩
  | cons op ops ih =>
    intro s pending hq
    cases op with
    | add f c =>
      have hq1 : (step b e s (Op.add f c)).queue = flat (pending ++ [(f, c)]) := by
        simp [step, AddToQueue, hq, flat_append, flat]
      obtain ⟨done, rest, h1, h2, h3⟩ := ih _ _ hq1
      refine ⟨done, rest, ?_, ?_, ?_⟩
      · rw [← h1]; simp [enqueued]
      · rw [run_cons, h2]; rfl
      · rw [run_cons, h3]
    | tick =>
      cases pending with
      | nil =>
        have hs : step b e s Op.tick = s := handleUpdate_nil b e s hq
        obtain ⟨done, rest, h1, h2, h3⟩ := ih s [] hq
        refine ⟨done, rest, ?_, ?_, ?_⟩
        · simpa [enqueued] using h1
        · rw [run_cons, hs, h2]
        · rw [run_cons, hs, h3]
      | cons p ps =>
        have hs : step b e s Op.tick = _ := handleUpdate_cons b e s p.1 p.2 (flat ps) hq
        obtain ⟨done, rest, h1, h2, h3⟩ := ih (step b e s Op.tick) ps (by rw [hs])
        refine ⟨p :: done, rest, ?_, ?_, ?_⟩
        · simp only [enqueued, List.cons_append] at h1 ⊢
          rw [h1]
        · rw [run_cons, h2, hs]
          simp [cut]
        · rw [run_cons, h3]

theorem run_adds (b : Build) (e : Engine) (pairs : List (Str × Str)) :
    ∀ s : State, run b e s (pairs.map (fun p => Op.add p.1 p.2))
      = { s with queue := s.queue ++ flat pairs } := by
  induction pairs with
  | nil => intro s; simp [run, flat]
  | cons p ps ih =>
    intro s
    rw [List.map_cons, run_cons, ih]
    simp [step, AddToQueue, flat]

theorem run_ticks (b : Build) (e : Engine) (pairs : List (Str × Str)) :
    ∀ s : State, s.queue = flat pairs →
      (run b e s (List.replicate pairs.length Op.tick)).dispatched
          = s.dispatched ++ pairs.map cut ∧
        (run b e s (List.replicate pairs.length Op.tick)).queue = [] := by
  induction pairs with
  | nil => intro s hq; simpa [run, flat] using hq
  | cons p ps ih =>
    intro s hq
    have hs : step b e s Op.tick = _ := handleUpdate_cons b e s p.1 p.2 (flat ps) hq
    obtain ⟨h1, h2⟩ := ih (step b e s Op.tick) (by rw [hs])
    rw [List.length_cons, List.replicate_succ, run_cons]
    refine ⟨?_, h2⟩
    rw [h1, hs]
    simp [cut]

end WebResourceCache

/-! ## The registry: look-up, load in place, create on a miss -/

namespace Urho3D

theorem load_length (reg : List Resource) (c : Str) (ok : Bool) :
    ∀ i, (Load reg i c ok).length = reg.length := by
  induction reg with
  | nil => intro i; rfl
  | cons r rs ih =>
    intro i
    cases i with
    | zero => rfl
    | succ i => simp [Load, ih]

theorem load_keys (reg : List Resource) (c : Str) (ok : Bool) :
    ∀ i, (Load reg i c ok).map (fun r => (r.type, r.name))
      = reg.map (fun r => (r.type, r.name)) := by
  induction reg with
  | nil => intro i; rfl
  | cons r rs ih =>
    intro i
    cases i with
    | zero => rfl
    | succ i => simp [Load, ih]

theorem getResource_load (reg : List Resource) (c : Str) (ok : Bool) (t : ResType) (n : Str) :
    ∀ i, GetResource (Load reg i c ok) t n = GetResource reg t n := by
  induction reg with
  | nil => intro i; rfl
  | cons r rs ih =>
    intro i
    cases i with
    | zero => rfl
    | succ i => simp [Load, GetResource, ih]

theorem load_get_same (reg : List Resource) (c : Str) (ok : Bool) :
    ∀ (i : Nat) (r : Resource), reg[i]? = some r →
      (Load reg i c ok)[i]? = some { r with data := some c, loaded := ok } := by
  induction reg with
  | nil => intro i r h; simp at h
  | cons x xs ih =>
    intro i r h
    cases i with
    | zero =>
      simp only [List.getElem?_cons_zero, Option.some.injEq] at h
      subst h
      simp [Load]
    | succ i =>
      simp only [List.getElem?_cons_succ] at h
      simpa [Load] using ih i r h

theorem load_get_other (reg : List Resource) (c : Str) (ok : Bool) :
    ∀ (i j : Nat), j ≠ i → (Load reg i c ok)[j]? = reg[j]? := by
  induction reg with
  | nil => intro i j _; rfl
  | cons x xs ih =>
    intro i j hne
    cases i with
    | zero =>
      cases j with
      | zero => exact absurd rfl hne
      | succ j => simp [Load]
    | succ i =>
      cases j with
      | zero => simp [Load]
      | succ j =>
        simp only [Load, List.getElem?_cons_succ]
        exact ih i j (fun h => hne (by rw [h]))

theorem getResource_get (reg : List Resource) (t : ResType) (n : Str) :
    ∀ i, GetResource reg t n = some i → ∃ r, reg[i]? = some r ∧ r.type = t ∧ r.name = n := by
  induction reg with
  | nil => intro i h; simp [GetResource] at h
  | cons x xs ih =>
    intro i h
    unfold GetResource at h
    by_cases hx : x.type = t ∧ x.name = n
    · rw [if_pos hx] at h
      simp only [Option.some.injEq] at h
      subst h
      exact ⟨x, by simp, hx.1, hx.2⟩
    · rw [if_neg hx] at h
      cases hg : GetResource xs t n with
      | none => rw [hg] at h; simp at h
      | some j =>
        rw [hg] at h
        simp only [Option.map_some', Option.some.injEq] at h
        subst h
        obtain ⟨r, h1, h2⟩ := ih j hg
        exact ⟨r, by simpa using h1, h2⟩

theorem getResource_none_iff (reg : List Resource) (t : ResType) (n : Str) :
    GetResource reg t n = none ↔ (t, n) ∉ reg.map (fun r => (r.type, r.name)) := by
  induction reg with
  | nil => simp [GetResource]
  | cons x xs ih =>
    unfold GetResource
    by_cases hx : x.type = t ∧ x.name = n
    · rw [if_pos hx]
      simp [hx.1, hx.2]
    · rw [if_neg hx]
      simp only [Option.map_eq_none', ih, List.map_cons, List.mem_cons, Prod.mk.injEq, not_or]
      constructor
      · intro h
        exact ⟨fun h' => hx ⟨h'.1.symm, h'.2.symm⟩, h⟩
      · intro h
        exact h.2

theorem getResource_append (r : Resource) (t : ResType) (n : Str) :
    ∀ reg : List Resource, GetResource (reg ++ [r]) t n =
      match GetResource reg t n with
      | some i => some i
      | none => if r.type = t ∧ r.name = n then some reg.length else none := by
  intro reg
  induction reg with
  | nil =>
    by_cases hr : r.type = t ∧ r.name = n
    · simp [GetResource, hr]
    · simp [GetResource, hr]
  | cons x xs ih =>
    by_cases hx : x.type = t ∧ x.name = n
    · simp [GetResource, hx]
    · cases hg : GetResource xs t n with
      | some j =>
        rw [hg] at ih
        simp [GetResource, hx, ih, hg]
      | none =>
        rw [hg] at ih
        by_cases hr : r.type = t ∧ r.name = n
        · simp [GetResource, hx, ih, hg, hr]
        · simp [GetResource, hx, ih, hg, hr]

theorem load_append_length (reg : List Resource) (r : Resource) (c : Str) (ok : Bool) :
    Load (reg ++ [r]) reg.length c ok = reg ++ [{ r with data := some c, loaded := ok }] := by
  induction reg with
  | nil => rfl
  | cons x xs ih => simp [Load, ih]

/-- The registry computed by the opening sequence of a materializer followed by `Load` is
the one `ingest` describes. -/
theorem registry_lookupOrCreate_loadInto (s : Cache) (t : ResType) (f c : Str) (fmt : String)
    (args : List LogArg) (ok : Bool) :
    (loadInto (lookupOrCreate s t f fmt args).1 (lookupOrCreate s t f fmt args).2 c ok).registry
      = ingest s.registry t f c ok := by
  unfold lookupOrCreate ingest
  cases hg : GetResource s.registry t f with
  | some i => rfl
  | none =>
    simp only [loadInto, logLine, AddManualResource]
    exact load_append_length s.registry _ c ok

theorem report_registry (b : Build) (s : Cache) (f : Str) (ok : Bool) :
    (report b s f ok).registry = s.registry := by
  unfold report
  split <;> rfl

theorem ingest_length_le (reg : List Resource) (t : ResType) (f c : Str) (ok : Bool) :
    (ingest reg t f c ok).length ≤ reg.length + 1 := by
  unfold ingest
  cases GetResource reg t f with
  | some i => simp [load_length]
  | none => simp

/-- Look-up first, create only on a miss. -/
theorem ingest_cases (reg : List Resource) (t : ResType) (f c : Str) (ok : Bool) :
    (∃ i, GetResource reg t f = some i ∧ ingest reg t f c ok = Load reg i c ok) ∨
    (GetResource reg t f = none ∧
      ingest reg t f c ok = reg ++ [{ type := t, name := f, data := some c, loaded := ok }]) := by
  unfold ingest
  cases GetResource reg t f with
  | some i => exact Or.inl ⟨i, rfl, rfl⟩
  | none => exact Or.inr ⟨rfl, rfl⟩

theorem ingest_keys_nodup (reg : List Resource) (t : ResType) (f c : Str) (ok : Bool)
    (h : (reg.map (fun r => (r.type, r.name))).Nodup) :
    ((ingest reg t f c ok).map (fun r => (r.type, r.name))).Nodup := by
  rcases ingest_cases reg t f c ok with ⟨i, _, h2⟩ | ⟨h1, h2⟩
  · rw [h2, load_keys]
    exact h
  · rw [h2, List.map_append, List.nodup_append]
    refine ⟨h, by simp, ?_⟩
    have hnot := (getResource_none_iff reg t f).mp h1
    intro k hk hk'
    simp only [List.map_cons, List.map_nil, List.mem_singleton] at hk'
    subst hk'
    exact hnot hk

/-- After `ingest`, looking the same type and name up finds an object holding `c`; on a
hit it is the object found before. -/
theorem ingest_getResource (reg : List Resource) (t : ResType) (f c : Str) (ok : Bool) :
    ∃ i r, GetResource (ingest reg t f c ok) t f = some i ∧
      (ingest reg t f c ok)[i]? = some r ∧ r.type = t ∧ r.name = f ∧
      r.data = some c ∧ r.loaded = ok ∧
      (∀ j, GetResource reg t f = some j → j = i) := by
  rcases ingest_cases reg t f c ok with ⟨i, h1, h2⟩ | ⟨h1, h2⟩
  · obtain ⟨r, hr, ht, hn⟩ := getResource_get reg t f i h1
    refine ⟨i, { r with data := some c, loaded := ok }, ?_, ?_, ht, hn, rfl, rfl, ?_⟩
    · rw [h2, getResource_load, h1]
    · rw [h2]
      exact load_get_same reg c ok i r hr
    · intro j hj
      rw [h1] at hj
      exact (Option.some.inj hj).symm
  · refine ⟨reg.length, { type := t, name := f, data := some c, loaded := ok }, ?_, ?_, rfl, rfl,
      rfl, rfl, ?_⟩
    · rw [h2, getResource_append, h1]
      simp
    · rw [h2]
      simp
    · intro j hj
      rw [h1] at hj
      exact Option.noConfusion hj

/-- Objects of another type or name are not found differently after `ingest`. -/
theorem ingest_getResource_other (reg : List Resource) (t t2 : ResType) (f n c : Str) (ok : Bool)
    (hne : ¬ (t = t2 ∧ f = n)) :
    GetResource (ingest reg t f c ok) t2 n = GetResource reg t2 n := by
  rcases ingest_cases reg t f c ok with ⟨i, _, h2⟩ | ⟨_, h2⟩
  · rw [h2, getResource_load]
  · rw [h2, getResource_append]
    cases GetResource reg t2 n with
    | some j => rfl
    | none => simp [hne]

end Urho3D

namespace DynamicResourceCache
open Urho3D

theorem addAngelScriptFile_registry (b : Build) (e : Engine) (s : Cache) (f c : Str)
    (hb : b.angelscript = true) :
    (AddAngelScriptFile b e s f c).registry
      = ingest s.registry ResType.ScriptFile f c (e.load ResType.ScriptFile f c) := by
  simp only [AddAngelScriptFile, hb, if_true, report_registry]
  exact registry_lookupOrCreate_loadInto s _ f c _ _ _

theorem addJSONFile_registry (b : Build) (e : Engine) (s : Cache) (f c : Str) :
    (AddJSONFile b e s f c).registry
      = ingest s.registry ResType.JSONFile f c (e.load ResType.JSONFile f c) := by
  simp only [AddJSONFile, report_registry, registry_lookupOrCreate_loadInto]

theorem addTechniqueFile_registry (b : Build) (e : Engine) (s : Cache) (f c : Str) :
    (AddTechniqueFile b e s f c).registry
      = ingest s.registry ResType.Technique f c (e.load ResType.Technique f c) := by
  simp only [AddTechniqueFile, report_registry, registry_lookupOrCreate_loadInto]

theorem addMaterialFile_registry (b : Build) (e : Engine) (s : Cache) (f c : Str) :
    (AddMaterialFile b e s f c).registry
      = ingest s.registry ResType.Material f c (e.load ResType.Material f c) := by
  simp only [AddMaterialFile, report_registry, registry_lookupOrCreate_loadInto]

theorem addXMLFile_generic (b : Build) (e : Engine) (s : Cache) (f c : Str)
    (h1 : e.xmlRoot c ≠ "material".toList) (h2 : e.xmlRoot c ≠ "technique".toList) :
    (AddXMLFile b e s f c).registry
      = ingest s.registry ResType.XMLFile f c (e.load ResType.XMLFile f c) := by
  simp only [AddXMLFile, h1, h2, if_false, report_registry, registry_lookupOrCreate_loadInto]

theorem addXMLFile_material (b : Build) (e : Engine) (s : Cache) (f c : Str)
    (h1 : e.xmlRoot c = "material".toList) :
    AddXMLFile b e s f c = AddMaterialFile b e s f c := by
  simp only [AddXMLFile, h1, if_true]

theorem addXMLFile_technique (b : Build) (e : Engine) (s : Cache) (f c : Str)
    (h1 : e.xmlRoot c ≠ "material".toList) (h2 : e.xmlRoot c = "technique".toList) :
    AddXMLFile b e s f c = AddTechniqueFile b e s f c := by
  unfold AddXMLFile
  rw [if_neg h1, if_pos h2]

theorem addGLSLShader_registry (b : Build) (e : Engine) (s : Cache) (f c : Str) :
    (AddGLSLShader b e s f c).registry
      = ingest s.registry ResType.Shader f c (e.load ResType.Shader f c) := by
  simp only [AddGLSLShader, report_registry, registry_lookupOrCreate_loadInto]

theorem addImageFile_registry (b : Build) (e : Engine) (s : Cache) (f c : Str) :
    (AddImageFile b e s f c).registry
      = ingest s.registry ResType.Texture2D f c (e.load ResType.Texture2D f c) := by
  simp only [AddImageFile, registry_lookupOrCreate_loadInto]

theorem addModel_registry (b : Build) (e : Engine) (s : Cache) (f c : Str) :
    (AddModel b e s f c).registry
      = ingest s.registry ResType.Model f c (e.load ResType.Model f c) := by
  simp only [AddModel, registry_lookupOrCreate_loadInto]

/-- What `ProcessResource` does to the registry for an item of the table. -/
theorem processResource_registry (b : Build) (e : Engine) (s : Cache) (f c : Str) (t : ResType)
    (h : Materializes b e f c t) :
    (ProcessResource b e s f c).registry = ingest s.registry t f c (e.load t f c) := by
  rcases h with ⟨h, hb, rfl⟩ | ⟨h, hr, rfl⟩ | ⟨h, hr, rfl⟩ | ⟨h, hr1, hr2, rfl⟩ | ⟨h, rfl⟩ |
    ⟨h, rfl⟩ | ⟨h, rfl⟩ | ⟨h, rfl⟩
  · rw [processResource_as b e s f c h, addAngelScriptFile_registry b e s f c hb]
  · rw [processResource_xml b e s f c h, addXMLFile_material b e s f c hr,
      addMaterialFile_registry]
  · have hm : e.xmlRoot c ≠ "material".toList := by rw [hr]; decide
    rw [processResource_xml b e s f c h, addXMLFile_technique b e s f c hm hr,
      addTechniqueFile_registry]
  · rw [processResource_xml b e s f c h, addXMLFile_generic b e s f c hr1 hr2]
  · rw [processResource_json b e s f c h, addJSONFile_registry]
  · rw [processResource_glsl b e s f c h, addGLSLShader_registry]
  · rw [processResource_mdl b e s f c h, addModel_registry]
  · rw [processResource_image b e s f c h, addImageFile_registry]

/-- Every call of `ProcessResource` either leaves the registry alone or performs one
look-up-or-create-then-load on it. -/
theorem processResource_registry_cases (b : Build) (e : Engine) (s : Cache) (f c : Str) :
    (ProcessResource b e s f c).registry = s.registry ∨
      ∃ t, (ProcessResource b e s f c).registry = ingest s.registry t f c (e.load t f c) := by
  by_cases h1 : EndsWith f ".as".toList = true
  · rw [processResource_as b e s f c h1]
    by_cases hb : b.angelscript = true
    · exact Or.inr ⟨ResType.ScriptFile, addAngelScriptFile_registry b e s f c hb⟩
    · left
      simp only [AddAngelScriptFile, hb, if_false]
      rfl
  by_cases h2 : EndsWith f ".lua".toList = true
  · rw [processResource_lua b e s f c h2]
    exact Or.inl rfl
  by_cases h3 : EndsWith f ".xml".toList = true
  · rw [processResource_xml b e s f c h3]
    by_cases hm : e.xmlRoot c = "material".toList
    · rw [addXMLFile_material b e s f c hm]
      exact Or.inr ⟨ResType.Material, addMaterialFile_registry b e s f c⟩
    · by_cases ht : e.xmlRoot c = "technique".toList
      · rw [addXMLFile_technique b e s f c hm ht]
        exact Or.inr ⟨ResType.Technique, addTechniqueFile_registry b e s f c⟩
      · exact Or.inr ⟨ResType.XMLFile, addXMLFile_generic b e s f c hm ht⟩
  by_cases h4 : EndsWith f ".json".toList = true
  · rw [processResource_json b e s f c h4]
    exact Or.inr ⟨ResType.JSONFile, addJSONFile_registry b e s f c⟩
  by_cases h5 : EndsWith f ".glsl".toList = true
  · rw [processResource_glsl b e s f c h5]
    exact Or.inr ⟨ResType.Shader, addGLSLShader_registry b e s f c⟩
  by_cases h6 : EndsWith f ".mdl".toList = true
  · rw [processResource_mdl b e s f c h6]
    exact Or.inr ⟨ResType.Model, addModel_registry b e s f c⟩
  by_cases h7 : IsImage f = true
  · rw [processResource_image b e s f c h7]
    exact Or.inr ⟨ResType.Texture2D, addImageFile_registry b e s f c⟩
  left
  unfold ProcessResource
  rw [if_neg h1, if_neg h2, if_neg h3, if_neg h4, if_neg h5, if_neg h6, if_neg h7]
  by_cases h8 : EndsWith f ".js".toList = true
  · rw [if_pos h8]
    by_cases hb : b.emscripten = true
    · rw [if_pos hb]
    · rw [if_neg hb]
  · rw [if_neg h8]
    rfl

end DynamicResourceCache

namespace Urho3D

theorem ingest_of_hit (reg : List Resource) (t : ResType) (f c : Str) (ok : Bool) (i : Nat)
    (h : GetResource reg t f = some i) : ingest reg t f c ok = Load reg i c ok := by
  unfold ingest
  rw [h]

/-- Ingesting the same type and name twice: the second `ingest` finds the object the
first one found or created and loads it in place. -/
theorem ingest_twice (reg : List Resource) (t : ResType) (f c1 c2 : Str) (ok1 ok2 : Bool) :
    (ingest (ingest reg t f c1 ok1) t f c2 ok2).length = (ingest reg t f c1 ok1).length ∧
    ∃ i r, GetResource (ingest reg t f c1 ok1) t f = some i ∧
      (ingest reg t f c1 ok1)[i]? = some r ∧ r.type = t ∧ r.name = f ∧ r.data = some c1 ∧
      GetResource (ingest (ingest reg t f c1 ok1) t f c2 ok2) t f = some i ∧
      (ingest (ingest reg t f c1 ok1) t f c2 ok2)[i]?
        = some { r with data := some c2, loaded := ok2 } ∧
      ∀ j, j ≠ i → (ingest (ingest reg t f c1 ok1) t f c2 ok2)[j]?
        = (ingest reg t f c1 ok1)[j]? := by
  obtain ⟨i, r, h1, h2, h3, h4, h5, _, _⟩ := ingest_getResource reg t f c1 ok1
  have hload : ingest (ingest reg t f c1 ok1) t f c2 ok2
      = Load (ingest reg t f c1 ok1) i c2 ok2 := ingest_of_hit _ t f c2 ok2 i h1
  rw [hload]
  refine ⟨load_length _ _ _ _, i, r, h1, h2, h3, h4, h5, ?_, ?_, ?_⟩
  · rw [getResource_load, h1]
  · exact load_get_same _ c2 ok2 i r h2
  · intro j hj
    exact load_get_other _ c2 ok2 i j hj

end Urho3D

namespace DynamicResourceCache
open Urho3D

theorem processAll_keys_nodup (b : Build) (e : Engine) (items : List (Str × Str)) :
    ∀ s : Cache, (s.registry.map (fun r => (r.type, r.name))).Nodup →
      ((processAll b e s items).registry.map (fun r => (r.type, r.name))).Nodup := by
  induction items with
  | nil => intro s h; exact h
  | cons item items ih =>
    intro s h
    show ((processAll b e (ProcessResource b e s item.1 item.2) items).registry.map _).Nodup
    apply ih
    rcases processResource_registry_cases b e s item.1 item.2 with h1 | ⟨t, h1⟩
    · rw [h1]; exact h
    · rw [h1]; exact ingest_keys_nodup _ _ _ _ _ h

end DynamicResourceCache

namespace WebResourceCache
open Urho3D

theorem dispatch_lua (b : Build) (e : Engine) (s : Cache) (f c : Str)
    (h : EndsWith f ".lua".toList = true) :
    dispatch b e s f c = AddLuaScriptFile b e s f c := by
  have h1 := endsWith_disjoint (b := ".as".toList) (by decide) (by decide) h
  simp only [dispatch, h, h1, if_true, Bool.false_eq_true, if_false]

theorem web_addTechniqueFile_registry (b : Build) (e : Engine) (s : Cache) (f c : Str) :
    (AddTechniqueFile b e s f c).registry
      = ingest s.registry ResType.Technique f c (e.load ResType.Technique f c) := by
  simp only [AddTechniqueFile, report_registry, registry_lookupOrCreate_loadInto]

theorem web_addMaterialFile_registry (b : Build) (e : Engine) (s : Cache) (f c : Str) :
    (AddMaterialFile b e s f c).registry
      = ingest s.registry ResType.Material f c (e.load ResType.Material f c) := by
  simp only [AddMaterialFile, report_registry, registry_lookupOrCreate_loadInto]

theorem web_addXMLFile_generic (b : Build) (e : Engine) (s : Cache) (f c : Str)
    (h1 : e.xmlRoot c ≠ "material".toList) (h2 : e.xmlRoot c ≠ "technique".toList) :
    (AddXMLFile b e s f c).registry
      = ingest s.registry ResType.XMLFile f c (e.load ResType.XMLFile f c) := by
  simp only [AddXMLFile, h1, h2, if_false, report_registry, registry_lookupOrCreate_loadInto]

theorem web_addXMLFile_material (b : Build) (e : Engine) (s : Cache) (f c : Str)
    (h1 : e.xmlRoot c = "material".toList) :
    AddXMLFile b e s f c = AddMaterialFile b e s f c := by
  simp only [AddXMLFile, h1, if_true]

theorem web_addXMLFile_technique (b : Build) (e : Engine) (s : Cache) (f c : Str)
    (h1 : e.xmlRoot c ≠ "material".toList) (h2 : e.xmlRoot c = "technique".toList) :
    AddXMLFile b e s f c = AddTechniqueFile b e s f c := by
  unfold AddXMLFile
  rw [if_neg h1, if_pos h2]

end WebResourceCache

/-! ## Create on a miss, script activation, `c_str`, the handler table -/

namespace Urho3D

theorem ingest_of_miss (reg : List Resource) (t : ResType) (f c : Str) (ok : Bool)
    (h : GetResource reg t f = none) :
    ingest reg t f c ok = reg ++ [{ type := t, name := f, data := some c, loaded := ok }] := by
  unfold ingest
  rw [h]

theorem startOne_frame (e : Engine) (s : Cache) (p : Str × Nat) :
    (startOne e s p).registry = s.registry ∧ (startOne e s p).asScripts = s.asScripts ∧
      (startOne e s p).callbacks = s.callbacks ∧
      (startOne e s p).executed
        = s.executed ++ (if GetFunction e s.registry p.2 then [p.2] else []) := by
  unfold startOne
  by_cases h : GetFunction e s.registry p.2 = true
  · rw [if_pos h, if_pos h]
    exact ⟨rfl, rfl, rfl, rfl⟩
  · rw [if_neg h, if_neg h, List.append_nil]
    exact ⟨rfl, rfl, rfl, rfl⟩

theorem foldl_startOne (e : Engine) (l : List (Str × Nat)) :
    ∀ s : Cache,
      (l.foldl (startOne e) s).registry = s.registry ∧
      (l.foldl (startOne e) s).asScripts = s.asScripts ∧
      (l.foldl (startOne e) s).callbacks = s.callbacks ∧
      (l.foldl (startOne e) s).executed
        = s.executed ++ (l.filter (fun p => GetFunction e s.registry p.2)).map (fun p => p.2) := by
  induction l with
  | nil => intro s; simp
  | cons p ps ih =>
    intro s
    obtain ⟨h1, h2, h3, h4⟩ := startOne_frame e s p
    obtain ⟨i1, i2, i3, i4⟩ := ih (startOne e s p)
    rw [List.foldl_cons]
    refine ⟨i1.trans h1, i2.trans h2, i3.trans h3, ?_⟩
    rw [i4, h4, h1]
    by_cases h : GetFunction e s.registry p.2 = true
    · simp [List.filter_cons, h]
    · simp [List.filter_cons, h]

theorem mapGet_isSome (m : List (Str × Nat)) (k : Str) :
    mapContains m k = true ↔ ∃ v, mapGet m k = some v := by
  unfold mapContains mapGet
  induction m with
  | nil => simp
  | cons p ps ih =>
    by_cases h : p.1 = k
    · simp [List.find?_cons, h]
    · simp only [List.any_cons, h, decide_False, Bool.false_or, List.find?_cons]
      exact ih

theorem c_str_split (x : Str) :
    ∃ tail, x = c_str x ++ tail ∧ (tail = [] ∨ tail.head? = some (Char.ofNat 0)) := by
  unfold c_str
  induction x with
  | nil => exact ⟨[], rfl, Or.inl rfl⟩
  | cons a as ih =>
    by_cases h : a = Char.ofNat 0
    · refine ⟨a :: as, ?_, Or.inr ?_⟩
      · simp [List.takeWhile_cons, h]
      · simp [h]
    · obtain ⟨tail, h1, h2⟩ := ih
      refine ⟨tail, ?_, h2⟩
      simp only [List.takeWhile_cons, bne_iff_ne, ne_eq, h, not_false_eq_true, decide_True,
        if_true, List.cons_append]
      exact congrArg (List.cons a) h1

theorem c_str_no_zero (x : Str) : Char.ofNat 0 ∉ c_str x := by
  unfold c_str
  intro h
  have := List.mem_takeWhile_imp h
  simp at this

theorem c_str_eq_iff (x : Str) : c_str x = x ↔ Char.ofNat 0 ∉ x := by
  constructor
  · intro h
    rw [← h]
    exact c_str_no_zero x
  · intro h
    unfold c_str
    rw [List.takeWhile_eq_self_iff]
    intro a ha
    simp only [bne_iff_ne, ne_eq]
    intro hz
    exact h (hz ▸ ha)

end Urho3D

namespace DynamicResourceCache
open Urho3D

/-- No suffix of the chain ends with another one. -/
theorem chain_suffixes_incomparable :
    ∀ x ∈ chain, ∀ y ∈ chain, x.1 ≠ y.1 → EndsWith x.1 y.1 = false ∧ EndsWith y.1 x.1 = false := by
  decide

/-- A suffix occurs once in the chain. -/
theorem chain_functional : ∀ x ∈ chain, ∀ y ∈ chain, x.1 = y.1 → x = y := by
  decide

/-- At most one test of the chain holds for a file name. -/
theorem chain_unique (f : Str) (x y : Str × Handler) (hx : x ∈ chain) (hy : y ∈ chain)
    (px : EndsWith f x.1 = true) (py : EndsWith f y.1 = true) : x = y := by
  by_contra hne
  have h1 : x.1 ≠ y.1 := fun h => hne (chain_functional x hx y hy h)
  obtain ⟨h2, h3⟩ := chain_suffixes_incomparable x hx y hy h1
  have := endsWith_disjoint h3 h2 px
  rw [py] at this
  exact Bool.noConfusion this

theorem selectHandler_perm (f : Str) (order : List (Str × Handler))
    (hp : order.Perm chain) : selectHandler order f = selectHandler chain f := by
  unfold selectHandler
  cases h1 : chain.find? (fun p => EndsWith f p.1) with
  | none =>
    have h2 : order.find? (fun p => EndsWith f p.1) = none := by
      rw [List.find?_eq_none] at h1 ⊢
      intro x hx
      exact h1 x (hp.mem_iff.mp hx)
    rw [h2]
  | some x =>
    have hx : x ∈ chain := List.mem_of_find?_eq_some h1
    have px : EndsWith f x.1 = true := by
      have := List.find?_some h1
      simpa using this
    cases h2 : order.find? (fun p => EndsWith f p.1) with
    | none =>
      rw [List.find?_eq_none] at h2
      exact absurd px (by simpa using h2 x (hp.mem_iff.mpr hx))
    | some y =>
      have hy : y ∈ chain := hp.mem_iff.mp (List.mem_of_find?_eq_some h2)
      have py : EndsWith f y.1 = true := by
        have := List.find?_some h2
        simpa using this
      rw [chain_unique f x y hx hy px py]

theorem processResource_eq_runHandler (b : Build) (e : Engine) (s : Cache) (f c : Str) :
    ProcessResource b e s f c = runHandler (selectHandler chain f) b e s f c := by
  unfold ProcessResource selectHandler chain IsImage
  simp only [List.find?_cons, List.find?_nil]
  cases h1 : EndsWith f ".as".toList
  case true => rfl
  cases h2 : EndsWith f ".lua".toList
  case true => rfl
  cases h3 : EndsWith f ".xml".toList
  case true => rfl
  cases h4 : EndsWith f ".json".toList
  case true => rfl
  cases h5 : EndsWith f ".glsl".toList
  case true => rfl
  cases h6 : EndsWith f ".mdl".toList
  case true => rfl
  cases h7 : EndsWith f ".dds".toList
  case true => rfl
  cases h8 : EndsWith f ".jpg".toList
  case true => rfl
  cases h9 : EndsWith f ".jpeg".toList
  case true => rfl
  cases h10 : EndsWith f ".png".toList
  case true => rfl
  cases h11 : EndsWith f ".icns".toList
  case true => rfl
  cases h12 : EndsWith f ".js".toList
  case true => rfl
  rfl

end DynamicResourceCache

/-! ## The remote fetch poller -/

namespace WebResourceCache
open Urho3D

theorem flat_length (l : List (Str × Str)) : (flat l).length = 2 * l.length := by
  induction l with
  | nil => rfl
  | cons p ps ih => simp only [flat, List.length_cons, ih]; omega

end WebResourceCache

namespace DynamicResourceCache
open Urho3D

theorem even_nonempty_cases (q : List Str) (he : Even q.length) (hne : q ≠ []) :
    ∃ a c rest, q = a :: c :: rest ∧ Even rest.length := by
  match q, he, hne with
  | [], _, hne => exact absurd rfl hne
  | [a], he, _ => simp at he
  | a :: c :: rest, he, _ =>
    refine ⟨a, c, rest, rfl, ?_⟩
    simp only [List.length_cons] at he
    rcases he with ⟨k, hk⟩
    exact ⟨k - 1, by omega⟩

theorem issueLoop_even (net : Network) :
    ∀ (fuel : Nat) (s : DState), Even s.remoteResources.length →
      Even (issueLoop net fuel s).remoteResources.length := by
  intro fuel
  induction fuel with
  | zero => intro s h; exact h
  | succ fuel ih =>
    intro s h
    unfold issueLoop
    by_cases hemp : s.remoteResources.isEmpty = true
    · rw [if_pos hemp]; exact h
    · rw [if_neg hemp]
      have hne : s.remoteResources ≠ [] := by
        intro h0; rw [h0] at hemp; exact hemp rfl
      obtain ⟨a, c, rest, hq, hr⟩ := even_nonempty_cases _ h hne
      apply ih
      simpa [issueOne, hq, PopFront] using hr

theorem issueLoop_remote_nil (net : Network) :
    ∀ (fuel : Nat) (s : DState), s.remoteResources.length ≤ fuel →
      (issueLoop net fuel s).remoteResources = [] := by
  intro fuel
  induction fuel with
  | zero =>
    intro s h
    exact List.length_eq_zero.mp (Nat.le_zero.mp h)
  | succ fuel ih =>
    intro s h
    unfold issueLoop
    by_cases hemp : s.remoteResources.isEmpty = true
    · rw [if_pos hemp]; exact List.isEmpty_iff.mp hemp
    · rw [if_neg hemp]
      apply ih
      simp only [issueOne, PopFront, List.length_tail]
      omega

theorem issueLoop_frame (net : Network) :
    ∀ (fuel : Nat) (s : DState),
      (issueLoop net fuel s).cache.registry = s.cache.registry ∧
      (issueLoop net fuel s).cache.asScripts = s.cache.asScripts ∧
      (issueLoop net fuel s).cache.callbacks = s.cache.callbacks ∧
      (issueLoop net fuel s).cache.executed = s.cache.executed ∧
      (issueLoop net fuel s).cache.jsRun = s.cache.jsRun ∧
      ∃ issued, (issueLoop net fuel s).httpRequests = s.httpRequests ++ issued ∧
        ∀ r ∈ issued, ∃ url, r.first_ = net.MakeHttpRequest url ∧ r.second_.second_ = [] := by
  intro fuel
  induction fuel with
  | zero => intro s; exact ⟨rfl, rfl, rfl, rfl, rfl, [], by simp [issueLoop], by simp⟩
  | succ fuel ih =>
    intro s
    unfold issueLoop
    by_cases hemp : s.remoteResources.isEmpty = true
    · rw [if_pos hemp]; exact ⟨rfl, rfl, rfl, rfl, rfl, [], by simp, by simp⟩
    · rw [if_neg hemp]
      obtain ⟨h1, h2, h3, h4, h5, issued, h6, h7⟩ := ih (issueOne net s)
      refine ⟨h1, h2, h3, h4, h5,
        ({ first_ := net.MakeHttpRequest (Front s.remoteResources),
           second_ := { first_ := Front (PopFront s.remoteResources), second_ := [] } } :
          NetworkResourceRequest) :: issued, ?_, ?_⟩
      · rw [h6]; simp [issueOne]
      · intro r hr
        rcases List.mem_cons.mp hr with hr | hr
        · exact ⟨Front s.remoteResources, by rw [hr], by rw [hr]⟩
        · exact h7 r hr

theorem pollBody_remote (b : Build) (e : Engine) (s : DState) (it : Nat)
    (r : NetworkResourceRequest) :
    (pollBody b e s it r).1.remoteResources = s.remoteResources := by
  unfold pollBody
  split
  · split_ifs <;> rfl
  · rfl

theorem pollLoop_remote (b : Build) (e : Engine) :
    ∀ (fuel : Nat) (s : DState) (it : Nat) (s1 : DState),
      pollLoop b e fuel s it = some s1 → s1.remoteResources = s.remoteResources := by
  intro fuel
  induction fuel with
  | zero => intro s it s1 h; simp [pollLoop] at h
  | succ fuel ih =>
    intro s it s1 h
    unfold pollLoop at h
    by_cases hit : it = s.httpRequests.length
    · rw [if_pos hit] at h
      rw [← Option.some.inj h]
    · rw [if_neg hit] at h
      cases hr : s.httpRequests[it]? with
      | none => rw [hr] at h; simp at h
      | some r =>
        rw [hr] at h
        simp only at h
        by_cases hb : (pollBody b e s it r).2 = true
        · rw [if_pos hb] at h
          rw [← Option.some.inj h]
          exact pollBody_remote b e s it r
        · rw [if_neg hb] at h
          rw [ih _ _ _ h]
          exact pollBody_remote b e s it r

theorem handleUpdate_remote_even (b : Build) (e : Engine) (net : Network) (s s1 : DState)
    (h : HandleUpdate b e net s = some s1) (he : Even s.remoteResources.length) :
    Even s1.remoteResources.length := by
  unfold HandleUpdate at h
  by_cases hb : b.network = true
  · rw [if_pos hb] at h
    rw [pollLoop_remote b e _ _ _ _ h]
    exact issueLoop_even net _ s he
  · rw [if_neg hb] at h
    rw [← Option.some.inj h]
    exact he

theorem drun_remote_even (b : Build) (e : Engine) (net : Network) (ops : List DOp) :
    ∀ s s1 : DState, Even s.remoteResources.length → drun b e net s ops = some s1 →
      Even s1.remoteResources.length := by
  induction ops with
  | nil =>
    intro s s1 he h
    simp only [drun, Option.some.injEq] at h
    rw [← h]; exact he
  | cons op ops ih =>
    intro s s1 he h
    unfold drun at h
    cases hs : dstep b e net s op with
    | none => rw [hs] at h; simp at h
    | some s2 =>
      rw [hs] at h
      simp only at h
      refine ih s2 s1 ?_ h
      cases op with
      | load url filename =>
        simp only [dstep, Option.some.injEq] at hs
        rw [← hs]
        unfold LoadResourceFromUrl
        split_ifs
        · simp only [List.length_append, List.length_singleton]
          rcases he with ⟨k, hk⟩
          exact ⟨k + 1, by omega⟩
        · exact he
      | process filename content =>
        simp only [dstep, Option.some.injEq] at hs
        rw [← hs]
        exact he
      | tick => exact handleUpdate_remote_even b e net s s2 hs he

end DynamicResourceCache

namespace Urho3D

theorem get_append_length {α : Type} (done todo : List α) (r : α) :
    (done ++ r :: todo)[done.length]? = some r := by
  induction done with
  | nil => simp
  | cons a as ih => simpa using ih

theorem eraseIdx_append_length {α : Type} (done todo : List α) (r : α) :
    (done ++ r :: todo).eraseIdx done.length = done ++ todo := by
  induction done with
  | nil => rfl
  | cons a as ih => simp [List.eraseIdx, ih]

theorem set_append_length {α : Type} (done todo : List α) (r y : α) :
    (done ++ r :: todo).set done.length y = done ++ y :: todo := by
  induction done with
  | nil => rfl
  | cons a as ih => simp [List.set, ih]

theorem mem_eraseIdx_of_ne {α : Type} (l : List α) (i : Nat) (x r : α)
    (hx : l[i]? = some x) (hr : r ∈ l) (hne : r ≠ x) : r ∈ l.eraseIdx i := by
  induction l generalizing i with
  | nil => simp at hr
  | cons a as ih =>
    cases i with
    | zero =>
      simp only [List.getElem?_cons_zero, Option.some.injEq] at hx
      subst hx
      rcases List.mem_cons.mp hr with h | h
      · exact absurd h hne
      · simpa using h
    | succ i =>
      simp only [List.getElem?_cons_succ] at hx
      simp only [List.eraseIdx_cons_succ, List.mem_cons]
      rcases List.mem_cons.mp hr with h | h
      · exact Or.inl h
      · exact Or.inr (ih i hx h)

theorem mem_set_of_ne {α : Type} (l : List α) (i : Nat) (x y r : α)
    (hx : l[i]? = some x) (hr : r ∈ l) (hne : r ≠ x) : r ∈ l.set i y := by
  induction l generalizing i with
  | nil => simp at hr
  | cons a as ih =>
    cases i with
    | zero =>
      simp only [List.getElem?_cons_zero, Option.some.injEq] at hx
      subst hx
      rcases List.mem_cons.mp hr with h | h
      · exact absurd h hne
      · simp [h]
    | succ i =>
      simp only [List.getElem?_cons_succ] at hx
      simp only [List.set_cons_succ, List.mem_cons]
      rcases List.mem_cons.mp hr with h | h
      · exact Or.inl h
      · exact Or.inr (ih i hx h)

end Urho3D

namespace DynamicResourceCache
open Urho3D

/-- The byte pump moves the first `k` available bytes, in order, to the end of the
accumulator and changes nothing else. -/
theorem pumpLoop_spec :
    ∀ (fuel i : Nat) (req : HttpRequest) (buffer : Str),
      ∃ k, pumpLoop fuel i req buffer
          = ({ req with available := req.available.drop k }, buffer ++ req.available.take k) ∧
        k ≤ req.available.length ∧
        (0 < fuel → i < req.available.length → 0 < k) := by
  intro fuel
  induction fuel with
  | zero =>
    intro i req buffer
    exact ⟨0, by simp [pumpLoop], Nat.zero_le _, fun h => absurd h (Nat.lt_irrefl 0)⟩
  | succ fuel ih =>
    intro i req buffer
    unfold pumpLoop
    by_cases hi : i < req.GetAvailableSize
    · rw [if_pos hi]
      cases ha : req.available with
      | nil =>
        simp [HttpRequest.GetAvailableSize, ha] at hi
      | cons a as =>
        obtain ⟨k, h1, h2, _⟩ := ih (i + 1) req.ReadByte.2 (buffer ++ [req.ReadByte.1])
        refine ⟨k + 1, ?_, ?_, fun _ _ => Nat.succ_pos k⟩
        · rw [h1]
          simp [HttpRequest.ReadByte, ha]
        · simp only [HttpRequest.ReadByte, ha, List.tail_cons] at h2
          simp only [List.length_cons]
          omega
    · rw [if_neg hi]
      refine ⟨0, by simp, Nat.zero_le _, fun _ h => absurd h hi⟩

theorem pump_spec (req : HttpRequest) (buffer : Str) :
    ∃ k, pump req buffer
        = ({ req with available := req.available.drop k }, buffer ++ req.available.take k) ∧
      k ≤ req.available.length ∧ (req.available ≠ [] → 0 < k) := by
  obtain ⟨k, h1, h2, h3⟩ := pumpLoop_spec req.GetAvailableSize 0 req buffer
  refine ⟨k, h1, h2, fun hne => ?_⟩
  have hpos : 0 < req.available.length := List.length_pos.mpr hne
  exact h3 hpos hpos

theorem pollLoop_step (b : Build) (e : Engine) (fuel : Nat) (s : DState) (it : Nat)
    (r : NetworkResourceRequest) (hr : s.httpRequests[it]? = some r) :
    pollLoop b e (fuel + 1) s it =
      if (pollBody b e s it r).2 then some (pollBody b e s it r).1
      else pollLoop b e fuel (pollBody b e s it r).1 (it + 1) := by
  have hlt : it < s.httpRequests.length := by
    by_contra h
    rw [List.getElem?_eq_none (Nat.le_of_not_lt h)] at hr
    exact Option.noConfusion hr
  have hne : it ≠ s.httpRequests.length := Nat.ne_of_lt hlt
  conv_lhs => unfold pollLoop
  rw [if_neg hne, hr]

theorem pollLoop_end (b : Build) (e : Engine) (fuel : Nat) (s : DState) :
    pollLoop b e (fuel + 1) s s.httpRequests.length = some s := by
  unfold pollLoop
  rw [if_pos rfl]

theorem pollBody_null (b : Build) (e : Engine) (s : DState) (it : Nat)
    (r : NetworkResourceRequest) (h : r.first_ = none) :
    pollBody b e s it r = ({ s with httpRequests := s.httpRequests.eraseIdx it }, false) := by
  unfold pollBody
  rw [h]

theorem pollBody_stuck (b : Build) (e : Engine) (s : DState) (it : Nat)
    (r : NetworkResourceRequest) (h : Stuck r = true) :
    pollBody b e s it r = (s, false) := by
  unfold Stuck at h
  unfold pollBody
  cases hf : r.first_ with
  | none => rw [hf] at h; exact Bool.noConfusion h
  | some req =>
    rw [hf] at h
    simp only [Bool.or_eq_true, Bool.and_eq_true, decide_eq_true_eq, List.isEmpty_iff] at h
    rcases h with (h | h) | ⟨⟨h1, h2⟩, h3⟩
    · simp only []
      rw [if_pos h]
    · have e1 : req.state ≠ HttpRequestState.HTTP_INITIALIZING := by rw [h]; decide
      have e2 : req.state ≠ HttpRequestState.HTTP_ERROR := by rw [h]; decide
      have e3 : req.state ≠ HttpRequestState.HTTP_CLOSED := by rw [h]; decide
      simp only []
      rw [if_neg e1, if_neg e2, if_neg e3]
    · have e1 : req.state ≠ HttpRequestState.HTTP_INITIALIZING := by rw [h1]; decide
      have e2 : req.state ≠ HttpRequestState.HTTP_ERROR := by rw [h1]; decide
      have e4 : ¬ req.GetAvailableSize > 0 := by simp [HttpRequest.GetAvailableSize, h2]
      have e5 : ¬ r.second_.second_.length > 0 := by simp [h3]
      simp only []
      rw [if_neg e1, if_neg e2, if_pos h1, if_neg e4, if_neg e5]

theorem pollBody_error (b : Build) (e : Engine) (s : DState) (it : Nat)
    (r : NetworkResourceRequest) (req : HttpRequest) (hf : r.first_ = some req)
    (h : req.state = HttpRequestState.HTTP_ERROR) :
    pollBody b e s it r =
      ({ s with
          cache := logLine s.cache LogLevel.error
            "Failed to load resource from url due to error: %s" [LogArg.str (c_str req.error)],
          httpRequests := s.httpRequests.eraseIdx it }, true) := by
  have e1 : req.state ≠ HttpRequestState.HTTP_INITIALIZING := by rw [h]; decide
  unfold pollBody
  rw [hf]
  simp only []
  rw [if_neg e1, if_pos h]

theorem pollBody_complete (b : Build) (e : Engine) (s : DState) (it : Nat)
    (r : NetworkResourceRequest) (req : HttpRequest) (hf : r.first_ = some req)
    (h : req.state = HttpRequestState.HTTP_CLOSED) (ha : req.available = [])
    (hbuf : r.second_.second_ ≠ []) :
    pollBody b e s it r =
      ({ s with
          cache :=
            if EndsWith r.second_.first_ ".as".toList then
              StartSingleScript b e
                (ProcessResource b e
                  (logLine s.cache LogLevel.info
                    "Remote resource %s downloaded from %s, size = %d"
                    [LogArg.str (c_str r.second_.first_), LogArg.str (c_str req.url),
                      LogArg.int r.second_.second_.length])
                  r.second_.first_ r.second_.second_)
                r.second_.first_
            else
              ProcessResource b e
                (logLine s.cache LogLevel.info
                  "Remote resource %s downloaded from %s, size = %d"
                  [LogArg.str (c_str r.second_.first_), LogArg.str (c_str req.url),
                    LogArg.int r.second_.second_.length])
                r.second_.first_ r.second_.second_,
          httpRequests := s.httpRequests.eraseIdx it }, true) := by
  have e1 : req.state ≠ HttpRequestState.HTTP_INITIALIZING := by rw [h]; decide
  have e2 : req.state ≠ HttpRequestState.HTTP_ERROR := by rw [h]; decide
  have e3 : r.second_.second_.length > 0 := List.length_pos.mpr hbuf
  have e4 : ¬ req.GetAvailableSize > 0 := by simp [HttpRequest.GetAvailableSize, ha]
  unfold pollBody
  rw [hf]
  simp only []
  rw [if_neg e1, if_neg e2, if_pos h, if_neg e4, if_pos e3]

theorem pollBody_pump (b : Build) (e : Engine) (s : DState) (it : Nat)
    (r : NetworkResourceRequest) (req : HttpRequest) (hf : r.first_ = some req)
    (h : req.state = HttpRequestState.HTTP_CLOSED) (ha : req.available ≠ []) :
    pollBody b e s it r =
      ({ s with httpRequests := s.httpRequests.set it (pumpEntry r req) }, false) := by
  have e1 : req.state ≠ HttpRequestState.HTTP_INITIALIZING := by rw [h]; decide
  have e2 : req.state ≠ HttpRequestState.HTTP_ERROR := by rw [h]; decide
  have e3 : req.GetAvailableSize > 0 := List.length_pos.mpr ha
  unfold pollBody
  rw [hf]
  simp only []
  rw [if_neg e1, if_neg e2, if_pos h, if_pos e3]

end DynamicResourceCache

namespace Urho3D

theorem split_at_get {α : Type} (l : List α) (i : Nat) (x : α) (h : l[i]? = some x) :
    ∃ done todo, l = done ++ x :: todo ∧ done.length = i := by
  induction l generalizing i with
  | nil => simp at h
  | cons a as ih =>
    cases i with
    | zero =>
      simp only [List.getElem?_cons_zero, Option.some.injEq] at h
      exact ⟨[], as, by rw [h]; rfl, rfl⟩
    | succ i =>
      simp only [List.getElem?_cons_succ] at h
      obtain ⟨done, todo, h1, h2⟩ := ih i h
      exact ⟨a :: done, todo, by rw [h1]; rfl, by simp [h2]⟩

end Urho3D

namespace DynamicResourceCache
open Urho3D

theorem removable_not_stuck (r : NetworkResourceRequest) (h : Removable r = true) :
    Stuck r = false := by
  unfold Removable at h
  unfold Stuck
  cases hf : r.first_ with
  | none => rfl
  | some req =>
    rw [hf] at h
    simp only [Bool.or_eq_true, Bool.and_eq_true, decide_eq_true_eq, List.isEmpty_iff,
      Bool.not_eq_true', List.isEmpty_eq_false] at h
    rcases h with h | ⟨⟨h1, _⟩, h3⟩
    · simp [h]
    · have h4 : r.second_.second_.isEmpty = false := by
        cases hb : r.second_.second_ with
        | nil => exact absurd hb h3
        | cons a as => rfl
      simp [h1, h4]

/-- The four things the loop body can do at an entry. -/
theorem pollBody_cases (b : Build) (e : Engine) (s : DState) (it : Nat)
    (r : NetworkResourceRequest) :
    pollBody b e s it r = (s, false) ∨
    (Removable r = true ∧ ∃ c, pollBody b e s it r
        = ({ s with cache := c, httpRequests := s.httpRequests.eraseIdx it }, true)) ∨
    (∃ req, r.first_ = some req ∧ req.state = HttpRequestState.HTTP_CLOSED ∧
        req.available ≠ [] ∧
        pollBody b e s it r
          = ({ s with httpRequests := s.httpRequests.set it (pumpEntry r req) }, false)) ∨
    (r.first_ = none ∧
        pollBody b e s it r = ({ s with httpRequests := s.httpRequests.eraseIdx it }, false)) := by
  cases hf : r.first_ with
  | none => exact Or.inr (Or.inr (Or.inr ⟨rfl, pollBody_null b e s it r hf⟩))
  | some req =>
    by_cases h1 : req.state = HttpRequestState.HTTP_INITIALIZING
    · left
      exact pollBody_stuck b e s it r (by simp [Stuck, hf, h1])
    by_cases h2 : req.state = HttpRequestState.HTTP_ERROR
    · right; left
      exact ⟨by simp [Removable, hf, h2], _, pollBody_error b e s it r req hf h2⟩
    by_cases h3 : req.state = HttpRequestState.HTTP_CLOSED
    · by_cases ha : req.available = []
      · by_cases hb : r.second_.second_ = []
        · left
          exact pollBody_stuck b e s it r (by simp [Stuck, hf, h3, ha, hb])
        · right; left
          refine ⟨?_, _, pollBody_complete b e s it r req hf h3 ha hb⟩
          cases hbb : r.second_.second_ with
          | nil => exact absurd hbb hb
          | cons a as => simp [Removable, hf, h3, ha, hbb]
      · right; right; left
        exact ⟨req, rfl, h3, ha, pollBody_pump b e s it r req hf h3 ha⟩
    · left
      unfold pollBody
      rw [hf]
      simp only []
      rw [if_neg h1, if_neg h2, if_neg h3]

/-- A tick never touches an entry whose request is initializing or closed with nothing
delivered: it is still tracked, unchanged, when the loop ends. -/
theorem pollLoop_keeps_stuck (b : Build) (e : Engine) :
    ∀ (fuel : Nat) (s : DState) (it : Nat) (s1 : DState),
      pollLoop b e fuel s it = some s1 →
      ∀ r, Stuck r = true → r ∈ s.httpRequests → r ∈ s1.httpRequests := by
  intro fuel
  induction fuel with
  | zero => intro s it s1 h; simp [pollLoop] at h
  | succ fuel ih =>
    intro s it s1 h r hs hr
    by_cases hit : it = s.httpRequests.length
    · rw [hit, pollLoop_end] at h
      rw [← Option.some.inj h]; exact hr
    · cases hx : s.httpRequests[it]? with
      | none =>
        unfold pollLoop at h
        rw [if_neg hit, hx] at h
        exact Option.noConfusion h
      | some x =>
        rw [pollLoop_step b e fuel s it x hx] at h
        rcases pollBody_cases b e s it x with hc | ⟨hrem, c, hc⟩ | ⟨req, hf, hst, ha, hc⟩ |
          ⟨hf, hc⟩
        · rw [hc] at h
          simp only [Bool.false_eq_true, if_false] at h
          exact ih s (it + 1) s1 h r hs hr
        · rw [hc] at h
          simp only [if_true, Option.some.injEq] at h
          rw [← h]
          have hne : r ≠ x := by
            intro heq
            rw [heq, removable_not_stuck x hrem] at hs
            exact Bool.noConfusion hs
          exact mem_eraseIdx_of_ne _ it x r hx hr hne
        · rw [hc] at h
          simp only [Bool.false_eq_true, if_false] at h
          have hne : r ≠ x := by
            intro heq
            rw [heq] at hs
            have hal : req.available.isEmpty = false := by
              cases hav : req.available with
              | nil => exact absurd hav ha
              | cons a as => rfl
            simp [Stuck, hf, hst, hal] at hs
          exact ih _ (it + 1) s1 h r hs (mem_set_of_ne _ it x _ r hx hr hne)
        · rw [hc] at h
          simp only [Bool.false_eq_true, if_false] at h
          have hne : r ≠ x := by
            intro heq
            rw [heq] at hs
            simp [Stuck, hf] at hs
          exact ih _ (it + 1) s1 h r hs (mem_eraseIdx_of_ne _ it x r hx hr hne)

/-- A tick removes at most one entry that holds a request. -/
theorem pollLoop_count (b : Build) (e : Engine) :
    ∀ (fuel : Nat) (s : DState) (it : Nat) (s1 : DState),
      pollLoop b e fuel s it = some s1 →
      s.httpRequests.countP nonNull ≤ s1.httpRequests.countP nonNull + 1 := by
  intro fuel
  induction fuel with
  | zero => intro s it s1 h; simp [pollLoop] at h
  | succ fuel ih =>
    intro s it s1 h
    by_cases hit : it = s.httpRequests.length
    · rw [hit, pollLoop_end] at h
      rw [← Option.some.inj h]; exact Nat.le_succ _
    · cases hx : s.httpRequests[it]? with
      | none =>
        unfold pollLoop at h
        rw [if_neg hit, hx] at h
        exact Option.noConfusion h
      | some x =>
        rw [pollLoop_step b e fuel s it x hx] at h
        obtain ⟨done, todo, hl, hlen⟩ := split_at_get _ it x hx
        rcases pollBody_cases b e s it x with hc | ⟨_, c, hc⟩ | ⟨req, hf, _, _, hc⟩ | ⟨hf, hc⟩
        · rw [hc] at h
          simp only [Bool.false_eq_true, if_false] at h
          exact ih s (it + 1) s1 h
        · rw [hc] at h
          simp only [if_true, Option.some.injEq] at h
          rw [← h, hl, ← hlen, eraseIdx_append_length]
          simp only [List.countP_append, List.countP_cons]
          split_ifs <;> omega
        · rw [hc] at h
          simp only [Bool.false_eq_true, if_false] at h
          have := ih _ (it + 1) s1 h
          rw [hl, ← hlen, set_append_length] at this
          rw [hl]
          simp only [List.countP_append, List.countP_cons] at this ⊢
          have hx1 : nonNull x = true := by simp [nonNull, hf]
          have hx2 : nonNull (pumpEntry x req) = true := by simp [nonNull, pumpEntry]
          simp only [hx1, hx2, if_true] at this ⊢
          exact this
        · rw [hc] at h
          simp only [Bool.false_eq_true, if_false] at h
          have := ih _ (it + 1) s1 h
          rw [hl, ← hlen, eraseIdx_append_length] at this
          rw [hl]
          simp only [List.countP_append, List.countP_cons] at this ⊢
          have hx1 : nonNull x = false := by simp [nonNull, hf]
          simp only [hx1, Bool.false_eq_true, if_false, Nat.add_zero] at this ⊢
          exact this

end DynamicResourceCache

namespace DynamicResourceCache
open Urho3D

/-- The loop passes over entries it leaves alone. -/
theorem pollLoop_skip_stuck (b : Build) (e : Engine) (fuel : Nat) (s : DState) :
    ∀ (pre done rest : List NetworkResourceRequest),
      s.httpRequests = done ++ pre ++ rest → (∀ r ∈ pre, Stuck r = true) →
      pollLoop b e (fuel + pre.length) s done.length
        = pollLoop b e fuel s (done.length + pre.length) := by
  intro pre
  induction pre with
  | nil => intro done rest _ _; rfl
  | cons r pre ih =>
    intro done rest hl hs
    have hget : s.httpRequests[done.length]? = some r := by
      rw [hl, List.append_assoc]
      exact get_append_length done (pre ++ rest) r
    have h1 : fuel + (r :: pre).length = (fuel + pre.length) + 1 := by
      simp only [List.length_cons]; omega
    rw [h1, pollLoop_step b e _ s _ r hget,
      pollBody_stuck b e s _ r (hs r (List.mem_cons_self _ _))]
    simp only [Bool.false_eq_true, if_false]
    have := ih (done ++ [r]) rest (by rw [hl]; simp)
      (fun x hx => hs x (List.mem_cons_of_mem _ hx))
    simp only [List.length_append, List.length_singleton] at this
    rw [this]
    simp only [List.length_cons]
    congr 1
    omega

/-- With no null entry in the tracking set the loop ends normally; either no entry is
removed, or exactly one is and every entry behind it is as it was. -/
theorem pollLoop_nonNull (b : Build) (e : Engine) :
    ∀ (todo done : List NetworkResourceRequest) (s : DState) (fuel : Nat),
      s.httpRequests = done ++ todo → (∀ r ∈ done, nonNull r = true) →
      (∀ r ∈ todo, nonNull r = true) → todo.length + 1 ≤ fuel →
      ∃ s1, pollLoop b e fuel s done.length = some s1 ∧
        (∀ r ∈ s1.httpRequests, nonNull r = true) ∧
        ((∃ mid, mid.length = todo.length ∧ s1.httpRequests = done ++ mid) ∨
          (∃ k mid, k < todo.length ∧ mid.length = k ∧
            s1.httpRequests = done ++ mid ++ todo.drop (k + 1))) := by
  intro todo
  induction todo with
  | nil =>
    intro done s fuel hl hd _ hf
    obtain ⟨f, rfl⟩ : ∃ f, fuel = f + 1 := ⟨fuel - 1, by simp at hf; omega⟩
    have hlen : done.length = s.httpRequests.length := by rw [hl]; simp
    refine ⟨s, by rw [hlen]; exact pollLoop_end b e f s, ?_, Or.inl ⟨[], rfl, by simpa using hl⟩⟩
    intro r hr
    rw [hl] at hr
    exact hd r (by simpa using hr)
  | cons x todo ih =>
    intro done s fuel hl hd ht hf
    obtain ⟨f, rfl⟩ : ∃ f, fuel = f + 1 := ⟨fuel - 1, by simp at hf; omega⟩
    have hf1 : todo.length + 1 ≤ f := by simp only [List.length_cons] at hf; omega
    have hget : s.httpRequests[done.length]? = some x := by
      rw [hl]; exact get_append_length done todo x
    have hxn : nonNull x = true := ht x (List.mem_cons_self _ _)
    have htn : ∀ r ∈ todo, nonNull r = true := fun r hr => ht r (List.mem_cons_of_mem _ hr)
    rw [pollLoop_step b e f s _ x hget]
    rcases pollBody_cases b e s done.length x with hc | ⟨_, c, hc⟩ | ⟨req, hfx, _, _, hc⟩ |
      ⟨hfx, hc⟩
    · rw [hc]
      simp only [Bool.false_eq_true, if_false]
      have hd1 : ∀ r ∈ done ++ [x], nonNull r = true := by
        intro r hr
        rcases List.mem_append.mp hr with h | h
        · exact hd r h
        · rw [List.mem_singleton.mp h]; exact hxn
      obtain ⟨s1, h1, h2, h3⟩ := ih (done ++ [x]) s f (by rw [hl]; simp) hd1 htn hf1
      simp only [List.length_append, List.length_singleton] at h1
      refine ⟨s1, h1, h2, ?_⟩
      rcases h3 with ⟨mid, hm1, hm2⟩ | ⟨k, mid, hk, hm1, hm2⟩
      · exact Or.inl ⟨x :: mid, by simp [hm1], by rw [hm2]; simp⟩
      · refine Or.inr ⟨k + 1, x :: mid, by simp only [List.length_cons]; omega, by simp [hm1], ?_⟩
        rw [hm2]; simp
    · rw [hc]
      simp only [if_true]
      refine ⟨_, rfl, ?_, Or.inr ⟨0, [], by simp, rfl, ?_⟩⟩
      · intro r hr
        simp only [hl, eraseIdx_append_length] at hr
        rcases List.mem_append.mp hr with h | h
        · exact hd r h
        · exact htn r h
      · simp only [hl, eraseIdx_append_length]
        simp
    · rw [hc]
      simp only [Bool.false_eq_true, if_false]
      have hpn : nonNull (pumpEntry x req) = true := by simp [nonNull, pumpEntry]
      have hd1 : ∀ r ∈ done ++ [pumpEntry x req], nonNull r = true := by
        intro r hr
        rcases List.mem_append.mp hr with h | h
        · exact hd r h
        · rw [List.mem_singleton.mp h]; exact hpn
      obtain ⟨s1, h1, h2, h3⟩ := ih (done ++ [pumpEntry x req])
        { s with httpRequests := s.httpRequests.set done.length (pumpEntry x req) } f
        (by simp only [hl, set_append_length]; simp) hd1 htn hf1
      simp only [List.length_append, List.length_singleton] at h1
      refine ⟨s1, h1, h2, ?_⟩
      rcases h3 with ⟨mid, hm1, hm2⟩ | ⟨k, mid, hk, hm1, hm2⟩
      · exact Or.inl ⟨pumpEntry x req :: mid, by simp [hm1], by rw [hm2]; simp⟩
      · refine Or.inr ⟨k + 1, pumpEntry x req :: mid, by simp only [List.length_cons]; omega,
          by simp [hm1], ?_⟩
        rw [hm2]; simp
    · rw [nonNull, hfx] at hxn
      exact Bool.noConfusion hxn

theorem handleUpdate_network (b : Build) (e : Engine) (net : Network) (s : DState)
    (hb : b.network = true) :
    HandleUpdate b e net s
      = pollLoop b e ((issueLoop net s.remoteResources.length s).httpRequests.length + 1)
          (issueLoop net s.remoteResources.length s) 0 := by
  unfold HandleUpdate
  rw [if_pos hb]

/-- A tick keeps every entry whose request is initializing or closed with nothing
delivered. -/
theorem handleUpdate_keeps_stuck (b : Build) (e : Engine) (net : Network) (s s1 : DState)
    (h : HandleUpdate b e net s = some s1) (r : NetworkResourceRequest)
    (hs : Stuck r = true) (hr : r ∈ s.httpRequests) : r ∈ s1.httpRequests := by
  unfold HandleUpdate at h
  by_cases hb : b.network = true
  · rw [if_pos hb] at h
    obtain ⟨_, _, _, _, _, issued, hi, _⟩ := issueLoop_frame net s.remoteResources.length s
    exact pollLoop_keeps_stuck b e _ _ _ _ h r hs (by rw [hi]; exact List.mem_append_left _ hr)
  · rw [if_neg hb] at h
    rw [← Option.some.inj h]; exact hr

/-- Ticks with network progress in between: if every entry with the property `P` is one
the poller passes over, and the network always leaves some entry with `P` tracked, then
some entry with `P` is tracked at the end. -/
theorem runTicks_keeps_stuck (b : Build) (e : Engine) (net : Network)
    (P : NetworkResourceRequest → Prop) (hP : ∀ x, P x → Stuck x = true) :
    ∀ (gs : List (List NetworkResourceRequest → List NetworkResourceRequest)) (s s1 : DState),
      (∀ g ∈ gs, ∀ l, (∃ x ∈ l, P x) → ∃ x ∈ g l, P x) → (∃ x ∈ s.httpRequests, P x) →
      runTicks b e net gs s = some s1 → ∃ x ∈ s1.httpRequests, P x := by
  intro gs
  induction gs with
  | nil =>
    intro s s1 _ hr h
    simp only [runTicks, Option.some.injEq] at h
    rw [← h]; exact hr
  | cons g gs ih =>
    intro s s1 hg hr h
    unfold runTicks at h
    cases ht : HandleUpdate b e net { s with httpRequests := g s.httpRequests } with
    | none => rw [ht] at h; exact Option.noConfusion h
    | some s2 =>
      rw [ht] at h
      simp only at h
      refine ih s2 s1 (fun g' hg' => hg g' (List.mem_cons_of_mem _ hg')) ?_ h
      obtain ⟨x, hx, hpx⟩ := hg g (List.mem_cons_self _ _) _ hr
      exact ⟨x, handleUpdate_keeps_stuck b e net _ s2 ht x (hP x hpx) hx, hpx⟩

/-- With a network that never hands out a null request and no null entry tracked, a tick
ends normally and tracks no null entry afterwards. -/
theorem handleUpdate_total (b : Build) (e : Engine) (net : Network) (s : DState)
    (hnet : ∀ url, (net.MakeHttpRequest url).isSome = true)
    (hs : ∀ r ∈ s.httpRequests, nonNull r = true) :
    ∃ s1, HandleUpdate b e net s = some s1 ∧ (∀ r ∈ s1.httpRequests, nonNull r = true) := by
  by_cases hb : b.network = true
  · rw [handleUpdate_network b e net s hb]
    obtain ⟨_, _, _, _, _, issued, hi, hiss⟩ := issueLoop_frame net s.remoteResources.length s
    have hall : ∀ r ∈ (issueLoop net s.remoteResources.length s).httpRequests,
        nonNull r = true := by
      intro r hr
      rw [hi] at hr
      rcases List.mem_append.mp hr with h | h
      · exact hs r h
      · obtain ⟨url, h1, _⟩ := hiss r h
        rw [nonNull, h1]; exact hnet url
    obtain ⟨s1, h1, h2, _⟩ := pollLoop_nonNull b e
      (issueLoop net s.remoteResources.length s).httpRequests []
      (issueLoop net s.remoteResources.length s) _ (by simp) (by simp) hall (Nat.le_refl _)
    exact ⟨s1, h1, h2⟩
  · refine ⟨s, ?_, hs⟩
    unfold HandleUpdate
    rw [if_neg hb]

theorem runTicks_total (b : Build) (e : Engine) (net : Network)
    (hnet : ∀ url, (net.MakeHttpRequest url).isSome = true) :
    ∀ (gs : List (List NetworkResourceRequest → List NetworkResourceRequest)) (s : DState),
      (∀ g ∈ gs, ∀ l, (∀ r ∈ l, nonNull r = true) → ∀ r ∈ g l, nonNull r = true) →
      (∀ r ∈ s.httpRequests, nonNull r = true) →
      ∃ s1, runTicks b e net gs s = some s1 := by
  intro gs
  induction gs with
  | nil => intro s _ _; exact ⟨s, rfl⟩
  | cons g gs ih =>
    intro s hg hs
    obtain ⟨s2, h1, h2⟩ := handleUpdate_total b e net { s with httpRequests := g s.httpRequests }
      hnet (hg g (List.mem_cons_self _ _) _ hs)
    obtain ⟨s1, h3⟩ := ih s2 (fun g' hg' => hg g' (List.mem_cons_of_mem _ hg')) h2
    refine ⟨s1, ?_⟩
    unfold runTicks
    rw [h1]
    exact h3

end DynamicResourceCache

namespace DynamicResourceCache
open Urho3D

/-- The loop never touches the entries in front of the iterator. -/
theorem pollLoop_front (b : Build) (e : Engine) :
    ∀ (fuel : Nat) (s : DState) (it : Nat) (s1 : DState),
      pollLoop b e fuel s it = some s1 → s1.httpRequests.take it = s.httpRequests.take it := by
  intro fuel
  induction fuel with
  | zero => intro s it s1 h; simp [pollLoop] at h
  | succ fuel ih =>
    intro s it s1 h
    by_cases hit : it = s.httpRequests.length
    · rw [hit, pollLoop_end] at h
      rw [← Option.some.inj h]
    · cases hx : s.httpRequests[it]? with
      | none =>
        unfold pollLoop at h
        rw [if_neg hit, hx] at h
        exact Option.noConfusion h
      | some x =>
        rw [pollLoop_step b e fuel s it x hx] at h
        obtain ⟨done, todo, hl, hlen⟩ := split_at_get _ it x hx
        have hnext : ∀ (s2 : DState), pollLoop b e fuel s2 (it + 1) = some s1 →
            s2.httpRequests.take it = done → s1.httpRequests.take it = s.httpRequests.take it := by
          intro s2 h2 hd
          have h3 := ih s2 (it + 1) s1 h2
          have h4 : s1.httpRequests.take it = s2.httpRequests.take it := by
            have := congrArg (List.take it) h3
            simpa [List.take_take] using this
          rw [h4, hd, hl, ← hlen]
          simp
        rcases pollBody_cases b e s it x with hc | ⟨_, c, hc⟩ | ⟨req, _, _, _, hc⟩ | ⟨_, hc⟩
        · rw [hc] at h
          simp only [Bool.false_eq_true, if_false] at h
          exact hnext s h (by rw [hl, ← hlen]; simp)
        · rw [hc] at h
          simp only [if_true, Option.some.injEq] at h
          rw [← h]
          simp only [hl, ← hlen, eraseIdx_append_length]
          simp
        · rw [hc] at h
          simp only [Bool.false_eq_true, if_false] at h
          exact hnext _ h (by simp only [hl, ← hlen, set_append_length]; simp)
        · rw [hc] at h
          simp only [Bool.false_eq_true, if_false] at h
          exact hnext _ h (by simp only [hl, ← hlen, eraseIdx_append_length]; simp)

/-- An entry the byte pump ran on is still tracked, at its position, when the tick ends. -/
theorem pollLoop_pumped_stays (b : Build) (e : Engine) (fuel : Nat) (s : DState) (it : Nat)
    (r : NetworkResourceRequest) (req : HttpRequest) (hget : s.httpRequests[it]? = some r)
    (hf : r.first_ = some req) (hst : req.state = HttpRequestState.HTTP_CLOSED)
    (ha : req.available ≠ []) (s1 : DState) (h : pollLoop b e (fuel + 1) s it = some s1) :
    s1.httpRequests[it]? = some (pumpEntry r req) := by
  rw [pollLoop_step b e fuel s it r hget, pollBody_pump b e s it r req hf hst ha] at h
  simp only [Bool.false_eq_true, if_false] at h
  have h1 := pollLoop_front b e fuel _ (it + 1) s1 h
  obtain ⟨done, todo, hl, hlen⟩ := split_at_get _ it r hget
  simp only [hl, ← hlen, set_append_length] at h1
  have h2 : (s1.httpRequests.take (done.length + 1))[done.length]?
      = some (pumpEntry r req) := by
    rw [h1]
    simp [List.take_append_eq_append_take]
  rw [← hlen]
  rw [List.getElem?_take] at h2
  simpa using h2

end DynamicResourceCache

namespace DynamicResourceCache
open Urho3D

theorem pollBody_length_le (b : Build) (e : Engine) (s : DState) (it : Nat)
    (r : NetworkResourceRequest) :
    (pollBody b e s it r).1.httpRequests.length ≤ s.httpRequests.length := by
  rcases pollBody_cases b e s it r with hc | ⟨_, c, hc⟩ | ⟨req, _, _, _, hc⟩ | ⟨_, hc⟩
  · rw [hc]
  · rw [hc]; simp only [List.length_eraseIdx]; split_ifs <;> omega
  · rw [hc]; simp
  · rw [hc]; simp only [List.length_eraseIdx]; split_ifs <;> omega

/-- The fuel `HandleUpdate` gives the loop is enough: more fuel changes nothing, so the
result `none` always stands for an iterator beyond `End()`. -/
theorem pollLoop_fuel (b : Build) (e : Engine) :
    ∀ (fuel : Nat) (s : DState) (it : Nat), s.httpRequests.length + 1 ≤ fuel + it →
      pollLoop b e (fuel + 1) s it = pollLoop b e fuel s it := by
  intro fuel
  induction fuel with
  | zero =>
    intro s it h
    have h1 : it ≠ s.httpRequests.length := by omega
    have h2 : s.httpRequests[it]? = none := List.getElem?_eq_none (by omega)
    unfold pollLoop
    rw [if_neg h1, h2]
  | succ fuel ih =>
    intro s it h
    by_cases hit : it = s.httpRequests.length
    · rw [hit, pollLoop_end, pollLoop_end]
    · cases hx : s.httpRequests[it]? with
      | none =>
        have h0 : ∀ k, pollLoop b e (k + 1) s it = none := by
          intro k
          unfold pollLoop
          rw [if_neg hit, hx]
        rw [h0, h0]
      | some x =>
        rw [pollLoop_step b e _ s it x hx, pollLoop_step b e _ s it x hx]
        have hle := pollBody_length_le b e s it x
        rw [ih (pollBody b e s it x).1 (it + 1) (by omega)]

end DynamicResourceCache

/-! ## The script map and the exact count of the byte pump -/

namespace Urho3D

theorem mapGet_mapSet (m : List (Str × Nat)) (k : Str) (v : Nat) :
    mapGet (mapSet m k v) k = some v := by
  unfold mapSet mapGet
  by_cases hc : m.any (fun p => p.1 = k) = true
  · rw [if_pos hc]
    induction m with
    | nil => simp at hc
    | cons p ps ih =>
      by_cases hp : p.1 = k
      · simp [List.find?_cons, hp]
      · have hc2 : ps.any (fun p => p.1 = k) = true := by
          simpa [List.any_cons, hp] using hc
        simp only [List.map_cons, hp, if_false, List.find?_cons, decide_False]
        exact ih hc2
  · rw [if_neg hc]
    have hnone : m.find? (fun p => decide (p.1 = k)) = none := by
      rw [List.find?_eq_none]
      intro x hx hxk
      apply hc
      rw [List.any_eq_true]
      exact ⟨x, hx, hxk⟩
    simp [List.find?_append, hnone]

theorem mem_mapSet (m : List (Str × Nat)) (k : Str) (v : Nat) : (k, v) ∈ mapSet m k v := by
  unfold mapSet
  by_cases hc : m.any (fun p => p.1 = k) = true
  · rw [if_pos hc]
    rw [List.any_eq_true] at hc
    obtain ⟨x, hx, hxk⟩ := hc
    rw [List.mem_map]
    refine ⟨x, hx, ?_⟩
    simp only [decide_eq_true_eq] at hxk
    rw [if_pos hxk]
  · rw [if_neg hc]
    simp

theorem mapSet_length_of_contains (m : List (Str × Nat)) (k : Str) (v : Nat)
    (hc : mapContains m k = true) : (mapSet m k v).length = m.length := by
  unfold mapContains at hc
  unfold mapSet
  rw [if_pos hc, List.length_map]

theorem mapSet_length_le (m : List (Str × Nat)) (k : Str) (v : Nat) :
    (mapSet m k v).length ≤ m.length + 1 := by
  unfold mapSet
  split_ifs <;> simp

theorem mapContains_mapSet (m : List (Str × Nat)) (k : Str) (v : Nat) :
    mapContains (mapSet m k v) k = true :=
  (mapGet_isSome _ k).mpr ⟨v, mapGet_mapSet m k v⟩

theorem mapSet_of_contains (m : List (Str × Nat)) (k : Str) (v : Nat)
    (hc : m.any (fun p => p.1 = k) = true) :
    mapSet m k v = m.map (fun p => if p.1 = k then (k, v) else p) := by
  unfold mapSet
  rw [if_pos hc]

/-- Storing the same value under the same key once more changes nothing. -/
theorem mapSet_mapSet (m : List (Str × Nat)) (k : Str) (v : Nat) :
    mapSet (mapSet m k v) k v = mapSet m k v := by
  have hc : (mapSet m k v).any (fun p => p.1 = k) = true := mapContains_mapSet m k v
  rw [mapSet_of_contains _ k v hc]
  have hfix : ∀ p ∈ mapSet m k v, (if p.1 = k then (k, v) else p) = p := by
    intro p hp
    by_cases hpk : p.1 = k
    · rw [if_pos hpk]
      unfold mapSet at hp
      split_ifs at hp with h1
      · rw [List.mem_map] at hp
        obtain ⟨q, _, hq⟩ := hp
        by_cases hqk : q.1 = k
        · rw [if_pos hqk] at hq; exact hq
        · rw [if_neg hqk] at hq
          rw [hq] at hqk
          exact absurd hpk hqk
      · rcases List.mem_append.mp hp with hp | hp
        · exfalso
          apply h1
          rw [List.any_eq_true]
          exact ⟨p, hp, by simpa using hpk⟩
        · rw [List.mem_singleton] at hp
          exact hp.symm
    · rw [if_neg hpk]
  calc (mapSet m k v).map (fun p => if p.1 = k then (k, v) else p)
      = (mapSet m k v).map id := List.map_congr_left hfix
    _ = mapSet m k v := List.map_id _

/-- The address the opening sequence of a materializer returns is the one the look-up
finds afterwards. -/
theorem getResource_after_ingest (s : Cache) (t : ResType) (f c : Str) (fmt : String)
    (args : List LogArg) (ok : Bool) :
    GetResource (ingest s.registry t f c ok) t f = some (lookupOrCreate s t f fmt args).2 := by
  unfold lookupOrCreate
  cases hg : GetResource s.registry t f with
  | some i =>
    rw [ingest_of_hit _ _ _ _ _ i hg, getResource_load, hg]
  | none =>
    rw [ingest_of_miss _ _ _ _ _ hg, getResource_append, hg]
    simp

theorem lookupOrCreate_asScripts (s : Cache) (t : ResType) (f : Str) (fmt : String)
    (args : List LogArg) : (lookupOrCreate s t f fmt args).1.asScripts = s.asScripts := by
  unfold lookupOrCreate
  cases GetResource s.registry t f <;> rfl

theorem lookupOrCreate_snd_of_hit (s : Cache) (t : ResType) (f : Str) (fmt : String)
    (args : List LogArg) (i : Nat) (h : GetResource s.registry t f = some i) :
    (lookupOrCreate s t f fmt args).2 = i := by
  unfold lookupOrCreate
  rw [h]

theorem lookupOrCreate_snd_of_miss (s : Cache) (t : ResType) (f : Str) (fmt : String)
    (args : List LogArg) (h : GetResource s.registry t f = none) :
    (lookupOrCreate s t f fmt args).2 = s.registry.length := by
  unfold lookupOrCreate
  rw [h]

theorem report_asScripts (b : Build) (s : Cache) (f : Str) (ok : Bool) :
    (report b s f ok).asScripts = s.asScripts := by
  unfold report
  split <;> rfl

end Urho3D

namespace DynamicResourceCache
open Urho3D

theorem addAngelScriptFile_asScripts (b : Build) (e : Engine) (s : Cache) (f c : Str)
    (hb : b.angelscript = true) :
    (AddAngelScriptFile b e s f c).asScripts
      = mapSet s.asScripts f
          (lookupOrCreate s ResType.ScriptFile f "Creating new manual AngelScript resource %s"
            [LogArg.str (c_str f)]).2 := by
  simp only [AddAngelScriptFile, hb, if_true, report_asScripts, loadInto,
    lookupOrCreate_asScripts]

end DynamicResourceCache

namespace WebResourceCache
open Urho3D

theorem web_addAngelScriptFile_asScripts (b : Build) (e : Engine) (s : Cache) (f c : Str) :
    (AddAngelScriptFile b e s f c).asScripts
      = mapSet s.asScripts f
          (lookupOrCreate s ResType.ScriptFile f "Creating new manual AngelScript resource %s"
            [LogArg.str (c_str f)]).2 := by
  simp only [AddAngelScriptFile, report_asScripts, loadInto, lookupOrCreate_asScripts]

theorem web_addAngelScriptFile_registry (b : Build) (e : Engine) (s : Cache) (f c : Str) :
    (AddAngelScriptFile b e s f c).registry
      = ingest s.registry ResType.ScriptFile f c (e.load ResType.ScriptFile f c) := by
  simp only [AddAngelScriptFile, report_registry]
  exact registry_lookupOrCreate_loadInto s _ f c _ _ _

end WebResourceCache

namespace DynamicResourceCache
open Urho3D

theorem request_eta (req : HttpRequest) : { req with available := req.available } = req := by
  cases req; rfl

/-- The byte pump started at counter `i` with `n` bytes available makes
`(n - i + 1) / 2` turns, whatever fuel above that number it is given. -/
theorem pumpLoop_exact :
    ∀ (fuel i : Nat) (req : HttpRequest) (buffer : Str),
      (req.available.length - i + 1) / 2 ≤ fuel →
      pumpLoop fuel i req buffer
        = ({ req with available := req.available.drop ((req.available.length - i + 1) / 2) },
           buffer ++ req.available.take ((req.available.length - i + 1) / 2)) := by
  intro fuel
  induction fuel with
  | zero =>
    intro i req buffer h
    have hk : (req.available.length - i + 1) / 2 = 0 := Nat.le_zero.mp h
    rw [hk]
    simp [pumpLoop, request_eta]
  | succ fuel ih =>
    intro i req buffer h
    unfold pumpLoop
    by_cases hi : i < req.GetAvailableSize
    · rw [if_pos hi]
      cases ha : req.available with
      | nil => simp [HttpRequest.GetAvailableSize, ha] at hi
      | cons a as =>
        have hlen : req.available.length = as.length + 1 := by rw [ha]; rfl
        have hi2 : i < as.length + 1 := by
          simpa [HttpRequest.GetAvailableSize, ha] using hi
        have hk : (as.length + 1 - i + 1) / 2 = (as.length - (i + 1) + 1) / 2 + 1 := by
          omega
        have hfuel : (as.length - (i + 1) + 1) / 2 ≤ fuel := by
          rw [hlen] at h; omega
        have hih := ih (i + 1) req.ReadByte.2 (buffer ++ [req.ReadByte.1])
          (by simpa [HttpRequest.ReadByte, ha] using hfuel)
        rw [hih]
        simp only [HttpRequest.ReadByte, ha, List.tail_cons, List.headD_cons, List.length_cons,
          hk, List.drop_succ_cons, List.take_succ_cons, List.append_assoc,
          List.singleton_append]
    · rw [if_neg hi]
      have hk : (req.available.length - i + 1) / 2 = 0 := by
        simp only [HttpRequest.GetAvailableSize] at hi
        omega
      rw [hk]
      simp [request_eta]

/-- One run of the byte pump on `n` available bytes moves the first `(n + 1) / 2` of
them. -/
theorem pump_exact (req : HttpRequest) (buffer : Str) :
    pump req buffer
      = ({ req with available := req.available.drop ((req.available.length + 1) / 2) },
         buffer ++ req.available.take ((req.available.length + 1) / 2)) := by
  have h := pumpLoop_exact req.GetAvailableSize 0 req buffer
    (by simp only [HttpRequest.GetAvailableSize]; omega)
  simpa [pump] using h

theorem pumpRounds_all :
    ∀ (rounds : Nat) (req : HttpRequest) (buffer : Str), req.available.length ≤ rounds →
      pumpRounds rounds req buffer
        = ({ req with available := [] }, buffer ++ req.available) := by
  intro rounds
  induction rounds with
  | zero =>
    intro req buffer h
    have ha : req.available = [] := List.length_eq_zero.mp (Nat.le_zero.mp h)
    unfold pumpRounds
    rw [ha, List.append_nil, ← ha, request_eta]
  | succ rounds ih =>
    intro req buffer h
    unfold pumpRounds
    rw [pump_exact]
    rw [ih]
    · simp only [List.append_assoc, List.take_append_drop]
    · simp only [List.length_drop]
      omega

end DynamicResourceCache

namespace Urho3D

theorem lookupOrCreate_snd (s : Cache) (t : ResType) (f : Str) (fmt : String)
    (args : List LogArg) :
    (lookupOrCreate s t f fmt args).2 = (GetResource s.registry t f).getD s.registry.length := by
  unfold lookupOrCreate
  cases GetResource s.registry t f <;> rfl

/-- What follows for a state whose registry is the ingested one and whose script map is
the old one with `f` set to the looked-up-or-created address. -/
theorem recorded_core (s s1 : Cache) (f c : Str) (ok : Bool)
    (hreg : s1.registry = ingest s.registry ResType.ScriptFile f c ok)
    (hmap : s1.asScripts = mapSet s.asScripts f
      ((GetResource s.registry ResType.ScriptFile f).getD s.registry.length)) :
    GetResource s1.registry ResType.ScriptFile f
      = some ((GetResource s.registry ResType.ScriptFile f).getD s.registry.length) ∧
    mapGet s1.asScripts f
      = some ((GetResource s.registry ResType.ScriptFile f).getD s.registry.length) ∧
    (f, (GetResource s.registry ResType.ScriptFile f).getD s.registry.length) ∈ s1.asScripts ∧
    (mapContains s.asScripts f = true → s1.asScripts.length = s.asScripts.length) ∧
    s1.asScripts.length ≤ s.asScripts.length + 1 := by
  refine ⟨?_, ?_, ?_, ?_, ?_⟩
  · rw [hreg, getResource_after_ingest s ResType.ScriptFile f c "" [] ok, lookupOrCreate_snd]
  · rw [hmap, mapGet_mapSet]
  · rw [hmap]; exact mem_mapSet _ _ _
  · intro hc; rw [hmap]; exact mapSet_length_of_contains _ _ _ hc
  · rw [hmap]; exact mapSet_length_le _ _ _

theorem mem_executed_foldl_startOne (e : Engine) (s : Cache) (p : Str × Nat)
    (hp : p ∈ s.asScripts) (hf : GetFunction e s.registry p.2 = true) :
    p.2 ∈ (s.asScripts.foldl (startOne e) s).executed := by
  rw [(foldl_startOne e s.asScripts s).2.2.2]
  apply List.mem_append_right
  rw [List.mem_map]
  exact ⟨p, List.mem_filter.mpr ⟨hp, hf⟩, rfl⟩

end Urho3D

namespace DynamicResourceCache
open Urho3D

theorem startSingleScript_of_mapGet (b : Build) (e : Engine) (s : Cache) (f : Str) (file : Nat)
    (hb : b.angelscript = true) (hg : mapGet s.asScripts f = some file) :
    StartSingleScript b e s f
      = if GetFunction e s.registry file then { s with executed := s.executed ++ [file] }
        else s := by
  have hc : mapContains s.asScripts f = true := (mapGet_isSome _ f).mpr ⟨file, hg⟩
  unfold StartSingleScript
  rw [if_pos hb, if_pos hc, hg]

end DynamicResourceCache

namespace WebResourceCache
open Urho3D

theorem web_startSingleScript_of_mapGet (e : Engine) (s : Cache) (f : Str) (file : Nat)
    (hg : mapGet s.asScripts f = some file) :
    StartSingleScript e s f
      = if GetFunction e s.registry file then { s with executed := s.executed ++ [file] }
        else s := by
  have hc : mapContains s.asScripts f = true := (mapGet_isSome _ f).mpr ⟨file, hg⟩
  unfold StartSingleScript
  rw [if_pos hc, hg]

end WebResourceCache

/-! ## The `.js` branch and the completing branch of the poller -/

namespace Urho3D

theorem readCString_of_zero (c : Str) (h : Char.ofNat 0 ∈ c) :
    readCString c = CStringRead.text (c_str c) := by
  unfold readCString
  rw [if_pos h]

theorem readCString_of_no_zero (c : Str) (h : Char.ofNat 0 ∉ c) :
    readCString c = CStringRead.past c := by
  unfold readCString
  rw [if_neg h]

/-- A C-string read never yields exactly the bytes at the pointer as its text by their
number alone. -/
theorem readCString_ne_text (c : Str) : readCString c ≠ CStringRead.text c := by
  by_cases h : Char.ofNat 0 ∈ c
  · rw [readCString_of_zero c h]
    intro heq
    injection heq with heq
    exact ((c_str_eq_iff c).mp heq) h
  · rw [readCString_of_no_zero c h]
    intro heq
    exact CStringRead.noConfusion heq

theorem c_str_length_lt (c : Str) (h : Char.ofNat 0 ∈ c) : (c_str c).length < c.length := by
  obtain ⟨tail, h1, _⟩ := c_str_split c
  have hne : tail ≠ [] := by
    intro ht
    rw [ht, List.append_nil] at h1
    exact ((c_str_eq_iff c).mp h1.symm) h
  have hl : c.length = (c_str c).length + tail.length := by
    conv_lhs => rw [h1]
    exact List.length_append _ _
  have : 0 < tail.length := List.length_pos.mpr hne
  omega

end Urho3D

namespace DynamicResourceCache
open Urho3D

theorem processResource_js (b : Build) (e : Engine) (s : Cache) (f c : Str)
    (h : EndsWith f ".js".toList = true) :
    ProcessResource b e s f c
      = if b.emscripten then { s with jsRun := s.jsRun ++ [readCString c] } else s := by
  have h1 := endsWith_disjoint (b := ".as".toList) (by decide) (by decide) h
  have h2 := endsWith_disjoint (b := ".lua".toList) (by decide) (by decide) h
  have h3 := endsWith_disjoint (b := ".xml".toList) (by decide) (by decide) h
  have h4 := endsWith_disjoint (b := ".json".toList) (by decide) (by decide) h
  have h5 := endsWith_disjoint (b := ".glsl".toList) (by decide) (by decide) h
  have h6 := endsWith_disjoint (b := ".mdl".toList) (by decide) (by decide) h
  have i1 := endsWith_disjoint (b := ".dds".toList) (by decide) (by decide) h
  have i2 := endsWith_disjoint (b := ".jpg".toList) (by decide) (by decide) h
  have i3 := endsWith_disjoint (b := ".jpeg".toList) (by decide) (by decide) h
  have i4 := endsWith_disjoint (b := ".png".toList) (by decide) (by decide) h
  have i5 := endsWith_disjoint (b := ".icns".toList) (by decide) (by decide) h
  have hi : IsImage f = false := by
    simp only [IsImage, i1, i2, i3, i4, i5, Bool.or_self]
  simp only [ProcessResource, h, h1, h2, h3, h4, h5, h6, hi, if_true, Bool.false_eq_true,
    if_false]

theorem startSingleScript_registry (b : Build) (e : Engine) (s : Cache) (f : Str) :
    (StartSingleScript b e s f).registry = s.registry := by
  unfold StartSingleScript
  split_ifs
  · cases mapGet s.asScripts f with
    | none => rfl
    | some file => dsimp only; split_ifs <;> rfl
  · rfl
  · rfl

/-- The registry after the completing branch of the loop body: the accumulated bytes
are ingested under the target name. -/
theorem pollBody_complete_registry (b : Build) (e : Engine) (s : DState) (it : Nat)
    (r : NetworkResourceRequest) (req : HttpRequest) (hf : r.first_ = some req)
    (h : req.state = HttpRequestState.HTTP_CLOSED) (ha : req.available = [])
    (hbuf : r.second_.second_ ≠ []) (t : ResType)
    (hm : Materializes b e r.second_.first_ r.second_.second_ t) :
    (pollBody b e s it r).1.cache.registry
      = ingest s.cache.registry t r.second_.first_ r.second_.second_
          (e.load t r.second_.first_ r.second_.second_) := by
  rw [pollBody_complete b e s it r req hf h ha hbuf]
  dsimp only
  split_ifs
  · rw [startSingleScript_registry, processResource_registry b e _ _ _ t hm]
    rfl
  · rw [processResource_registry b e _ _ _ t hm]
    rfl

end DynamicResourceCache

/-- C1: `DynamicResourceCache::ProcessResource` hands a file name with a table suffix to
the handler the table names, and to that handler alone: the state it returns is the
state one call of that handler returns for the same file name and content. `.as` goes to
`AddAngelScriptFile`, `.lua` to `AddLuaScriptFile`, `.xml` to `AddXMLFile`, `.json` to
`AddJSONFile`, `.glsl` to `AddGLSLShader`, `.mdl` to `AddModel`, and `.dds`, `.jpg`,
`.jpeg`, `.png`, `.icns` to `AddImageFile`. -/
theorem C1_processResource_dispatch (b : Urho3D.Build) (e : Urho3D.Engine) (s : Urho3D.Cache)
    (filename content : Urho3D.Str) :
    (Urho3D.EndsWith filename ".as".toList = true →
      DynamicResourceCache.ProcessResource b e s filename content
        = DynamicResourceCache.AddAngelScriptFile b e s filename content) ∧
    (Urho3D.EndsWith filename ".lua".toList = true →
      DynamicResourceCache.ProcessResource b e s filename content
        = DynamicResourceCache.AddLuaScriptFile b e s filename content) ∧
    (Urho3D.EndsWith filename ".xml".toList = true →
      DynamicResourceCache.ProcessResource b e s filename content
        = DynamicResourceCache.AddXMLFile b e s filename content) ∧
    (Urho3D.EndsWith filename ".json".toList = true →
      DynamicResourceCache.ProcessResource b e s filename content
        = DynamicResourceCache.AddJSONFile b e s filename content) ∧
    (Urho3D.EndsWith filename ".glsl".toList = true →
      DynamicResourceCache.ProcessResource b e s filename content
        = DynamicResourceCache.AddGLSLShader b e s filename content) ∧
    (Urho3D.EndsWith filename ".mdl".toList = true →
      DynamicResourceCache.ProcessResource b e s filename content
        = DynamicResourceCache.AddModel b e s filename content) ∧
    ((Urho3D.EndsWith filename ".dds".toList = true ∨
        Urho3D.EndsWith filename ".jpg".toList = true ∨
        Urho3D.EndsWith filename ".jpeg".toList = true ∨
        Urho3D.EndsWith filename ".png".toList = true ∨
        Urho3D.EndsWith filename ".icns".toList = true) →
      DynamicResourceCache.ProcessResource b e s filename content
        = DynamicResourceCache.AddImageFile b e s filename content) :=
  ⟨DynamicResourceCache.processResource_as b e s filename content,
    DynamicResourceCache.processResource_lua b e s filename content,
    DynamicResourceCache.processResource_xml b e s filename content,
    DynamicResourceCache.processResource_json b e s filename content,
    DynamicResourceCache.processResource_glsl b e s filename content,
    DynamicResourceCache.processResource_mdl b e s filename content,
    fun h => DynamicResourceCache.processResource_image b e s filename content
      ((DynamicResourceCache.isImage_iff filename).mpr h)⟩

/-- C1 witness: `shader.glsl` ends with `.glsl` and is handed to `AddGLSLShader`. -/
theorem C1_processResource_dispatch_witness :
    Urho3D.EndsWith "shader.glsl".toList ".glsl".toList = true ∧
      DynamicResourceCache.ProcessResource Urho3D.browserBuild Urho3D.demoEngine {}
          "shader.glsl".toList "void main()".toList
        = DynamicResourceCache.AddGLSLShader Urho3D.browserBuild Urho3D.demoEngine {}
          "shader.glsl".toList "void main()".toList :=
  ⟨by decide,
    (C1_processResource_dispatch Urho3D.browserBuild Urho3D.demoEngine {}
      "shader.glsl".toList "void main()".toList).2.2.2.2.1 (by decide)⟩

/-- C2 (as stated, refuted): a dequeued `tank.mdl` and a dequeued `logo.png` are treated
as unrecognized by `WebResourceCache::HandleUpdate` (one error line, nothing
registered); and the dequeued name `a`, zero byte, `.as` ends with `.as` but is read
through `c_str()` as `a` and is unrecognized as well. -/
theorem C2_web_counterexample :
    (Urho3D.EndsWith "tank.mdl".toList ".mdl".toList = true ∧
      (WebResourceCache.HandleUpdate Urho3D.browserBuild Urho3D.demoEngine
          { queue := ["tank.mdl".toList, "UMDL".toList] }).cache
        = { log := [{ level := Urho3D.LogLevel.info, format := "Processing queue item: %s",
                      args := [Urho3D.LogArg.str "tank.mdl".toList] },
                    { level := Urho3D.LogLevel.error,
                      format := "Unable to process file %s, no handler implemented",
                      args := [Urho3D.LogArg.str "tank.mdl".toList] }] }) ∧
    (Urho3D.EndsWith "logo.png".toList ".png".toList = true ∧
      (WebResourceCache.HandleUpdate Urho3D.browserBuild Urho3D.demoEngine
          { queue := ["logo.png".toList, "PNG".toList] }).cache
        = { log := [{ level := Urho3D.LogLevel.info, format := "Processing queue item: %s",
                      args := [Urho3D.LogArg.str "logo.png".toList] },
                    { level := Urho3D.LogLevel.error,
                      format := "Unable to process file %s, no handler implemented",
                      args := [Urho3D.LogArg.str "logo.png".toList] }] }) ∧
    (Urho3D.EndsWith "a\x00.as".toList ".as".toList = true ∧
      (WebResourceCache.HandleUpdate Urho3D.browserBuild Urho3D.demoEngine
          { queue := ["a\x00.as".toList, "void Start()".toList] }).cache
        = { log := [{ level := Urho3D.LogLevel.info, format := "Processing queue item: %s",
                      args := [Urho3D.LogArg.str "a".toList] },
                    { level := Urho3D.LogLevel.error,
                      format := "Unable to process file %s, no handler implemented",
                      args := [Urho3D.LogArg.str "a".toList] }] }) := by
  decide

/-- C2 (amended): when `WebResourceCache::HandleUpdate` dequeues a name and a content,
the name as read through `c_str()` decides the route: `.as` goes to `AddAngelScriptFile`,
`.lua` to `AddLuaScriptFile`, `.xml` to `AddXMLFile`, `.json` to `AddJSONFile`, `.glsl` to
`AddGLSLShader`, each called once on the `c_str()` readings of name and content; a name
ending in `.mdl`, `.dds`, `.jpg`, `.jpeg`, `.png` or `.icns` is unrecognized: one error
line is logged and nothing else changes. -/
theorem C2_web_dispatch (b : Urho3D.Build) (e : Urho3D.Engine) (s : WebResourceCache.State)
    (n c : Urho3D.Str) (rest : List Urho3D.Str) (hq : s.queue = n :: c :: rest) :
    (Urho3D.EndsWith (Urho3D.c_str n) ".as".toList = true →
      (WebResourceCache.HandleUpdate b e s).cache
        = WebResourceCache.AddAngelScriptFile b e
            (Urho3D.logLine s.cache Urho3D.LogLevel.info "Processing queue item: %s"
              [Urho3D.LogArg.str (Urho3D.c_str n)])
            (Urho3D.c_str n) (Urho3D.c_str c)) ∧
    (Urho3D.EndsWith (Urho3D.c_str n) ".lua".toList = true →
      (WebResourceCache.HandleUpdate b e s).cache
        = WebResourceCache.AddLuaScriptFile b e
            (Urho3D.logLine s.cache Urho3D.LogLevel.info "Processing queue item: %s"
              [Urho3D.LogArg.str (Urho3D.c_str n)])
            (Urho3D.c_str n) (Urho3D.c_str c)) ∧
    (Urho3D.EndsWith (Urho3D.c_str n) ".xml".toList = true →
      (WebResourceCache.HandleUpdate b e s).cache
        = WebResourceCache.AddXMLFile b e
            (Urho3D.logLine s.cache Urho3D.LogLevel.info "Processing queue item: %s"
              [Urho3D.LogArg.str (Urho3D.c_str n)])
            (Urho3D.c_str n) (Urho3D.c_str c)) ∧
    (Urho3D.EndsWith (Urho3D.c_str n) ".json".toList = true →
      (WebResourceCache.HandleUpdate b e s).cache
        = WebResourceCache.AddJSONFile b e
            (Urho3D.logLine s.cache Urho3D.LogLevel.info "Processing queue item: %s"
              [Urho3D.LogArg.str (Urho3D.c_str n)])
            (Urho3D.c_str n) (Urho3D.c_str c)) ∧
    (Urho3D.EndsWith (Urho3D.c_str n) ".glsl".toList = true →
      (WebResourceCache.HandleUpdate b e s).cache
        = WebResourceCache.AddGLSLShader b e
            (Urho3D.logLine s.cache Urho3D.LogLevel.info "Processing queue item: %s"
              [Urho3D.LogArg.str (Urho3D.c_str n)])
            (Urho3D.c_str n) (Urho3D.c_str c)) ∧
    ((Urho3D.EndsWith (Urho3D.c_str n) ".mdl".toList = true ∨
        Urho3D.EndsWith (Urho3D.c_str n) ".dds".toList = true ∨
        Urho3D.EndsWith (Urho3D.c_str n) ".jpg".toList = true ∨
        Urho3D.EndsWith (Urho3D.c_str n) ".jpeg".toList = true ∨
        Urho3D.EndsWith (Urho3D.c_str n) ".png".toList = true ∨
        Urho3D.EndsWith (Urho3D.c_str n) ".icns".toList = true) →
      (WebResourceCache.HandleUpdate b e s).cache
        = { s.cache with log := s.cache.log ++
              [{ level := Urho3D.LogLevel.info, format := "Processing queue item: %s",
                 args := [Urho3D.LogArg.str (Urho3D.c_str n)] },
               { level := Urho3D.LogLevel.error,
                 format := "Unable to process file %s, no handler implemented",
                 args := [Urho3D.LogArg.str (Urho3D.c_str n)] }] }) := by
  rw [WebResourceCache.handleUpdate_cons b e s n c rest hq]
  refine ⟨?_, ?_, ?_, ?_, ?_, ?_⟩
  · intro h
    simp only [WebResourceCache.dispatch, h, if_true]
  · intro h
    have h1 := Urho3D.endsWith_disjoint (b := ".as".toList) (by decide) (by decide) h
    simp only [WebResourceCache.dispatch, h, h1, if_true, Bool.false_eq_true, if_false]
  · intro h
    have h1 := Urho3D.endsWith_disjoint (b := ".as".toList) (by decide) (by decide) h
    have h2 := Urho3D.endsWith_disjoint (b := ".lua".toList) (by decide) (by decide) h
    simp only [WebResourceCache.dispatch, h, h1, h2, if_true, Bool.false_eq_true, if_false]
  · intro h
    have h1 := Urho3D.endsWith_disjoint (b := ".as".toList) (by decide) (by decide) h
    have h2 := Urho3D.endsWith_disjoint (b := ".lua".toList) (by decide) (by decide) h
    have h3 := Urho3D.endsWith_disjoint (b := ".xml".toList) (by decide) (by decide) h
    simp only [WebResourceCache.dispatch, h, h1, h2, h3, if_true, Bool.false_eq_true, if_false]
  · intro h
    have h1 := Urho3D.endsWith_disjoint (b := ".as".toList) (by decide) (by decide) h
    have h2 := Urho3D.endsWith_disjoint (b := ".lua".toList) (by decide) (by decide) h
    have h3 := Urho3D.endsWith_disjoint (b := ".xml".toList) (by decide) (by decide) h
    have h4 := Urho3D.endsWith_disjoint (b := ".json".toList) (by decide) (by decide) h
    simp only [WebResourceCache.dispatch, h, h1, h2, h3, h4, if_true, Bool.false_eq_true,
      if_false]
  · intro h
    have key : ∀ x : Urho3D.Str, Urho3D.EndsWith x ".mdl".toList = false →
        Urho3D.EndsWith x ".dds".toList = false →
        Urho3D.EndsWith x ".jpg".toList = false → Urho3D.EndsWith x ".jpeg".toList = false →
        Urho3D.EndsWith x ".png".toList = false → Urho3D.EndsWith x ".icns".toList = false →
        Urho3D.EndsWith ".mdl".toList x = false →
        Urho3D.EndsWith ".dds".toList x = false → Urho3D.EndsWith ".jpg".toList x = false →
        Urho3D.EndsWith ".jpeg".toList x = false → Urho3D.EndsWith ".png".toList x = false →
        Urho3D.EndsWith ".icns".toList x = false →
        Urho3D.EndsWith (Urho3D.c_str n) x = false := by
      intro x a0 a1 a2 a3 a4 a5 b0 b1 b2 b3 b4 b5
      rcases h with h | h | h | h | h | h
      · exact Urho3D.endsWith_disjoint a0 b0 h
      · exact Urho3D.endsWith_disjoint a1 b1 h
      · exact Urho3D.endsWith_disjoint a2 b2 h
      · exact Urho3D.endsWith_disjoint a3 b3 h
      · exact Urho3D.endsWith_disjoint a4 b4 h
      · exact Urho3D.endsWith_disjoint a5 b5 h
    have h1 := key ".as".toList (by decide) (by decide) (by decide) (by decide) (by decide)
      (by decide) (by decide) (by decide) (by decide) (by decide) (by decide) (by decide)
    have h2 := key ".lua".toList (by decide) (by decide) (by decide) (by decide) (by decide)
      (by decide) (by decide) (by decide) (by decide) (by decide) (by decide) (by decide)
    have h3 := key ".xml".toList (by decide) (by decide) (by decide) (by decide) (by decide)
      (by decide) (by decide) (by decide) (by decide) (by decide) (by decide) (by decide)
    have h4 := key ".json".toList (by decide) (by decide) (by decide) (by decide) (by decide)
      (by decide) (by decide) (by decide) (by decide) (by decide) (by decide) (by decide)
    have h5 := key ".glsl".toList (by decide) (by decide) (by decide) (by decide) (by decide)
      (by decide) (by decide) (by decide) (by decide) (by decide) (by decide) (by decide)
    simp only [WebResourceCache.dispatch, h1, h2, h3, h4, h5, Bool.false_eq_true, if_false,
      Urho3D.logLine, List.append_assoc, List.singleton_append]

/-- C2 witness: the drain hands a dequeued `data.json` to `AddJSONFile`. -/
theorem C2_web_dispatch_witness :
    Urho3D.EndsWith (Urho3D.c_str "data.json".toList) ".json".toList = true ∧
      (WebResourceCache.HandleUpdate Urho3D.browserBuild Urho3D.demoEngine
          { queue := ["data.json".toList, "[]".toList] }).cache
        = WebResourceCache.AddJSONFile Urho3D.browserBuild Urho3D.demoEngine
            (Urho3D.logLine {} Urho3D.LogLevel.info "Processing queue item: %s"
              [Urho3D.LogArg.str (Urho3D.c_str "data.json".toList)])
            (Urho3D.c_str "data.json".toList) (Urho3D.c_str "[]".toList) :=
  ⟨by decide,
    (C2_web_dispatch Urho3D.browserBuild Urho3D.demoEngine
      { queue := ["data.json".toList, "[]".toList] } "data.json".toList "[]".toList [] rfl).2.2.2.1
      (by decide)⟩

/-- C3 (as stated, refuted): `app.js` ends with none of the eleven table suffixes, yet
`ProcessResource` logs no error for it and, in the browser build, hands the pointer to
the content to `emscripten_run_script`, which reads the four bytes `go()` and on to the
zero byte behind them, so the content is used. -/
theorem C3_js_counterexample :
    (∀ suffix ∈ [".as", ".lua", ".xml", ".json", ".glsl", ".mdl", ".dds", ".jpg", ".jpeg",
        ".png", ".icns"], Urho3D.EndsWith "app.js".toList suffix.toList = false) ∧
    (DynamicResourceCache.ProcessResource Urho3D.browserBuild Urho3D.demoEngine {}
      "app.js".toList "go()".toList).log = [] ∧
    (DynamicResourceCache.ProcessResource Urho3D.browserBuild Urho3D.demoEngine {}
      "app.js".toList "go()".toList).jsRun = [Urho3D.CStringRead.past "go()".toList] ∧
    DynamicResourceCache.ProcessResource Urho3D.browserBuild Urho3D.demoEngine {}
      "app.js".toList "go()".toList
      ≠ DynamicResourceCache.ProcessResource Urho3D.browserBuild Urho3D.demoEngine {}
      "app.js".toList "stop()".toList := by
  decide

/-- C3 (amended): for every file name that ends with none of the eleven table suffixes
and not with `.js`, `ProcessResource` only appends one error line to the log: the
returned state is the old state plus that line, whatever the content is, so the
registry, the script map, the callbacks and the executed scripts are unchanged. -/
theorem C3_unrecognized (b : Urho3D.Build) (e : Urho3D.Engine) (s : Urho3D.Cache)
    (filename content : Urho3D.Str)
    (has : Urho3D.EndsWith filename ".as".toList = false)
    (hlua : Urho3D.EndsWith filename ".lua".toList = false)
    (hxml : Urho3D.EndsWith filename ".xml".toList = false)
    (hjson : Urho3D.EndsWith filename ".json".toList = false)
    (hglsl : Urho3D.EndsWith filename ".glsl".toList = false)
    (hmdl : Urho3D.EndsWith filename ".mdl".toList = false)
    (hdds : Urho3D.EndsWith filename ".dds".toList = false)
    (hjpg : Urho3D.EndsWith filename ".jpg".toList = false)
    (hjpeg : Urho3D.EndsWith filename ".jpeg".toList = false)
    (hpng : Urho3D.EndsWith filename ".png".toList = false)
    (hicns : Urho3D.EndsWith filename ".icns".toList = false)
    (hjs : Urho3D.EndsWith filename ".js".toList = false) :
    DynamicResourceCache.ProcessResource b e s filename content
        = { s with log := s.log ++
              [{ level := Urho3D.LogLevel.error,
                 format := "Unable to process file %s, no handler implemented",
                 args := [Urho3D.LogArg.str (Urho3D.c_str filename)] }] } ∧
      (DynamicResourceCache.ProcessResource b e s filename content).registry = s.registry ∧
      (DynamicResourceCache.ProcessResource b e s filename content).asScripts = s.asScripts ∧
      (DynamicResourceCache.ProcessResource b e s filename content).callbacks = s.callbacks ∧
      (DynamicResourceCache.ProcessResource b e s filename content).jsRun = s.jsRun := by
  have hi : DynamicResourceCache.IsImage filename = false := by
    simp only [DynamicResourceCache.IsImage, hdds, hjpg, hjpeg, hpng, hicns, Bool.or_self]
  have key : DynamicResourceCache.ProcessResource b e s filename content
      = Urho3D.logLine s Urho3D.LogLevel.error
          "Unable to process file %s, no handler implemented"
          [Urho3D.LogArg.str (Urho3D.c_str filename)] := by
    simp only [DynamicResourceCache.ProcessResource, has, hlua, hxml, hjson, hglsl, hmdl, hi,
      hjs, Bool.false_eq_true, if_false]
  rw [key]
  exact ⟨rfl, rfl, rfl, rfl, rfl⟩

/-- C3 witness: `notes.txt` ends with none of the twelve suffixes. -/
theorem C3_unrecognized_witness :
    DynamicResourceCache.ProcessResource Urho3D.browserBuild Urho3D.demoEngine {}
        "notes.txt".toList "hello".toList
      = { log := [{ level := Urho3D.LogLevel.error,
                    format := "Unable to process file %s, no handler implemented",
                    args := [Urho3D.LogArg.str "notes.txt".toList] }] } :=
  (C3_unrecognized Urho3D.browserBuild Urho3D.demoEngine {} "notes.txt".toList "hello".toList
    (by decide) (by decide) (by decide) (by decide) (by decide) (by decide) (by decide)
    (by decide) (by decide) (by decide) (by decide) (by decide)).1

/-- C4 (as stated, refuted): after `AddToQueue("a.json", "x", zero byte, "y")` one
`HandleUpdate` hands `("a.json", "x")` to the dispatch chain, not the enqueued pair: the
registered JSON resource is loaded with `x`. -/
theorem C4_queue_counterexample :
    (WebResourceCache.HandleUpdate Urho3D.browserBuild Urho3D.demoEngine
        (WebResourceCache.AddToQueue {} "a.json".toList "x\x00y".toList)).dispatched
      = [("a.json".toList, "x".toList)] ∧
    (WebResourceCache.HandleUpdate Urho3D.browserBuild Urho3D.demoEngine
        (WebResourceCache.AddToQueue {} "a.json".toList "x\x00y".toList)).dispatched
      ≠ [("a.json".toList, "x\x00y".toList)] ∧
    (WebResourceCache.HandleUpdate Urho3D.browserBuild Urho3D.demoEngine
        (WebResourceCache.AddToQueue {} "a.json".toList "x\x00y".toList)).cache.registry
      = [{ type := Urho3D.ResType.JSONFile, name := "a.json".toList,
           data := some "x".toList, loaded := true }] := by
  decide

/-- C4 (amended): `AddToQueue(name, content)` appends name then content at the tail of
`queue_` and changes nothing else; and when the queue starts with a name and a content,
one `HandleUpdate` removes exactly these two entries, leaves the remaining entries as
they were, and runs the dispatch chain once on the `c_str()` readings of that name and
content (the name and content up to their first zero byte). -/
theorem C4_queue_fifo (b : Urho3D.Build) (e : Urho3D.Engine) (s : WebResourceCache.State)
    (filename content : Urho3D.Str) :
    (WebResourceCache.AddToQueue s filename content).queue = s.queue ++ [filename, content] ∧
    (WebResourceCache.AddToQueue s filename content).cache = s.cache ∧
    (WebResourceCache.AddToQueue s filename content).dispatched = s.dispatched ∧
    (∀ (n c : Urho3D.Str) (rest : List Urho3D.Str), s.queue = n :: c :: rest →
      (WebResourceCache.HandleUpdate b e s).queue = rest ∧
      (WebResourceCache.HandleUpdate b e s).dispatched
        = s.dispatched ++ [(Urho3D.c_str n, Urho3D.c_str c)] ∧
      (WebResourceCache.HandleUpdate b e s).cache
        = WebResourceCache.dispatch b e
            (Urho3D.logLine s.cache Urho3D.LogLevel.info "Processing queue item: %s"
              [Urho3D.LogArg.str (Urho3D.c_str n)])
            (Urho3D.c_str n) (Urho3D.c_str c)) := by
  refine ⟨?_, rfl, rfl, ?_⟩
  · simp [WebResourceCache.AddToQueue]
  · intro n c rest hq
    rw [WebResourceCache.handleUpdate_cons b e s n c rest hq]
    exact ⟨rfl, rfl, rfl⟩

/-- C4 witness: a queue of two pairs; one tick leaves the second pair. -/
theorem C4_queue_fifo_witness :
    (WebResourceCache.HandleUpdate Urho3D.browserBuild Urho3D.demoEngine
        { queue := ["a.json".toList, "1".toList, "b.json".toList, "2".toList] }).queue
      = ["b.json".toList, "2".toList] :=
  ((C4_queue_fifo Urho3D.browserBuild Urho3D.demoEngine
      { queue := ["a.json".toList, "1".toList, "b.json".toList, "2".toList] } [] []).2.2.2
    "a.json".toList "1".toList ["b.json".toList, "2".toList] rfl).1

/-- C5: `WebResourceCache::HandleUpdate` on an empty queue returns the state unchanged:
same queue, registry, script map, log, callbacks, and nothing dispatched. -/
theorem C5_empty_drain (b : Urho3D.Build) (e : Urho3D.Engine) (s : WebResourceCache.State)
    (hq : s.queue = []) :
    WebResourceCache.HandleUpdate b e s = s ∧
      (WebResourceCache.HandleUpdate b e s).queue = [] ∧
      (WebResourceCache.HandleUpdate b e s).cache.registry = s.cache.registry ∧
      (WebResourceCache.HandleUpdate b e s).cache.asScripts = s.cache.asScripts ∧
      (WebResourceCache.HandleUpdate b e s).cache.callbacks = s.cache.callbacks ∧
      (WebResourceCache.HandleUpdate b e s).dispatched = s.dispatched := by
  rw [WebResourceCache.handleUpdate_nil b e s hq]
  exact ⟨rfl, hq, rfl, rfl, rfl, rfl⟩

/-- C5 witness: the freshly constructed cache has an empty queue. -/
theorem C5_empty_drain_witness :
    WebResourceCache.HandleUpdate Urho3D.browserBuild Urho3D.demoEngine {} = {} :=
  (C5_empty_drain Urho3D.browserBuild Urho3D.demoEngine {} rfl).1

/-- C6 (as stated, refuted): after enqueueing `("a.json", "x", zero byte, "y")` and one
tick, the dispatched sequence is `[("a.json", "x")]`, which is not an initial segment of
the enqueued sequence. -/
theorem C6_fifo_counterexample :
    WebResourceCache.enqueued
        [WebResourceCache.Op.add "a.json".toList "x\x00y".toList, WebResourceCache.Op.tick]
      = [("a.json".toList, "x\x00y".toList)] ∧
    (WebResourceCache.run Urho3D.browserBuild Urho3D.demoEngine {}
        [WebResourceCache.Op.add "a.json".toList "x\x00y".toList,
          WebResourceCache.Op.tick]).dispatched
      = [("a.json".toList, "x".toList)] ∧
    ¬ ((WebResourceCache.run Urho3D.browserBuild Urho3D.demoEngine {}
        [WebResourceCache.Op.add "a.json".toList "x\x00y".toList,
          WebResourceCache.Op.tick]).dispatched
      <+: WebResourceCache.enqueued
        [WebResourceCache.Op.add "a.json".toList "x\x00y".toList,
          WebResourceCache.Op.tick]) := by
  decide

/-- C6 (amended): start with an empty queue and run any interleaving of `AddToQueue`
calls and `HandleUpdate` ticks. Then the enqueued pairs split into a first part and a
rest such that the dispatched sequence is the first part with every name and content
read through `c_str()`, in the same order, and the queue holds exactly the rest; so
every enqueued pair is dispatched at most once and in FIFO order. Every tick dispatches
at most one pair. After `n` enqueues followed by `n` ticks every pair has been
dispatched exactly once (as its `c_str()` reading) and the queue is empty. -/
theorem C6_fifo (b : Urho3D.Build) (e : Urho3D.Engine) (c0 : Urho3D.Cache)
    (ops : List WebResourceCache.Op) :
    (∃ done rest, WebResourceCache.enqueued ops = done ++ rest ∧
      (WebResourceCache.run b e { cache := c0 } ops).dispatched
        = done.map WebResourceCache.cut ∧
      (WebResourceCache.run b e { cache := c0 } ops).queue = WebResourceCache.flat rest) ∧
    (∀ s : WebResourceCache.State,
      (WebResourceCache.HandleUpdate b e s).dispatched = s.dispatched ∨
      ∃ p, (WebResourceCache.HandleUpdate b e s).dispatched = s.dispatched ++ [p]) ∧
    (∀ pairs : List (Urho3D.Str × Urho3D.Str),
      (WebResourceCache.run b e { cache := c0 }
          (pairs.map (fun p => WebResourceCache.Op.add p.1 p.2)
            ++ List.replicate pairs.length WebResourceCache.Op.tick)).dispatched
        = pairs.map WebResourceCache.cut ∧
      (WebResourceCache.run b e { cache := c0 }
          (pairs.map (fun p => WebResourceCache.Op.add p.1 p.2)
            ++ List.replicate pairs.length WebResourceCache.Op.tick)).queue = []) := by
  refine ⟨?_, ?_, ?_⟩
  · obtain ⟨done, rest, h1, h2, h3⟩ :=
      WebResourceCache.run_invariant b e ops { cache := c0 } [] rfl
    exact ⟨done, rest, by simpa using h1, by simpa using h2, h3⟩
  · intro s
    unfold WebResourceCache.HandleUpdate
    by_cases h : s.queue.length ≥ 2
    · right
      simp only [h, if_true]
      exact ⟨_, rfl⟩
    · left
      simp only [h, if_false]
  · intro pairs
    rw [WebResourceCache.run_append, WebResourceCache.run_adds]
    have := WebResourceCache.run_ticks b e pairs
      { cache := c0, queue := [] ++ WebResourceCache.flat pairs } (by simp)
    simpa using this

/-- C7 (as stated, refuted): ingesting `a.xml` first with a `material` root and then with
a `technique` root registers a second resource: the second content is loaded into a new
`Technique` object, not into the `Material` object the first ingestion created. And in a
build without AngelScript, ingesting `a.as` twice loads the content into no object. -/
theorem C7_reingest_counterexample :
    (DynamicResourceCache.ProcessResource Urho3D.browserBuild Urho3D.demoEngine {}
        "a.xml".toList "<material/>".toList).registry
      = [{ type := Urho3D.ResType.Material, name := "a.xml".toList,
           data := some "<material/>".toList, loaded := true }] ∧
    (DynamicResourceCache.ProcessResource Urho3D.browserBuild Urho3D.demoEngine
        (DynamicResourceCache.ProcessResource Urho3D.browserBuild Urho3D.demoEngine {}
          "a.xml".toList "<material/>".toList)
        "a.xml".toList "<technique/>".toList).registry
      = [{ type := Urho3D.ResType.Material, name := "a.xml".toList,
           data := some "<material/>".toList, loaded := true },
         { type := Urho3D.ResType.Technique, name := "a.xml".toList,
           data := some "<technique/>".toList, loaded := true }] ∧
    (DynamicResourceCache.ProcessResource
        { angelscript := false, emscripten := true, network := true } Urho3D.demoEngine
        (DynamicResourceCache.ProcessResource
          { angelscript := false, emscripten := true, network := true } Urho3D.demoEngine {}
          "a.as".toList "void Start()".toList)
        "a.as".toList "void Stop()".toList).registry = [] := by
  decide

/-- C7 (amended): let a file name and two contents select the same engine type in the
table (`Materializes`): any two contents for `.json`, `.glsl`, `.mdl` and the image
suffixes, for `.as` in a build with AngelScript, and for `.xml` two contents whose root
elements select the same path. Ingest the name with the first content and then with
the second. The first ingestion registers at most one resource; the second adds no
registry entry, finds the very object the first one looked up or created (same
address), loads the second content into it, and leaves every other object as it was. -/
theorem C7_reingest (b : Urho3D.Build) (e : Urho3D.Engine) (s : Urho3D.Cache)
    (filename c1 c2 : Urho3D.Str) (t : Urho3D.ResType)
    (h1 : DynamicResourceCache.Materializes b e filename c1 t)
    (h2 : DynamicResourceCache.Materializes b e filename c2 t) :
    (DynamicResourceCache.ProcessResource b e s filename c1).registry.length
      ≤ s.registry.length + 1 ∧
    (DynamicResourceCache.ProcessResource b e
        (DynamicResourceCache.ProcessResource b e s filename c1) filename c2).registry.length
      = (DynamicResourceCache.ProcessResource b e s filename c1).registry.length ∧
    ∃ i r,
      Urho3D.GetResource (DynamicResourceCache.ProcessResource b e s filename c1).registry
        t filename = some i ∧
      (DynamicResourceCache.ProcessResource b e s filename c1).registry[i]? = some r ∧
      r.type = t ∧ r.name = filename ∧ r.data = some c1 ∧
      Urho3D.GetResource (DynamicResourceCache.ProcessResource b e
        (DynamicResourceCache.ProcessResource b e s filename c1) filename c2).registry
        t filename = some i ∧
      (DynamicResourceCache.ProcessResource b e
        (DynamicResourceCache.ProcessResource b e s filename c1) filename c2).registry[i]?
        = some { r with data := some c2, loaded := e.load t filename c2 } ∧
      ∀ j, j ≠ i →
        (DynamicResourceCache.ProcessResource b e
          (DynamicResourceCache.ProcessResource b e s filename c1) filename c2).registry[j]?
        = (DynamicResourceCache.ProcessResource b e s filename c1).registry[j]? := by
  rw [DynamicResourceCache.processResource_registry b e _ filename c2 t h2,
    DynamicResourceCache.processResource_registry b e s filename c1 t h1]
  exact ⟨Urho3D.ingest_length_le _ _ _ _ _, Urho3D.ingest_twice _ _ _ _ _ _ _⟩

/-- C7 witness: `a.json` ingested twice in the browser build. -/
theorem C7_reingest_witness :
    DynamicResourceCache.Materializes Urho3D.browserBuild Urho3D.demoEngine "a.json".toList
        "[1]".toList Urho3D.ResType.JSONFile ∧
    DynamicResourceCache.Materializes Urho3D.browserBuild Urho3D.demoEngine "a.json".toList
        "[2]".toList Urho3D.ResType.JSONFile ∧
    (DynamicResourceCache.ProcessResource Urho3D.browserBuild Urho3D.demoEngine
        (DynamicResourceCache.ProcessResource Urho3D.browserBuild Urho3D.demoEngine {}
          "a.json".toList "[1]".toList) "a.json".toList "[2]".toList).registry.length
      = (DynamicResourceCache.ProcessResource Urho3D.browserBuild Urho3D.demoEngine {}
          "a.json".toList "[1]".toList).registry.length :=
  ⟨by decide, by decide,
    (C7_reingest Urho3D.browserBuild Urho3D.demoEngine {} "a.json".toList "[1]".toList
      "[2]".toList Urho3D.ResType.JSONFile (by decide) (by decide)).2.1⟩

/-- C8 (as stated, refuted): starting from the empty registry (no two resources with the
same name), ingesting `a.xml` with a `material` root and then with a `technique` root
leaves two registered resources named `a.xml`. -/
theorem C8_registry_counterexample :
    (({} : Urho3D.Cache).registry.map (fun r => r.name)).Nodup ∧
    (DynamicResourceCache.processAll Urho3D.browserBuild Urho3D.demoEngine {}
        [("a.xml".toList, "<material/>".toList),
          ("a.xml".toList, "<technique/>".toList)]).registry.map (fun r => r.name)
      = ["a.xml".toList, "a.xml".toList] ∧
    ¬ ((DynamicResourceCache.processAll Urho3D.browserBuild Urho3D.demoEngine {}
        [("a.xml".toList, "<material/>".toList),
          ("a.xml".toList, "<technique/>".toList)]).registry.map (fun r => r.name)).Nodup := by
  decide

/-- C8 (amended): if the registry never holds two resources with the same type and name,
then after any sequence of `ProcessResource` calls it still never holds two resources
with the same type and name. Every call looks the name up first and creates only on a
miss: it either keeps the number of registered resources, or appends exactly one
resource, named as the file, for whose type and name the look-up found nothing. -/
theorem C8_registry_invariant (b : Urho3D.Build) (e : Urho3D.Engine) (s : Urho3D.Cache)
    (items : List (Urho3D.Str × Urho3D.Str))
    (h : (s.registry.map (fun r => (r.type, r.name))).Nodup) :
    ((DynamicResourceCache.processAll b e s items).registry.map
      (fun r => (r.type, r.name))).Nodup ∧
    ∀ (s1 : Urho3D.Cache) (filename content : Urho3D.Str),
      (DynamicResourceCache.ProcessResource b e s1 filename content).registry.length
        = s1.registry.length ∨
      ∃ r, (DynamicResourceCache.ProcessResource b e s1 filename content).registry
          = s1.registry ++ [r] ∧ r.name = filename ∧
        Urho3D.GetResource s1.registry r.type filename = none := by
  refine ⟨DynamicResourceCache.processAll_keys_nodup b e items s h, ?_⟩
  intro s1 filename content
  rcases DynamicResourceCache.processResource_registry_cases b e s1 filename content with
    h1 | ⟨t, h1⟩
  · left; rw [h1]
  · rw [h1]
    rcases Urho3D.ingest_cases s1.registry t filename content (e.load t filename content) with
      ⟨i, _, h3⟩ | ⟨h2, h3⟩
    · left; rw [h3, Urho3D.load_length]
    · right
      exact ⟨_, h3, rfl, h2⟩

/-- C8 witness: from the empty registry, the two ingestions of `a.xml` keep type and name
pairs distinct. -/
theorem C8_registry_invariant_witness :
    (({} : Urho3D.Cache).registry.map (fun r => (r.type, r.name))).Nodup ∧
    ((DynamicResourceCache.processAll Urho3D.browserBuild Urho3D.demoEngine {}
        [("a.xml".toList, "<material/>".toList),
          ("a.xml".toList, "<technique/>".toList)]).registry.map
      (fun r => (r.type, r.name))).Nodup :=
  ⟨List.nodup_nil,
    (C8_registry_invariant Urho3D.browserBuild Urho3D.demoEngine {}
      [("a.xml".toList, "<material/>".toList), ("a.xml".toList, "<technique/>".toList)]
      List.nodup_nil).1⟩

/-- C9: `AddXMLFile` of both classes dispatches on the root element of the parsed
content. Root `material`: it is exactly one call of `AddMaterialFile`, a `Material` of
that name is looked up or registered and loaded, and the look-up of an `XMLFile` of that
name gives what it gave before. Root `technique`: it is exactly one call of
`AddTechniqueFile`, on a `Technique`. Any other root (the empty root of unparsable
content included): the generic path, an `XMLFile` of that name is looked up or
registered and loaded, and the look-ups of a `Material` and of a `Technique` of that
name give what they gave before. In every case at most one resource is registered. -/
theorem C9_xml_root_dispatch (b : Urho3D.Build) (e : Urho3D.Engine) (s : Urho3D.Cache)
    (filename content : Urho3D.Str) :
    (e.xmlRoot content = "material".toList →
      (DynamicResourceCache.AddXMLFile b e s filename content
          = DynamicResourceCache.AddMaterialFile b e s filename content ∧
        (DynamicResourceCache.AddXMLFile b e s filename content).registry
          = Urho3D.ingest s.registry Urho3D.ResType.Material filename content
              (e.load Urho3D.ResType.Material filename content) ∧
        Urho3D.GetResource (DynamicResourceCache.AddXMLFile b e s filename content).registry
            Urho3D.ResType.XMLFile filename
          = Urho3D.GetResource s.registry Urho3D.ResType.XMLFile filename) ∧
      (WebResourceCache.AddXMLFile b e s filename content
          = WebResourceCache.AddMaterialFile b e s filename content ∧
        (WebResourceCache.AddXMLFile b e s filename content).registry
          = Urho3D.ingest s.registry Urho3D.ResType.Material filename content
              (e.load Urho3D.ResType.Material filename content) ∧
        Urho3D.GetResource (WebResourceCache.AddXMLFile b e s filename content).registry
            Urho3D.ResType.XMLFile filename
          = Urho3D.GetResource s.registry Urho3D.ResType.XMLFile filename)) ∧
    (e.xmlRoot content = "technique".toList →
      (DynamicResourceCache.AddXMLFile b e s filename content
          = DynamicResourceCache.AddTechniqueFile b e s filename content ∧
        (DynamicResourceCache.AddXMLFile b e s filename content).registry
          = Urho3D.ingest s.registry Urho3D.ResType.Technique filename content
              (e.load Urho3D.ResType.Technique filename content) ∧
        Urho3D.GetResource (DynamicResourceCache.AddXMLFile b e s filename content).registry
            Urho3D.ResType.XMLFile filename
          = Urho3D.GetResource s.registry Urho3D.ResType.XMLFile filename) ∧
      (WebResourceCache.AddXMLFile b e s filename content
          = WebResourceCache.AddTechniqueFile b e s filename content ∧
        (WebResourceCache.AddXMLFile b e s filename content).registry
          = Urho3D.ingest s.registry Urho3D.ResType.Technique filename content
              (e.load Urho3D.ResType.Technique filename content) ∧
        Urho3D.GetResource (WebResourceCache.AddXMLFile b e s filename content).registry
            Urho3D.ResType.XMLFile filename
          = Urho3D.GetResource s.registry Urho3D.ResType.XMLFile filename)) ∧
    (e.xmlRoot content ≠ "material".toList → e.xmlRoot content ≠ "technique".toList →
      ((DynamicResourceCache.AddXMLFile b e s filename content).registry
          = Urho3D.ingest s.registry Urho3D.ResType.XMLFile filename content
              (e.load Urho3D.ResType.XMLFile filename content) ∧
        Urho3D.GetResource (DynamicResourceCache.AddXMLFile b e s filename content).registry
            Urho3D.ResType.Material filename
          = Urho3D.GetResource s.registry Urho3D.ResType.Material filename ∧
        Urho3D.GetResource (DynamicResourceCache.AddXMLFile b e s filename content).registry
            Urho3D.ResType.Technique filename
          = Urho3D.GetResource s.registry Urho3D.ResType.Technique filename) ∧
      ((WebResourceCache.AddXMLFile b e s filename content).registry
          = Urho3D.ingest s.registry Urho3D.ResType.XMLFile filename content
              (e.load Urho3D.ResType.XMLFile filename content) ∧
        Urho3D.GetResource (WebResourceCache.AddXMLFile b e s filename content).registry
            Urho3D.ResType.Material filename
          = Urho3D.GetResource s.registry Urho3D.ResType.Material filename ∧
        Urho3D.GetResource (WebResourceCache.AddXMLFile b e s filename content).registry
            Urho3D.ResType.Technique filename
          = Urho3D.GetResource s.registry Urho3D.ResType.Technique filename)) ∧
    (DynamicResourceCache.AddXMLFile b e s filename content).registry.length
      ≤ s.registry.length + 1 ∧
    (WebResourceCache.AddXMLFile b e s filename content).registry.length
      ≤ s.registry.length + 1 := by
  refine ⟨?_, ?_, ?_, ?_, ?_⟩
  · intro hm
    rw [DynamicResourceCache.addXMLFile_material b e s filename content hm,
      WebResourceCache.web_addXMLFile_material b e s filename content hm,
      DynamicResourceCache.addMaterialFile_registry, WebResourceCache.web_addMaterialFile_registry]
    have hk := Urho3D.ingest_getResource_other s.registry Urho3D.ResType.Material
      Urho3D.ResType.XMLFile filename filename content
      (e.load Urho3D.ResType.Material filename content) (fun h => absurd h.1 (by decide))
    exact ⟨⟨rfl, rfl, hk⟩, rfl, rfl, hk⟩
  · intro ht
    have hm : e.xmlRoot content ≠ "material".toList := by rw [ht]; decide
    rw [DynamicResourceCache.addXMLFile_technique b e s filename content hm ht,
      WebResourceCache.web_addXMLFile_technique b e s filename content hm ht,
      DynamicResourceCache.addTechniqueFile_registry, WebResourceCache.web_addTechniqueFile_registry]
    have hk := Urho3D.ingest_getResource_other s.registry Urho3D.ResType.Technique
      Urho3D.ResType.XMLFile filename filename content
      (e.load Urho3D.ResType.Technique filename content) (fun h => absurd h.1 (by decide))
    exact ⟨⟨rfl, rfl, hk⟩, rfl, rfl, hk⟩
  · intro hm ht
    rw [DynamicResourceCache.addXMLFile_generic b e s filename content hm ht,
      WebResourceCache.web_addXMLFile_generic b e s filename content hm ht]
    have hk1 := Urho3D.ingest_getResource_other s.registry Urho3D.ResType.XMLFile
      Urho3D.ResType.Material filename filename content
      (e.load Urho3D.ResType.XMLFile filename content) (fun h => absurd h.1 (by decide))
    have hk2 := Urho3D.ingest_getResource_other s.registry Urho3D.ResType.XMLFile
      Urho3D.ResType.Technique filename filename content
      (e.load Urho3D.ResType.XMLFile filename content) (fun h => absurd h.1 (by decide))
    exact ⟨⟨rfl, hk1, hk2⟩, rfl, hk1, hk2⟩
  · by_cases hm : e.xmlRoot content = "material".toList
    · rw [DynamicResourceCache.addXMLFile_material b e s filename content hm,
        DynamicResourceCache.addMaterialFile_registry]
      exact Urho3D.ingest_length_le _ _ _ _ _
    · by_cases ht : e.xmlRoot content = "technique".toList
      · rw [DynamicResourceCache.addXMLFile_technique b e s filename content hm ht,
          DynamicResourceCache.addTechniqueFile_registry]
        exact Urho3D.ingest_length_le _ _ _ _ _
      · rw [DynamicResourceCache.addXMLFile_generic b e s filename content hm ht]
        exact Urho3D.ingest_length_le _ _ _ _ _
  · by_cases hm : e.xmlRoot content = "material".toList
    · rw [WebResourceCache.web_addXMLFile_material b e s filename content hm,
        WebResourceCache.web_addMaterialFile_registry]
      exact Urho3D.ingest_length_le _ _ _ _ _
    · by_cases ht : e.xmlRoot content = "technique".toList
      · rw [WebResourceCache.web_addXMLFile_technique b e s filename content hm ht,
          WebResourceCache.web_addTechniqueFile_registry]
        exact Urho3D.ingest_length_le _ _ _ _ _
      · rw [WebResourceCache.web_addXMLFile_generic b e s filename content hm ht]
        exact Urho3D.ingest_length_le _ _ _ _ _

/-- C9 witness: `<material/>` under the name `stone.xml` goes to `AddMaterialFile`. -/
theorem C9_xml_root_dispatch_witness :
    Urho3D.demoEngine.xmlRoot "<material/>".toList = "material".toList ∧
    DynamicResourceCache.AddXMLFile Urho3D.browserBuild Urho3D.demoEngine {}
        "stone.xml".toList "<material/>".toList
      = DynamicResourceCache.AddMaterialFile Urho3D.browserBuild Urho3D.demoEngine {}
        "stone.xml".toList "<material/>".toList :=
  ⟨by decide,
    ((C9_xml_root_dispatch Urho3D.browserBuild Urho3D.demoEngine {} "stone.xml".toList
      "<material/>".toList).1 (by decide)).1.1⟩

/-- C10 (as stated, refuted): the queued name `a.as`, zero byte, `.lua` ends in `.lua`,
but the `WebResourceCache` drain reads it through `c_str()` as `a.as` and runs the
AngelScript materializer: a script resource is registered, `asScripts_` gets an entry
and `FileLoaded` is called. -/
theorem C10_lua_counterexample :
    Urho3D.EndsWith "a.as\x00.lua".toList ".lua".toList = true ∧
    (WebResourceCache.HandleUpdate Urho3D.browserBuild Urho3D.demoEngine
        { queue := ["a.as\x00.lua".toList, "void Start()".toList] }).cache.registry
      = [{ type := Urho3D.ResType.ScriptFile, name := "a.as".toList,
           data := some "void Start()".toList, loaded := true }] ∧
    (WebResourceCache.HandleUpdate Urho3D.browserBuild Urho3D.demoEngine
        { queue := ["a.as\x00.lua".toList, "void Start()".toList] }).cache.asScripts
      = [("a.as".toList, 0)] ∧
    (WebResourceCache.HandleUpdate Urho3D.browserBuild Urho3D.demoEngine
        { queue := ["a.as\x00.lua".toList, "void Start()".toList] }).cache.callbacks
      = [Urho3D.Callback.FileLoaded "a.as".toList] := by
  decide

/-- C10 (amended): `DynamicResourceCache::ProcessResource` on a file name ending in `.lua`
only logs the unsupported-feature error: registry, `asScripts_` and callbacks are
unchanged, whatever the content. The `WebResourceCache` drain does the same (after its
`Processing queue item` line) for every dequeued name whose `c_str()` reading, the name
up to its first zero byte, ends in `.lua`. -/
theorem C10_lua_unsupported (b : Urho3D.Build) (e : Urho3D.Engine) :
    (∀ (s : Urho3D.Cache) (filename content : Urho3D.Str),
      Urho3D.EndsWith filename ".lua".toList = true →
      DynamicResourceCache.ProcessResource b e s filename content
          = { s with log := s.log ++
                [{ level := Urho3D.LogLevel.error,
                   format := "Lua script dynamic loading is not yet supported!",
                   args := [] }] } ∧
        (DynamicResourceCache.ProcessResource b e s filename content).registry = s.registry ∧
        (DynamicResourceCache.ProcessResource b e s filename content).asScripts = s.asScripts ∧
        (DynamicResourceCache.ProcessResource b e s filename content).callbacks
          = s.callbacks) ∧
    (∀ (w : WebResourceCache.State) (n c : Urho3D.Str) (rest : List Urho3D.Str),
      w.queue = n :: c :: rest →
      Urho3D.EndsWith (Urho3D.c_str n) ".lua".toList = true →
      (WebResourceCache.HandleUpdate b e w).cache
          = { w.cache with log := w.cache.log ++
                [{ level := Urho3D.LogLevel.info, format := "Processing queue item: %s",
                   args := [Urho3D.LogArg.str (Urho3D.c_str n)] },
                 { level := Urho3D.LogLevel.error,
                   format := "Lua script dynamic loading is not yet supported!",
                   args := [] }] } ∧
        (WebResourceCache.HandleUpdate b e w).cache.registry = w.cache.registry ∧
        (WebResourceCache.HandleUpdate b e w).cache.asScripts = w.cache.asScripts ∧
        (WebResourceCache.HandleUpdate b e w).cache.callbacks = w.cache.callbacks) := by
  constructor
  · intro s filename content h
    rw [DynamicResourceCache.processResource_lua b e s filename content h]
    exact ⟨rfl, rfl, rfl, rfl⟩
  · intro w n c rest hq h
    rw [WebResourceCache.handleUpdate_cons b e w n c rest hq]
    simp only [WebResourceCache.dispatch_lua b e _ _ _ h, WebResourceCache.AddLuaScriptFile,
      Urho3D.logLine, List.append_assoc, List.singleton_append, and_self]

/-- C10 witness: `ai.lua` through `ProcessResource` in the browser build. -/
theorem C10_lua_unsupported_witness :
    Urho3D.EndsWith "ai.lua".toList ".lua".toList = true ∧
    DynamicResourceCache.ProcessResource Urho3D.browserBuild Urho3D.demoEngine {}
        "ai.lua".toList "print(1)".toList
      = { log := [{ level := Urho3D.LogLevel.error,
                    format := "Lua script dynamic loading is not yet supported!",
                    args := [] }] } :=
  ⟨by decide,
    ((C10_lua_unsupported Urho3D.browserBuild Urho3D.demoEngine).1 {} "ai.lua".toList
      "print(1)".toList (by decide)).1⟩

/-- C11 (as stated, refuted): in a build without AngelScript the script materializer finds
no `ScriptFile` named `a.as` in the registry and still registers nothing (it only logs
that the engine was built without AngelScript support). -/
theorem C11_create_counterexample :
    Urho3D.GetResource ({} : Urho3D.Cache).registry Urho3D.ResType.ScriptFile "a.as".toList
      = none ∧
    (DynamicResourceCache.AddAngelScriptFile
        { angelscript := false, emscripten := true, network := true } Urho3D.demoEngine {}
        "a.as".toList "void Start()".toList).registry = [] ∧
    (DynamicResourceCache.AddAngelScriptFile
        { angelscript := false, emscripten := true, network := true } Urho3D.demoEngine {}
        "a.as".toList "void Start()".toList).log
      = [{ level := Urho3D.LogLevel.error,
           format := "Engine built without AngelScript support!", args := [] }] := by
  decide

/-- C11 (amended): create on a miss, without rollback. For every materializer of
`DynamicResourceCache` (script in a build with AngelScript, generic XML, material,
technique, JSON, shader, image, model) and every file name for which the registry holds
no resource of the materializer's type, the call appends exactly one resource of that
type, named as the file, and changes no other registry entry. The new resource is
registered whatever `Load` returns for the content: it holds the content and the
(possibly failed) result of the parse. -/
theorem C11_create_on_miss (b : Urho3D.Build) (e : Urho3D.Engine) (s : Urho3D.Cache)
    (filename content : Urho3D.Str) :
    (b.angelscript = true →
      Urho3D.GetResource s.registry Urho3D.ResType.ScriptFile filename = none →
      (DynamicResourceCache.AddAngelScriptFile b e s filename content).registry
        = s.registry ++
          [{ type := Urho3D.ResType.ScriptFile, name := filename, data := some content,
             loaded := e.load Urho3D.ResType.ScriptFile filename content }]) ∧
    (e.xmlRoot content ≠ "material".toList → e.xmlRoot content ≠ "technique".toList →
      Urho3D.GetResource s.registry Urho3D.ResType.XMLFile filename = none →
      (DynamicResourceCache.AddXMLFile b e s filename content).registry
        = s.registry ++
          [{ type := Urho3D.ResType.XMLFile, name := filename, data := some content,
             loaded := e.load Urho3D.ResType.XMLFile filename content }]) ∧
    (Urho3D.GetResource s.registry Urho3D.ResType.Material filename = none →
      (DynamicResourceCache.AddMaterialFile b e s filename content).registry
        = s.registry ++
          [{ type := Urho3D.ResType.Material, name := filename, data := some content,
             loaded := e.load Urho3D.ResType.Material filename content }]) ∧
    (Urho3D.GetResource s.registry Urho3D.ResType.Technique filename = none →
      (DynamicResourceCache.AddTechniqueFile b e s filename content).registry
        = s.registry ++
          [{ type := Urho3D.ResType.Technique, name := filename, data := some content,
             loaded := e.load Urho3D.ResType.Technique filename content }]) ∧
    (Urho3D.GetResource s.registry Urho3D.ResType.JSONFile filename = none →
      (DynamicResourceCache.AddJSONFile b e s filename content).registry
        = s.registry ++
          [{ type := Urho3D.ResType.JSONFile, name := filename, data := some content,
             loaded := e.load Urho3D.ResType.JSONFile filename content }]) ∧
    (Urho3D.GetResource s.registry Urho3D.ResType.Shader filename = none →
      (DynamicResourceCache.AddGLSLShader b e s filename content).registry
        = s.registry ++
          [{ type := Urho3D.ResType.Shader, name := filename, data := some content,
             loaded := e.load Urho3D.ResType.Shader filename content }]) ∧
    (Urho3D.GetResource s.registry Urho3D.ResType.Texture2D filename = none →
      (DynamicResourceCache.AddImageFile b e s filename content).registry
        = s.registry ++
          [{ type := Urho3D.ResType.Texture2D, name := filename, data := some content,
             loaded := e.load Urho3D.ResType.Texture2D filename content }]) ∧
    (Urho3D.GetResource s.registry Urho3D.ResType.Model filename = none →
      (DynamicResourceCache.AddModel b e s filename content).registry
        = s.registry ++
          [{ type := Urho3D.ResType.Model, name := filename, data := some content,
             loaded := e.load Urho3D.ResType.Model filename content }]) := by
  refine ⟨?_, ?_, ?_, ?_, ?_, ?_, ?_, ?_⟩
  · intro hb h
    rw [DynamicResourceCache.addAngelScriptFile_registry b e s filename content hb,
      Urho3D.ingest_of_miss _ _ _ _ _ h]
  · intro hm ht h
    rw [DynamicResourceCache.addXMLFile_generic b e s filename content hm ht,
      Urho3D.ingest_of_miss _ _ _ _ _ h]
  · intro h
    rw [DynamicResourceCache.addMaterialFile_registry, Urho3D.ingest_of_miss _ _ _ _ _ h]
  · intro h
    rw [DynamicResourceCache.addTechniqueFile_registry, Urho3D.ingest_of_miss _ _ _ _ _ h]
  · intro h
    rw [DynamicResourceCache.addJSONFile_registry, Urho3D.ingest_of_miss _ _ _ _ _ h]
  · intro h
    rw [DynamicResourceCache.addGLSLShader_registry, Urho3D.ingest_of_miss _ _ _ _ _ h]
  · intro h
    rw [DynamicResourceCache.addImageFile_registry, Urho3D.ingest_of_miss _ _ _ _ _ h]
  · intro h
    rw [DynamicResourceCache.addModel_registry, Urho3D.ingest_of_miss _ _ _ _ _ h]

/-- C11 witness: a JSON file whose parse fails is registered all the same. -/
theorem C11_create_on_miss_witness :
    Urho3D.GetResource ({} : Urho3D.Cache).registry Urho3D.ResType.JSONFile "a.json".toList
      = none ∧
    (DynamicResourceCache.AddJSONFile Urho3D.browserBuild
        { load := fun _ _ _ => false, xmlRoot := fun _ => [], hasStart := fun _ => false } {}
        "a.json".toList "[1,".toList).registry
      = [{ type := Urho3D.ResType.JSONFile, name := "a.json".toList,
           data := some "[1,".toList, loaded := false }] :=
  ⟨rfl,
    (C11_create_on_miss Urho3D.browserBuild
      { load := fun _ _ _ => false, xmlRoot := fun _ => [], hasStart := fun _ => false } {}
      "a.json".toList "[1,".toList).2.2.2.2.1 rfl⟩

/-- C12 (the code at the failing inputs): in the browser build, materializing `logo.png`
or `tank.mdl` registers and loads the resource but makes no call into JavaScript, neither
`FileLoaded` nor `FileLoadFailed`; `AddImageFile` and `AddModel` never touch the
callbacks, for any state and content. The JSON materializer of the same class reports
`FileLoaded` for the same engine. -/
theorem C12_image_model_no_callback :
    (DynamicResourceCache.ProcessResource Urho3D.browserBuild Urho3D.demoEngine {}
        "logo.png".toList "PNG".toList).registry
      = [{ type := Urho3D.ResType.Texture2D, name := "logo.png".toList,
           data := some "PNG".toList, loaded := true }] ∧
    (DynamicResourceCache.ProcessResource Urho3D.browserBuild Urho3D.demoEngine {}
        "logo.png".toList "PNG".toList).callbacks = [] ∧
    (DynamicResourceCache.ProcessResource Urho3D.browserBuild Urho3D.demoEngine {}
        "tank.mdl".toList "UMDL".toList).registry
      = [{ type := Urho3D.ResType.Model, name := "tank.mdl".toList,
           data := some "UMDL".toList, loaded := true }] ∧
    (DynamicResourceCache.ProcessResource Urho3D.browserBuild Urho3D.demoEngine {}
        "tank.mdl".toList "UMDL".toList).callbacks = [] ∧
    (DynamicResourceCache.ProcessResource Urho3D.browserBuild Urho3D.demoEngine {}
        "a.json".toList "[]".toList).callbacks
      = [Urho3D.Callback.FileLoaded "a.json".toList] ∧
    (∀ (b : Urho3D.Build) (e : Urho3D.Engine) (s : Urho3D.Cache)
        (filename content : Urho3D.Str),
      (DynamicResourceCache.AddImageFile b e s filename content).callbacks = s.callbacks ∧
      (DynamicResourceCache.AddModel b e s filename content).callbacks = s.callbacks) := by
  refine ⟨by decide, by decide, by decide, by decide, by decide, ?_⟩
  intro b e s filename content
  constructor
  · unfold DynamicResourceCache.AddImageFile Urho3D.loadInto Urho3D.lookupOrCreate
    cases Urho3D.GetResource s.registry Urho3D.ResType.Texture2D filename <;> rfl
  · unfold DynamicResourceCache.AddModel Urho3D.loadInto Urho3D.lookupOrCreate
    cases Urho3D.GetResource s.registry Urho3D.ResType.Model filename <;> rfl

/-- C13: remote fetch error. When the loop of `HandleUpdate` stands at a tracked request
in the `HTTP_ERROR` state, it logs the error, erases that entry and leaves the loop;
nothing else changes: no `ProcessResource`, no resource registered, no script started,
nothing queued in `remoteResources_`. For a whole tick in a network build whose earlier
entries are passed over (initializing, open, or closed with nothing delivered), the
request is gone afterwards, the other entries are in place, the registry, the script
map, the callbacks and the executed scripts are as before, `remoteResources_` is empty
and the next tick issues no request. -/
theorem C13_fetch_error (b : Urho3D.Build) (e : Urho3D.Engine) (net : Urho3D.Network) :
    (∀ (fuel : Nat) (s : DynamicResourceCache.DState) (it : Nat)
        (r : Urho3D.NetworkResourceRequest) (req : Urho3D.HttpRequest),
      s.httpRequests[it]? = some r → r.first_ = some req →
      req.state = Urho3D.HttpRequestState.HTTP_ERROR →
      DynamicResourceCache.pollLoop b e (fuel + 1) s it
        = some { s with
            cache := Urho3D.logLine s.cache Urho3D.LogLevel.error
              "Failed to load resource from url due to error: %s"
              [Urho3D.LogArg.str (Urho3D.c_str req.error)],
            httpRequests := s.httpRequests.eraseIdx it }) ∧
    (b.network = true →
      ∀ (s : DynamicResourceCache.DState) (pre post : List Urho3D.NetworkResourceRequest)
        (r : Urho3D.NetworkResourceRequest) (req : Urho3D.HttpRequest),
      (DynamicResourceCache.issueLoop net s.remoteResources.length s).httpRequests
        = pre ++ r :: post →
      (∀ x ∈ pre, DynamicResourceCache.Stuck x = true) →
      r.first_ = some req → req.state = Urho3D.HttpRequestState.HTTP_ERROR →
      ∃ s1, DynamicResourceCache.HandleUpdate b e net s = some s1 ∧
        s1.httpRequests = pre ++ post ∧
        s1.remoteResources = [] ∧
        (DynamicResourceCache.issueLoop net s1.remoteResources.length s1).httpRequests
          = s1.httpRequests ∧
        s1.cache.registry = s.cache.registry ∧
        s1.cache.asScripts = s.cache.asScripts ∧
        s1.cache.executed = s.cache.executed ∧
        s1.cache.callbacks = s.cache.callbacks ∧
        s1.cache.jsRun = s.cache.jsRun) := by
  constructor
  · intro fuel s it r req hget hf hst
    rw [DynamicResourceCache.pollLoop_step b e fuel s it r hget,
      DynamicResourceCache.pollBody_error b e s it r req hf hst]
    rfl
  · intro hb s pre post r req hl hpre hf hst
    obtain ⟨h1, h2, h3, h4, h5, _⟩ :=
      DynamicResourceCache.issueLoop_frame net s.remoteResources.length s
    have hnil := DynamicResourceCache.issueLoop_remote_nil net s.remoteResources.length s
      (Nat.le_refl _)
    have hget : (DynamicResourceCache.issueLoop net s.remoteResources.length
        s).httpRequests[pre.length]? = some r := by
      rw [hl]; exact Urho3D.get_append_length pre post r
    have hfuel : (DynamicResourceCache.issueLoop net s.remoteResources.length
        s).httpRequests.length + 1 = (post.length + 1 + 1) + pre.length := by
      rw [hl]; simp only [List.length_append, List.length_cons]; omega
    have hskip := DynamicResourceCache.pollLoop_skip_stuck b e (post.length + 1 + 1)
      (DynamicResourceCache.issueLoop net s.remoteResources.length s) pre [] (r :: post)
      (by rw [hl]; simp) hpre
    simp only [List.length_nil, Nat.zero_add] at hskip
    rw [DynamicResourceCache.handleUpdate_network b e net s hb, hfuel, hskip,
      DynamicResourceCache.pollLoop_step b e _ _ _ r hget,
      DynamicResourceCache.pollBody_error b e _ _ r req hf hst]
    refine ⟨_, rfl, ?_, hnil, ?_, h1, h2, h4, h3, h5⟩
    · simp only [hl, Urho3D.eraseIdx_append_length]
    · simp only [hnil, List.length_nil, DynamicResourceCache.issueLoop]

/-- C13 witness: a single tracked request that failed. -/
theorem C13_fetch_error_witness :
    DynamicResourceCache.HandleUpdate Urho3D.browserBuild Urho3D.demoEngine
        { MakeHttpRequest := fun _ => none }
        { httpRequests :=
            [{ first_ := some { url := "u".toList,
                                state := Urho3D.HttpRequestState.HTTP_ERROR,
                                error := "404".toList },
               second_ := { first_ := "a.json".toList } }] }
      = some { cache := { log := [{ level := Urho3D.LogLevel.error,
                                    format := "Failed to load resource from url due to error: %s",
                                    args := [Urho3D.LogArg.str "404".toList] }] } } :=
  (C13_fetch_error Urho3D.browserBuild Urho3D.demoEngine { MakeHttpRequest := fun _ => none }).1
    1
    { httpRequests :=
        [{ first_ := some { url := "u".toList, state := Urho3D.HttpRequestState.HTTP_ERROR,
                            error := "404".toList },
           second_ := { first_ := "a.json".toList } }] }
    0
    { first_ := some { url := "u".toList, state := Urho3D.HttpRequestState.HTTP_ERROR,
                       error := "404".toList },
      second_ := { first_ := "a.json".toList } }
    { url := "u".toList, state := Urho3D.HttpRequestState.HTTP_ERROR, error := "404".toList }
    (by decide) rfl rfl

/-- C14: script activation. Where `asScripts_` exists (a build with AngelScript; without
it the map is empty), `StartScripts` of both classes executes `void Start()` once for
each entry of `asScripts_` whose script defines the function, in map order, and on
nothing else; when no script object is registered under two names, no script is
executed twice. `StartSingleScript(name)` executes `void Start()` on the script
registered under `name` if there is one and it defines the function, and otherwise
returns the state as it was. Neither changes `asScripts_` or the registry. -/
theorem C14_script_activation (b : Urho3D.Build) (e : Urho3D.Engine) (s : Urho3D.Cache)
    (filename : Urho3D.Str) (hb : b.angelscript = true ∨ s.asScripts = []) :
    ((DynamicResourceCache.StartScripts b e s).executed
        = s.executed ++ (s.asScripts.filter
            (fun p => Urho3D.GetFunction e s.registry p.2)).map (fun p => p.2) ∧
      (DynamicResourceCache.StartScripts b e s).asScripts = s.asScripts ∧
      (DynamicResourceCache.StartScripts b e s).registry = s.registry) ∧
    ((WebResourceCache.StartScripts e s).executed
        = s.executed ++ (s.asScripts.filter
            (fun p => Urho3D.GetFunction e s.registry p.2)).map (fun p => p.2) ∧
      (WebResourceCache.StartScripts e s).asScripts = s.asScripts ∧
      (WebResourceCache.StartScripts e s).registry = s.registry) ∧
    ((s.asScripts.map (fun p => p.2)).Nodup →
      ((s.asScripts.filter (fun p => Urho3D.GetFunction e s.registry p.2)).map
        (fun p => p.2)).Nodup) ∧
    (∀ file, Urho3D.mapGet s.asScripts filename = some file →
      Urho3D.GetFunction e s.registry file = true →
      DynamicResourceCache.StartSingleScript b e s filename
          = { s with executed := s.executed ++ [file] } ∧
        WebResourceCache.StartSingleScript e s filename
          = { s with executed := s.executed ++ [file] }) ∧
    ((¬ ∃ file, Urho3D.mapGet s.asScripts filename = some file ∧
        Urho3D.GetFunction e s.registry file = true) →
      DynamicResourceCache.StartSingleScript b e s filename = s ∧
        WebResourceCache.StartSingleScript e s filename = s) := by
  obtain ⟨f1, f2, _, f4⟩ := Urho3D.foldl_startOne e s.asScripts s
  refine ⟨?_, ⟨f4, f2, f1⟩, ?_, ?_, ?_⟩
  · unfold DynamicResourceCache.StartScripts
    rcases hb with hb | hb
    · rw [if_pos hb]
      exact ⟨f4, f2, f1⟩
    · by_cases hb2 : b.angelscript = true
      · rw [if_pos hb2]
        exact ⟨f4, f2, f1⟩
      · rw [if_neg hb2, hb]
        simp
  · intro hn
    have h1 : ((s.asScripts.filter (fun p => Urho3D.GetFunction e s.registry p.2)).map
        (fun p => p.2)).Sublist (s.asScripts.map (fun p => p.2)) :=
      (List.filter_sublist _).map _
    exact hn.sublist h1
  · intro file hg hf
    have hc : Urho3D.mapContains s.asScripts filename = true :=
      (Urho3D.mapGet_isSome s.asScripts filename).mpr ⟨file, hg⟩
    have hb2 : b.angelscript = true := by
      rcases hb with hb | hb
      · exact hb
      · rw [hb] at hg
        simp [Urho3D.mapGet] at hg
    constructor
    · simp only [DynamicResourceCache.StartSingleScript, hb2, hc, hg, hf, if_true]
    · simp only [WebResourceCache.StartSingleScript, hc, hg, hf, if_true]
  · intro hno
    have key : ∀ file, Urho3D.mapGet s.asScripts filename = some file →
        Urho3D.GetFunction e s.registry file = false := by
      intro file hg
      cases hf : Urho3D.GetFunction e s.registry file with
      | false => rfl
      | true => exact absurd ⟨file, hg, hf⟩ hno
    constructor
    · unfold DynamicResourceCache.StartSingleScript
      split_ifs with h1 h2
      · cases hg : Urho3D.mapGet s.asScripts filename with
        | none => rfl
        | some file => simp [key file hg]
      · rfl
      · rfl
    · unfold WebResourceCache.StartSingleScript
      split_ifs with h2
      · cases hg : Urho3D.mapGet s.asScripts filename with
        | none => rfl
        | some file => simp [key file hg]
      · rfl

/-- C14 witness: one registered script that defines `void Start()`. -/
theorem C14_script_activation_witness :
    (DynamicResourceCache.StartScripts Urho3D.browserBuild
        { load := fun _ _ _ => true, xmlRoot := fun _ => [], hasStart := fun _ => true }
        { registry := [{ type := Urho3D.ResType.ScriptFile, name := "a.as".toList,
                         data := some "void Start()".toList, loaded := true }],
          asScripts := [("a.as".toList, 0)] }).executed = [0] :=
  (C14_script_activation Urho3D.browserBuild
    { load := fun _ _ _ => true, xmlRoot := fun _ => [], hasStart := fun _ => true }
    { registry := [{ type := Urho3D.ResType.ScriptFile, name := "a.as".toList,
                     data := some "void Start()".toList, loaded := true }],
      asScripts := [("a.as".toList, 0)] } "a.as".toList (Or.inl rfl)).1.1

/-- C15 (failing input): one tick on a tracked request for `app.js` that is closed, has
no byte available and has accumulated the four bytes `go()`. The tick hands the pointer
to the accumulator's data to `emscripten_run_script` without a length: the read takes the
four bytes and goes on behind them, where the buffer has ended. With the seven bytes
`a()`, zero byte, `b()` accumulated, the script that is run is `a()`, three of the seven
bytes. In neither tick is the text that is run the accumulated bytes. -/
theorem C15_js_overread :
    DynamicResourceCache.HandleUpdate Urho3D.browserBuild Urho3D.demoEngine
        { MakeHttpRequest := fun _ => none }
        { httpRequests :=
            [{ first_ := some { url := "u".toList,
                                state := Urho3D.HttpRequestState.HTTP_CLOSED },
               second_ := { first_ := "app.js".toList, second_ := "go()".toList } }] }
      = some { cache :=
                { log := [{ level := Urho3D.LogLevel.info,
                            format := "Remote resource %s downloaded from %s, size = %d",
                            args := [Urho3D.LogArg.str "app.js".toList,
                                     Urho3D.LogArg.str "u".toList, Urho3D.LogArg.int 4] }],
                  jsRun := [Urho3D.CStringRead.past "go()".toList] },
               httpRequests := [] } ∧
    (DynamicResourceCache.HandleUpdate Urho3D.browserBuild Urho3D.demoEngine
        { MakeHttpRequest := fun _ => none }
        { httpRequests :=
            [{ first_ := some { url := "u".toList,
                                state := Urho3D.HttpRequestState.HTTP_CLOSED },
               second_ := { first_ := "app.js".toList,
                            second_ := "a()".toList ++ [Char.ofNat 0] ++ "b()".toList } }] }).map
        (fun s => s.cache.jsRun)
      = some [Urho3D.CStringRead.text "a()".toList] := by
  decide

/-- C15: remote fetch completion. When the loop of `HandleUpdate` stands at a tracked
request that is closed, has no byte available and a non-empty accumulator, it calls
`ProcessResource` with the target name and the accumulated bytes (and starts the script
when the name ends in `.as`), erases that entry only, and leaves the loop. For a target
name that is materialized, the resource found under that name afterwards holds exactly
the accumulated bytes. For a target name ending in `.js` in the Emscripten build the tick
runs what a C-string read finds at the accumulator's data instead: never the accumulated
bytes by their number, but their part before the first zero byte (shorter), or, when
they hold no zero byte, a read that goes on behind them; the registry is untouched.
When the loop stands at a closed request with bytes available, it only moves a non-empty
initial run of the available bytes to the end of the accumulator, in order (so the
accumulator followed by the unread bytes stays the same byte sequence), keeps the entry
at its position, ingests nothing and goes on; the entry is still tracked at that
position when the tick ends. For a whole tick whose earlier entries are passed over, a
complete request is ingested and gone afterwards and the other entries are in place. -/
theorem C15_fetch_completion (b : Urho3D.Build) (e : Urho3D.Engine)
    (s : DynamicResourceCache.DState) (it : Nat) (r : Urho3D.NetworkResourceRequest)
    (req : Urho3D.HttpRequest) (hget : s.httpRequests[it]? = some r)
    (hf : r.first_ = some req) (hst : req.state = Urho3D.HttpRequestState.HTTP_CLOSED) :
    (req.available = [] → r.second_.second_ ≠ [] →
      ∀ fuel, DynamicResourceCache.pollLoop b e (fuel + 1) s it
        = some { s with
            cache :=
              if Urho3D.EndsWith r.second_.first_ ".as".toList then
                DynamicResourceCache.StartSingleScript b e
                  (DynamicResourceCache.ProcessResource b e
                    (Urho3D.logLine s.cache Urho3D.LogLevel.info
                      "Remote resource %s downloaded from %s, size = %d"
                      [Urho3D.LogArg.str (Urho3D.c_str r.second_.first_),
                        Urho3D.LogArg.str (Urho3D.c_str req.url),
                        Urho3D.LogArg.int r.second_.second_.length])
                    r.second_.first_ r.second_.second_)
                  r.second_.first_
              else
                DynamicResourceCache.ProcessResource b e
                  (Urho3D.logLine s.cache Urho3D.LogLevel.info
                    "Remote resource %s downloaded from %s, size = %d"
                    [Urho3D.LogArg.str (Urho3D.c_str r.second_.first_),
                      Urho3D.LogArg.str (Urho3D.c_str req.url),
                      Urho3D.LogArg.int r.second_.second_.length])
                  r.second_.first_ r.second_.second_,
            httpRequests := s.httpRequests.eraseIdx it }) ∧
    (req.available = [] → r.second_.second_ ≠ [] →
      ∀ t, DynamicResourceCache.Materializes b e r.second_.first_ r.second_.second_ t →
      ∀ fuel, ∃ s1 i x,
        DynamicResourceCache.pollLoop b e (fuel + 1) s it = some s1 ∧
        s1.httpRequests = s.httpRequests.eraseIdx it ∧
        s1.cache.registry
          = Urho3D.ingest s.cache.registry t r.second_.first_ r.second_.second_
              (e.load t r.second_.first_ r.second_.second_) ∧
        Urho3D.GetResource s1.cache.registry t r.second_.first_ = some i ∧
        s1.cache.registry[i]? = some x ∧ x.type = t ∧ x.name = r.second_.first_ ∧
        x.data = some r.second_.second_) ∧
    (req.available = [] → r.second_.second_ ≠ [] →
      Urho3D.EndsWith r.second_.first_ ".js".toList = true → b.emscripten = true →
      (∀ fuel, DynamicResourceCache.pollLoop b e (fuel + 1) s it
        = some { s with
            cache :=
              { Urho3D.logLine s.cache Urho3D.LogLevel.info
                  "Remote resource %s downloaded from %s, size = %d"
                  [Urho3D.LogArg.str (Urho3D.c_str r.second_.first_),
                    Urho3D.LogArg.str (Urho3D.c_str req.url),
                    Urho3D.LogArg.int r.second_.second_.length] with
                jsRun := s.cache.jsRun ++ [Urho3D.readCString r.second_.second_] },
            httpRequests := s.httpRequests.eraseIdx it }) ∧
      Urho3D.readCString r.second_.second_ ≠ Urho3D.CStringRead.text r.second_.second_ ∧
      (Char.ofNat 0 ∉ r.second_.second_ →
        Urho3D.readCString r.second_.second_ = Urho3D.CStringRead.past r.second_.second_) ∧
      (Char.ofNat 0 ∈ r.second_.second_ →
        Urho3D.readCString r.second_.second_
            = Urho3D.CStringRead.text (Urho3D.c_str r.second_.second_) ∧
          (Urho3D.c_str r.second_.second_).length < r.second_.second_.length)) ∧
    (req.available ≠ [] →
      DynamicResourceCache.pollBody b e s it r
          = ({ s with httpRequests :=
                s.httpRequests.set it (DynamicResourceCache.pumpEntry r req) }, false) ∧
        (∀ fuel, DynamicResourceCache.pollLoop b e (fuel + 1) s it
          = DynamicResourceCache.pollLoop b e fuel
              { s with httpRequests :=
                  s.httpRequests.set it (DynamicResourceCache.pumpEntry r req) } (it + 1)) ∧
        (∀ fuel s1, DynamicResourceCache.pollLoop b e (fuel + 1) s it = some s1 →
          s1.httpRequests[it]? = some (DynamicResourceCache.pumpEntry r req)) ∧
        ∃ k, 0 < k ∧ k ≤ req.available.length ∧
          (DynamicResourceCache.pumpEntry r req).first_
            = some { req with available := req.available.drop k } ∧
          (DynamicResourceCache.pumpEntry r req).second_.first_ = r.second_.first_ ∧
          (DynamicResourceCache.pumpEntry r req).second_.second_
            = r.second_.second_ ++ req.available.take k ∧
          (DynamicResourceCache.pumpEntry r req).second_.second_ ++ req.available.drop k
            = r.second_.second_ ++ req.available) ∧
    (b.network = true → req.available = [] → r.second_.second_ ≠ [] →
      ∀ (net : Urho3D.Network) (s0 : DynamicResourceCache.DState)
        (pre post : List Urho3D.NetworkResourceRequest),
      (DynamicResourceCache.issueLoop net s0.remoteResources.length s0).httpRequests
        = pre ++ r :: post →
      (∀ x ∈ pre, DynamicResourceCache.Stuck x = true) →
      ∃ s1, DynamicResourceCache.HandleUpdate b e net s0 = some s1 ∧
        s1.httpRequests = pre ++ post ∧
        s1.cache =
          (DynamicResourceCache.pollBody b e
            (DynamicResourceCache.issueLoop net s0.remoteResources.length s0)
            pre.length r).1.cache) := by
  have hloop : req.available = [] → r.second_.second_ ≠ [] →
      ∀ fuel, DynamicResourceCache.pollLoop b e (fuel + 1) s it
        = some (DynamicResourceCache.pollBody b e s it r).1 := by
    intro ha hbuf fuel
    rw [DynamicResourceCache.pollLoop_step b e fuel s it r hget,
      DynamicResourceCache.pollBody_complete b e s it r req hf hst ha hbuf]
    rfl
  refine ⟨?_, ?_, ?_, ?_, ?_⟩
  · intro ha hbuf fuel
    rw [hloop ha hbuf fuel,
      DynamicResourceCache.pollBody_complete b e s it r req hf hst ha hbuf]
  · intro ha hbuf t hm fuel
    have hreg := DynamicResourceCache.pollBody_complete_registry b e s it r req hf hst ha
      hbuf t hm
    obtain ⟨i, x, h1, h2, h3, h4, h5, _, _⟩ :=
      Urho3D.ingest_getResource s.cache.registry t r.second_.first_ r.second_.second_
        (e.load t r.second_.first_ r.second_.second_)
    refine ⟨_, i, x, hloop ha hbuf fuel, ?_, hreg, ?_, ?_, h3, h4, h5⟩
    · rw [DynamicResourceCache.pollBody_complete b e s it r req hf hst ha hbuf]
    · rw [hreg]; exact h1
    · rw [hreg]; exact h2
  · intro ha hbuf hjs hem
    have has : Urho3D.EndsWith r.second_.first_ ".as".toList = false :=
      Urho3D.endsWith_disjoint (by decide) (by decide) hjs
    refine ⟨?_, Urho3D.readCString_ne_text _, Urho3D.readCString_of_no_zero _, ?_⟩
    · intro fuel
      rw [hloop ha hbuf fuel,
        DynamicResourceCache.pollBody_complete b e s it r req hf hst ha hbuf]
      simp only [has, Bool.false_eq_true, if_false,
        DynamicResourceCache.processResource_js b e _ _ _ hjs, hem, if_true]
      rfl
    · intro hz
      exact ⟨Urho3D.readCString_of_zero _ hz, Urho3D.c_str_length_lt _ hz⟩
  · intro ha
    have hbody := DynamicResourceCache.pollBody_pump b e s it r req hf hst ha
    refine ⟨hbody, ?_, ?_, ?_⟩
    · intro fuel
      rw [DynamicResourceCache.pollLoop_step b e fuel s it r hget, hbody]
      rfl
    · intro fuel s1 h
      exact DynamicResourceCache.pollLoop_pumped_stays b e fuel s it r req hget hf hst ha s1 h
    · obtain ⟨k, h1, h2, h3⟩ := DynamicResourceCache.pump_spec req r.second_.second_
      refine ⟨k, h3 ha, h2, ?_, rfl, ?_, ?_⟩
      · simp only [DynamicResourceCache.pumpEntry, h1]
      · simp only [DynamicResourceCache.pumpEntry, h1]
      · simp only [DynamicResourceCache.pumpEntry, h1, List.append_assoc,
          List.take_append_drop]
  · intro hb ha hbuf net s0 pre post hl hpre
    have hget0 : (DynamicResourceCache.issueLoop net s0.remoteResources.length
        s0).httpRequests[pre.length]? = some r := by
      rw [hl]; exact Urho3D.get_append_length pre post r
    have hfuel : (DynamicResourceCache.issueLoop net s0.remoteResources.length
        s0).httpRequests.length + 1 = (post.length + 1 + 1) + pre.length := by
      rw [hl]; simp only [List.length_append, List.length_cons]; omega
    have hskip := DynamicResourceCache.pollLoop_skip_stuck b e (post.length + 1 + 1)
      (DynamicResourceCache.issueLoop net s0.remoteResources.length s0) pre [] (r :: post)
      (by rw [hl]; simp) hpre
    simp only [List.length_nil, Nat.zero_add] at hskip
    rw [DynamicResourceCache.handleUpdate_network b e net s0 hb, hfuel, hskip,
      DynamicResourceCache.pollLoop_step b e _ _ _ r hget0,
      DynamicResourceCache.pollBody_complete b e _ _ r req hf hst ha hbuf]
    refine ⟨_, rfl, ?_, rfl⟩
    simp only [hl, Urho3D.eraseIdx_append_length]

/-- C15 witness: the failing input, a closed request for `app.js` with `go()`
accumulated and nothing available: the loop runs a read that goes on behind the four
accumulated bytes. -/
theorem C15_fetch_completion_witness :
    DynamicResourceCache.pollLoop Urho3D.browserBuild Urho3D.demoEngine 1
        { httpRequests :=
            [{ first_ := some { url := "u".toList,
                                state := Urho3D.HttpRequestState.HTTP_CLOSED },
               second_ := { first_ := "app.js".toList, second_ := "go()".toList } }] } 0
      = some { cache :=
                { log := [{ level := Urho3D.LogLevel.info,
                            format := "Remote resource %s downloaded from %s, size = %d",
                            args := [Urho3D.LogArg.str "app.js".toList,
                                     Urho3D.LogArg.str "u".toList, Urho3D.LogArg.int 4] }],
                  jsRun := [Urho3D.CStringRead.past "go()".toList] },
               httpRequests := [] } :=
  ((C15_fetch_completion Urho3D.browserBuild Urho3D.demoEngine
    { httpRequests :=
        [{ first_ := some { url := "u".toList, state := Urho3D.HttpRequestState.HTTP_CLOSED },
           second_ := { first_ := "app.js".toList, second_ := "go()".toList } }] } 0
    { first_ := some { url := "u".toList, state := Urho3D.HttpRequestState.HTTP_CLOSED },
      second_ := { first_ := "app.js".toList, second_ := "go()".toList } }
    { url := "u".toList, state := Urho3D.HttpRequestState.HTTP_CLOSED }
    (by decide) rfl rfl).2.2.1 rfl (by decide) (by decide) rfl).1 0

/-- C16 (failing inputs). Four `LoadResourceFromUrl` calls, then one `HandleUpdate` with
a network that hands out a null request for the first and the third URL: the tick
issues four requests and ends with two tracked entries, so it removed two entries and
went on iterating after the first removal. With a null entry in front of a request in
error, the tick erases the null entry and ends without having examined the request in
error (no log line, still tracked). With a null entry in the last place, the iterator
is stepped beyond `End()` after the erasure. -/
theorem C16_removal_counterexample :
    (DynamicResourceCache.drun Urho3D.browserBuild Urho3D.demoEngine
        { MakeHttpRequest := fun url =>
            if url = "bad".toList then none
            else some { url := url, state := Urho3D.HttpRequestState.HTTP_INITIALIZING } }
        {}
        [DynamicResourceCache.DOp.load "bad".toList "a.json".toList,
         DynamicResourceCache.DOp.load "u1".toList "b.json".toList,
         DynamicResourceCache.DOp.load "bad".toList "c.json".toList,
         DynamicResourceCache.DOp.load "u2".toList "d.json".toList,
         DynamicResourceCache.DOp.tick]).map (fun s => s.httpRequests)
      = some
          [{ first_ := some { url := "u1".toList,
                              state := Urho3D.HttpRequestState.HTTP_INITIALIZING },
             second_ := { first_ := "b.json".toList } },
           { first_ := some { url := "u2".toList,
                              state := Urho3D.HttpRequestState.HTTP_INITIALIZING },
             second_ := { first_ := "d.json".toList } }] ∧
    DynamicResourceCache.HandleUpdate Urho3D.browserBuild Urho3D.demoEngine
        { MakeHttpRequest := fun _ => none }
        { httpRequests :=
            [{ first_ := none, second_ := { first_ := "a.json".toList } },
             { first_ := some { url := "v".toList,
                                state := Urho3D.HttpRequestState.HTTP_ERROR },
               second_ := { first_ := "b.json".toList } }] }
      = some { httpRequests :=
            [{ first_ := some { url := "v".toList,
                                state := Urho3D.HttpRequestState.HTTP_ERROR },
               second_ := { first_ := "b.json".toList } }] } ∧
    DynamicResourceCache.HandleUpdate Urho3D.browserBuild Urho3D.demoEngine
        { MakeHttpRequest := fun _ => none }
        { httpRequests :=
            [{ first_ := some { url := "u".toList,
                                state := Urho3D.HttpRequestState.HTTP_INITIALIZING },
               second_ := { first_ := "a.json".toList } },
             { first_ := none, second_ := { first_ := "b.json".toList } }] }
      = none := by
  decide

/-- C16: in a network build. When no entry is null among those tracked before the tick
and those issued during it, one `HandleUpdate` ends normally and either removes no
entry, or removes exactly one and stops there: every entry behind the removed one is
exactly as it was. The two branches that resolve a request, for a request in error and
for a completed download, erase their entry and leave the loop. The branch for a null
request erases its entry and does not leave the loop: the loop goes on one position
further, past the entry that moved into the erased place, and beyond `End()` when the
null entry was the last one. A tick that ends normally still removes at most one entry
that holds a request. -/
theorem C16_at_most_one_removal (b : Urho3D.Build) (e : Urho3D.Engine) (net : Urho3D.Network)
    (s : DynamicResourceCache.DState) (hb : b.network = true) :
    ((∀ r ∈ (DynamicResourceCache.issueLoop net s.remoteResources.length s).httpRequests,
        DynamicResourceCache.nonNull r = true) →
      ∃ s1, DynamicResourceCache.HandleUpdate b e net s = some s1 ∧
        (s1.httpRequests.length
            = (DynamicResourceCache.issueLoop net s.remoteResources.length
                s).httpRequests.length ∨
          ∃ k mid,
            k < (DynamicResourceCache.issueLoop net s.remoteResources.length
                  s).httpRequests.length ∧
            mid.length = k ∧
            s1.httpRequests = mid ++
              (DynamicResourceCache.issueLoop net s.remoteResources.length
                s).httpRequests.drop (k + 1))) ∧
    (∀ (s0 : DynamicResourceCache.DState) (it : Nat) (r : Urho3D.NetworkResourceRequest)
        (req : Urho3D.HttpRequest), r.first_ = some req →
      (req.state = Urho3D.HttpRequestState.HTTP_ERROR ∨
        (req.state = Urho3D.HttpRequestState.HTTP_CLOSED ∧ req.available = [] ∧
          r.second_.second_ ≠ [])) →
      (DynamicResourceCache.pollBody b e s0 it r).2 = true ∧
      (DynamicResourceCache.pollBody b e s0 it r).1.httpRequests
        = s0.httpRequests.eraseIdx it) ∧
    (∀ (s0 : DynamicResourceCache.DState) (it : Nat) (r : Urho3D.NetworkResourceRequest),
      r.first_ = none →
      DynamicResourceCache.pollBody b e s0 it r
          = ({ s0 with httpRequests := s0.httpRequests.eraseIdx it }, false) ∧
        (s0.httpRequests[it]? = some r →
          (∀ fuel, DynamicResourceCache.pollLoop b e (fuel + 1) s0 it
            = DynamicResourceCache.pollLoop b e fuel
                { s0 with httpRequests := s0.httpRequests.eraseIdx it } (it + 1)) ∧
          (it + 1 = s0.httpRequests.length →
            ∀ fuel, DynamicResourceCache.pollLoop b e fuel s0 it = none))) ∧
    (∀ s1, DynamicResourceCache.HandleUpdate b e net s = some s1 →
      (DynamicResourceCache.issueLoop net s.remoteResources.length s).httpRequests.countP
          DynamicResourceCache.nonNull
        ≤ s1.httpRequests.countP DynamicResourceCache.nonNull + 1) := by
  refine ⟨?_, ?_, ?_, ?_⟩
  · rw [DynamicResourceCache.handleUpdate_network b e net s hb]
    intro hall
    obtain ⟨s1, h1, _, h3⟩ := DynamicResourceCache.pollLoop_nonNull b e
      (DynamicResourceCache.issueLoop net s.remoteResources.length s).httpRequests []
      (DynamicResourceCache.issueLoop net s.remoteResources.length s) _ (by simp) (by simp)
      hall (Nat.le_refl _)
    refine ⟨s1, h1, ?_⟩
    rcases h3 with ⟨mid, hm1, hm2⟩ | ⟨k, mid, hk, hm1, hm2⟩
    · left
      rw [hm2]; simpa using hm1
    · right
      exact ⟨k, mid, hk, hm1, by simpa using hm2⟩
  · intro s0 it r req hf hcase
    rcases hcase with herr | ⟨hcl, ha, hbuf⟩
    · rw [DynamicResourceCache.pollBody_error b e s0 it r req hf herr]
      exact ⟨rfl, rfl⟩
    · rw [DynamicResourceCache.pollBody_complete b e s0 it r req hf hcl ha hbuf]
      exact ⟨rfl, rfl⟩
  · intro s0 it r hnull
    have hbody := DynamicResourceCache.pollBody_null b e s0 it r hnull
    refine ⟨hbody, ?_⟩
    intro hget
    have hstep : ∀ fuel, DynamicResourceCache.pollLoop b e (fuel + 1) s0 it
        = DynamicResourceCache.pollLoop b e fuel
            { s0 with httpRequests := s0.httpRequests.eraseIdx it } (it + 1) := by
      intro fuel
      rw [DynamicResourceCache.pollLoop_step b e fuel s0 it r hget, hbody]
      rfl
    refine ⟨hstep, ?_⟩
    intro hlast fuel
    cases fuel with
    | zero => rfl
    | succ fuel =>
      rw [hstep]
      cases fuel with
      | zero => rfl
      | succ fuel =>
        have hlen : (s0.httpRequests.eraseIdx it).length = it := by
          rw [List.length_eraseIdx]
          have hlt : it < s0.httpRequests.length := by omega
          rw [if_pos hlt]
          omega
        unfold DynamicResourceCache.pollLoop
        have hne : ¬ (it + 1 = (s0.httpRequests.eraseIdx it).length) := by
          rw [hlen]; omega
        have hnone : (s0.httpRequests.eraseIdx it)[it + 1]? = none := by
          rw [List.getElem?_eq_none]
          rw [hlen]; omega
        simp only [hne, if_false, hnone]
  · rw [DynamicResourceCache.handleUpdate_network b e net s hb]
    intro s1 h
    exact DynamicResourceCache.pollLoop_count b e _ _ _ _ h

/-- C16 witness: two tracked requests in error and no null entry; one tick removes only
the first. -/
theorem C16_at_most_one_removal_witness :
    Urho3D.browserBuild.network = true ∧
    ∃ s1, DynamicResourceCache.HandleUpdate Urho3D.browserBuild Urho3D.demoEngine
        { MakeHttpRequest := fun _ => none }
        { httpRequests :=
            [{ first_ := some { url := "u".toList,
                                state := Urho3D.HttpRequestState.HTTP_ERROR },
               second_ := { first_ := "a.json".toList } },
             { first_ := some { url := "v".toList,
                                state := Urho3D.HttpRequestState.HTTP_ERROR },
               second_ := { first_ := "b.json".toList } }] } = some s1 ∧
      2 ≤ s1.httpRequests.countP DynamicResourceCache.nonNull + 1 :=
  ⟨rfl, _, rfl,
    (C16_at_most_one_removal Urho3D.browserBuild Urho3D.demoEngine
      { MakeHttpRequest := fun _ => none }
      { httpRequests :=
          [{ first_ := some { url := "u".toList, state := Urho3D.HttpRequestState.HTTP_ERROR },
             second_ := { first_ := "a.json".toList } },
           { first_ := some { url := "v".toList, state := Urho3D.HttpRequestState.HTTP_ERROR },
             second_ := { first_ := "b.json".toList } }] } rfl).2.2.2 _ rfl⟩

/-- C17: the poller removes a tracked non-null request only when it is in error, or
closed with no byte available and a non-empty accumulator: at any other non-null entry
the loop body keeps the number of tracked entries, ingests nothing and goes on. An
entry whose request is initializing, open, or closed with nothing delivered is passed
over untouched: no log line, no `ProcessResource`, no removal. Hence a request that
stays in such a state (`P` describes it; the network may change requests between ticks
but keeps an entry with `P` tracked) is still in `httpRequests_`, with `P`, after any
number of ticks that end normally; and ticks always end normally when no null request
is ever tracked. -/
theorem C17_stalled_requests_stay (b : Urho3D.Build) (e : Urho3D.Engine)
    (net : Urho3D.Network) :
    (∀ r : Urho3D.NetworkResourceRequest,
      DynamicResourceCache.nonNull r = true → DynamicResourceCache.Removable r = false →
      ∀ (s : DynamicResourceCache.DState) (it : Nat),
        (DynamicResourceCache.pollBody b e s it r).2 = false ∧
        (DynamicResourceCache.pollBody b e s it r).1.httpRequests.length
          = s.httpRequests.length ∧
        (DynamicResourceCache.pollBody b e s it r).1.cache = s.cache) ∧
    (∀ r : Urho3D.NetworkResourceRequest, DynamicResourceCache.Stuck r = true →
      ∀ (s : DynamicResourceCache.DState) (it : Nat),
        DynamicResourceCache.pollBody b e s it r = (s, false)) ∧
    (∀ (P : Urho3D.NetworkResourceRequest → Prop),
      (∀ x, P x → DynamicResourceCache.Stuck x = true) →
      ∀ (gs : List (List Urho3D.NetworkResourceRequest → List Urho3D.NetworkResourceRequest))
        (s s1 : DynamicResourceCache.DState),
      (∀ g ∈ gs, ∀ l, (∃ x ∈ l, P x) → ∃ x ∈ g l, P x) →
      (∃ x ∈ s.httpRequests, P x) →
      DynamicResourceCache.runTicks b e net gs s = some s1 →
      ∃ x ∈ s1.httpRequests, P x) ∧
    ((∀ url, (net.MakeHttpRequest url).isSome = true) →
      ∀ (gs : List (List Urho3D.NetworkResourceRequest → List Urho3D.NetworkResourceRequest))
        (s : DynamicResourceCache.DState),
      (∀ g ∈ gs, ∀ l, (∀ x ∈ l, DynamicResourceCache.nonNull x = true) →
        ∀ x ∈ g l, DynamicResourceCache.nonNull x = true) →
      (∀ x ∈ s.httpRequests, DynamicResourceCache.nonNull x = true) →
      ∃ s1, DynamicResourceCache.runTicks b e net gs s = some s1) := by
  refine ⟨?_, ?_, ?_, ?_⟩
  · intro r hn hrem s it
    rcases DynamicResourceCache.pollBody_cases b e s it r with hc | ⟨h1, _⟩ |
      ⟨req, _, _, _, hc⟩ | ⟨hf, _⟩
    · rw [hc]; exact ⟨rfl, rfl, rfl⟩
    · rw [h1] at hrem; exact Bool.noConfusion hrem
    · rw [hc]; exact ⟨rfl, by simp, rfl⟩
    · rw [DynamicResourceCache.nonNull, hf] at hn; exact Bool.noConfusion hn
  · intro r hs s it
    exact DynamicResourceCache.pollBody_stuck b e s it r hs
  · intro P hP
    exact DynamicResourceCache.runTicks_keeps_stuck b e net P hP
  · intro hnet
    exact DynamicResourceCache.runTicks_total b e net hnet

/-- C17 witness: the request for `a.json` is initializing at the first tick and closed
without a byte at the second; it is still tracked after the two ticks. -/
theorem C17_stalled_requests_stay_witness :
    ∃ s1, DynamicResourceCache.runTicks Urho3D.browserBuild Urho3D.demoEngine
        { MakeHttpRequest := fun _ => none }
        [id,
         fun _ => [{ first_ := some { url := "u".toList,
                                      state := Urho3D.HttpRequestState.HTTP_CLOSED },
                     second_ := { first_ := "a.json".toList } }]]
        { httpRequests :=
            [{ first_ := some { url := "u".toList,
                                state := Urho3D.HttpRequestState.HTTP_INITIALIZING },
               second_ := { first_ := "a.json".toList } }] } = some s1 ∧
      ∃ x ∈ s1.httpRequests,
        x.second_.first_ = "a.json".toList ∧ DynamicResourceCache.Stuck x = true :=
  ⟨_, rfl,
    (C17_stalled_requests_stay Urho3D.browserBuild Urho3D.demoEngine
      { MakeHttpRequest := fun _ => none }).2.2.1
      (fun x => x.second_.first_ = "a.json".toList ∧ DynamicResourceCache.Stuck x = true)
      (fun _ h => h.2)
      [id,
       fun _ => [{ first_ := some { url := "u".toList,
                                    state := Urho3D.HttpRequestState.HTTP_CLOSED },
                   second_ := { first_ := "a.json".toList } }]]
      { httpRequests :=
          [{ first_ := some { url := "u".toList,
                              state := Urho3D.HttpRequestState.HTTP_INITIALIZING },
             second_ := { first_ := "a.json".toList } }] } _
      (fun g hg l h => by
        rcases List.mem_cons.mp hg with hg | hg
        · rw [hg]; exact h
        · rw [List.mem_singleton.mp hg]
          exact ⟨_, List.mem_singleton.mpr rfl, rfl, rfl⟩)
      ⟨_, List.mem_singleton.mpr rfl, rfl, rfl⟩ rfl⟩

/-- C18: pair parity. Starting from an empty `queue_`, after every sequence of
`AddToQueue` calls and `HandleUpdate` ticks of `WebResourceCache` the queue has even
length; so the guard `size() >= 2` of its drain holds exactly when the queue is
non-empty, and a non-empty queue is still non-empty after the first `pop_front()`.
Starting from an empty `remoteResources_`, after every sequence of
`LoadResourceFromUrl`, `ProcessResource` and `HandleUpdate` calls of
`DynamicResourceCache` the list has even length, and it keeps even length after any
number of turns of the issue loop; so whenever the loop condition holds, the list is
still non-empty after the first `PopFront()`, when the second `Front()` reads it. -/
theorem C18_pair_parity (b : Urho3D.Build) (e : Urho3D.Engine) (net : Urho3D.Network)
    (c0 : Urho3D.Cache) :
    (∀ ops : List WebResourceCache.Op,
      Even (WebResourceCache.run b e { cache := c0 } ops).queue.length ∧
      ((WebResourceCache.run b e { cache := c0 } ops).queue.length ≥ 2 ↔
        (WebResourceCache.run b e { cache := c0 } ops).queue ≠ []) ∧
      ((WebResourceCache.run b e { cache := c0 } ops).queue ≠ [] →
        WebResourceCache.pop_front (WebResourceCache.run b e { cache := c0 } ops).queue ≠ [])) ∧
    (∀ (ops : List DynamicResourceCache.DOp) (s : DynamicResourceCache.DState),
      DynamicResourceCache.drun b e net { cache := c0 } ops = some s →
      Even s.remoteResources.length ∧
      ∀ turns : Nat,
        Even (DynamicResourceCache.issueLoop net turns s).remoteResources.length ∧
        ((DynamicResourceCache.issueLoop net turns s).remoteResources ≠ [] →
          DynamicResourceCache.PopFront
            (DynamicResourceCache.issueLoop net turns s).remoteResources ≠ [])) := by
  constructor
  · intro ops
    obtain ⟨done, rest, _, _, h3⟩ :=
      WebResourceCache.run_invariant b e ops { cache := c0 } [] rfl
    rw [h3]
    cases rest with
    | nil => simp [WebResourceCache.flat]
    | cons p ps =>
      refine ⟨?_, ?_, ?_⟩
      · rw [WebResourceCache.flat_length]; exact ⟨(p :: ps).length, by omega⟩
      · simp [WebResourceCache.flat]
      · simp [WebResourceCache.flat, WebResourceCache.pop_front]
  · intro ops s h
    have he : Even s.remoteResources.length :=
      DynamicResourceCache.drun_remote_even b e net ops { cache := c0 } s ⟨0, rfl⟩ h
    refine ⟨he, fun turns => ?_⟩
    have hk := DynamicResourceCache.issueLoop_even net turns s he
    refine ⟨hk, fun hne => ?_⟩
    obtain ⟨a, c, rest, hq, _⟩ := DynamicResourceCache.even_nonempty_cases _ hk hne
    rw [hq]
    simp [DynamicResourceCache.PopFront]

/-- C18 witness: one `LoadResourceFromUrl` call leaves two entries queued. -/
theorem C18_pair_parity_witness :
    DynamicResourceCache.drun Urho3D.browserBuild Urho3D.demoEngine
        { MakeHttpRequest := fun _ => none } {}
        [DynamicResourceCache.DOp.load "u".toList "a.json".toList]
      = some { remoteResources := ["u".toList, "a.json".toList] } ∧
    Even ({ remoteResources := ["u".toList, "a.json".toList] } :
      DynamicResourceCache.DState).remoteResources.length :=
  ⟨rfl,
    ((C18_pair_parity Urho3D.browserBuild Urho3D.demoEngine
      { MakeHttpRequest := fun _ => none } {}).2
      [DynamicResourceCache.DOp.load "u".toList "a.json".toList]
      { remoteResources := ["u".toList, "a.json".toList] } rfl).1⟩

/-- C19: the drain of `WebResourceCache` truncates at the first zero byte. When the queue
starts with a name and a content, the dispatch chain is run on their `c_str()` readings.
The `c_str()` reading of a string is the part before its first zero byte: the string is
the reading followed by nothing or by a rest that starts with a zero byte, and the
reading holds no zero byte; it equals the string exactly when the string holds no zero
byte. `AddResource`, with a cache object present, enqueues the full name and content and
returns the full content length. -/
theorem C19_drain_truncates (b : Urho3D.Build) (e : Urho3D.Engine)
    (s : WebResourceCache.State) (n c : Urho3D.Str) (rest : List Urho3D.Str)
    (hq : s.queue = n :: c :: rest) :
    (WebResourceCache.HandleUpdate b e s).cache
      = WebResourceCache.dispatch b e
          (Urho3D.logLine s.cache Urho3D.LogLevel.info "Processing queue item: %s"
            [Urho3D.LogArg.str (Urho3D.c_str n)])
          (Urho3D.c_str n) (Urho3D.c_str c) ∧
    (WebResourceCache.HandleUpdate b e s).dispatched
      = s.dispatched ++ [(Urho3D.c_str n, Urho3D.c_str c)] ∧
    (∀ x : Urho3D.Str,
      (∃ tail, x = Urho3D.c_str x ++ tail ∧
        (tail = [] ∨ tail.head? = some (Char.ofNat 0))) ∧
      Char.ofNat 0 ∉ Urho3D.c_str x ∧
      (Urho3D.c_str x = x ↔ Char.ofNat 0 ∉ x)) ∧
    (∀ (s0 : WebResourceCache.State) (filename content : Urho3D.Str),
      (WebResourceCache.AddResource (some s0) filename content).2 = content.length ∧
      (WebResourceCache.AddResource (some s0) filename content).1
        = some { s0 with queue := s0.queue ++ [filename, content] }) := by
  rw [WebResourceCache.handleUpdate_cons b e s n c rest hq]
  refine ⟨rfl, rfl, ?_, ?_⟩
  · intro x
    exact ⟨Urho3D.c_str_split x, Urho3D.c_str_no_zero x, Urho3D.c_str_eq_iff x⟩
  · intro s0 filename content
    simp [WebResourceCache.AddResource, WebResourceCache.AddToQueue]

/-- C19 witness: the content `x`, zero byte, `y` reaches the JSON materializer as `x`,
while `AddResource` reports length 3. -/
theorem C19_drain_truncates_witness :
    (WebResourceCache.HandleUpdate Urho3D.browserBuild Urho3D.demoEngine
        { queue := ["a.json".toList, "x\x00y".toList] }).dispatched
      = [("a.json".toList, "x".toList)] ∧
    (WebResourceCache.AddResource (some {}) "a.json".toList "x\x00y".toList).2 = 3 :=
  ⟨(C19_drain_truncates Urho3D.browserBuild Urho3D.demoEngine
      { queue := ["a.json".toList, "x\x00y".toList] } "a.json".toList "x\x00y".toList []
      rfl).2.1,
    by decide⟩

/-- C20: the twelve suffixes tested by `ProcessResource` are pairwise exclusive: no file
name ends with two different ones. `ProcessResource` is the table look-up: it runs the
handler of the first test of the chain that the file name passes (or logs the error of
the final `else`). Testing the same suffixes in any other order selects the same
handler, and the selection looks at the file name only, not at the content. -/
theorem C20_suffixes_exclusive (b : Urho3D.Build) (e : Urho3D.Engine) (s : Urho3D.Cache)
    (filename content : Urho3D.Str) :
    (∀ x ∈ DynamicResourceCache.chain, ∀ y ∈ DynamicResourceCache.chain, x.1 ≠ y.1 →
      ¬ (Urho3D.EndsWith filename x.1 = true ∧ Urho3D.EndsWith filename y.1 = true)) ∧
    DynamicResourceCache.chain.map (fun p => p.1)
      = [".as".toList, ".lua".toList, ".xml".toList, ".json".toList, ".glsl".toList,
         ".mdl".toList, ".dds".toList, ".jpg".toList, ".jpeg".toList, ".png".toList,
         ".icns".toList, ".js".toList] ∧
    DynamicResourceCache.ProcessResource b e s filename content
      = DynamicResourceCache.runHandler
          (DynamicResourceCache.selectHandler DynamicResourceCache.chain filename)
          b e s filename content ∧
    (∀ order : List (Urho3D.Str × DynamicResourceCache.Handler),
      order.Perm DynamicResourceCache.chain →
      DynamicResourceCache.selectHandler order filename
        = DynamicResourceCache.selectHandler DynamicResourceCache.chain filename) := by
  refine ⟨?_, rfl, DynamicResourceCache.processResource_eq_runHandler b e s filename content,
    DynamicResourceCache.selectHandler_perm filename⟩
  intro x hx y hy hne ⟨h1, h2⟩
  obtain ⟨h3, h4⟩ := DynamicResourceCache.chain_suffixes_incomparable x hx y hy hne
  have := Urho3D.endsWith_disjoint h4 h3 h1
  rw [h2] at this
  exact Bool.noConfusion this

/-- C20 witness: testing the chain back to front selects the same handler for
`model.mdl`. -/
theorem C20_suffixes_exclusive_witness :
    DynamicResourceCache.selectHandler DynamicResourceCache.chain.reverse "model.mdl".toList
      = some DynamicResourceCache.Handler.AddModel :=
  ((C20_suffixes_exclusive Urho3D.browserBuild Urho3D.demoEngine {} "model.mdl".toList
      [] ).2.2.2 DynamicResourceCache.chain.reverse
    (List.reverse_perm DynamicResourceCache.chain)).trans (by decide)

/-- C21 (as stated, refuted): in a build without AngelScript
`DynamicResourceCache::AddAngelScriptFile` records nothing: the script map is empty after
the call, `StartSingleScript` and `StartScripts` leave the state as it is, and the only
effect is the error line in the log. -/
theorem C21_record_counterexample :
    (DynamicResourceCache.AddAngelScriptFile
        { angelscript := false, emscripten := true, network := true } Urho3D.demoEngine {}
        "a.as".toList "void Start()".toList).asScripts = [] ∧
    Urho3D.mapGet (DynamicResourceCache.AddAngelScriptFile
        { angelscript := false, emscripten := true, network := true } Urho3D.demoEngine {}
        "a.as".toList "void Start()".toList).asScripts "a.as".toList = none ∧
    (DynamicResourceCache.StartSingleScript
        { angelscript := false, emscripten := true, network := true } Urho3D.demoEngine
        (DynamicResourceCache.AddAngelScriptFile
          { angelscript := false, emscripten := true, network := true } Urho3D.demoEngine {}
          "a.as".toList "void Start()".toList) "a.as".toList).executed = [] ∧
    (DynamicResourceCache.StartScripts
        { angelscript := false, emscripten := true, network := true } Urho3D.demoEngine
        (DynamicResourceCache.AddAngelScriptFile
          { angelscript := false, emscripten := true, network := true } Urho3D.demoEngine {}
          "a.as".toList "void Start()".toList)).executed = [] ∧
    (DynamicResourceCache.AddAngelScriptFile
        { angelscript := false, emscripten := true, network := true } Urho3D.demoEngine {}
        "a.as".toList "void Start()".toList).log
      = [{ level := Urho3D.LogLevel.error,
           format := "Engine built without AngelScript support!", args := [] }] := by
  decide

/-- C21 (amended): in a build with AngelScript, `DynamicResourceCache::AddAngelScriptFile`
(and `WebResourceCache::AddAngelScriptFile` in every build) records the script under
`filename` for every content and every outcome of `Load`. With `file` the address the
look-up finds before the call, or the address of the object the call creates when the
look-up misses: after the call the look-up finds `file`, the script map is the old one
with `filename` set to `file`, so the map holds the entry `(filename, file)` that the loop
of `StartScripts` runs over (and `file` is executed by it when it defines
`void Start()`), and `StartSingleScript(filename)` passes its `Contains` test and decides
on `GetFunction` of `file` alone. A call with a filename the map already holds keeps the
size of the map, and a second call with the same filename and any content leaves the map
exactly as the first call left it. -/
theorem C21_script_recorded (b : Urho3D.Build) (e : Urho3D.Engine) (s : Urho3D.Cache)
    (filename content : Urho3D.Str) (hb : b.angelscript = true) :
    (Urho3D.GetResource (DynamicResourceCache.AddAngelScriptFile b e s filename content).registry
        Urho3D.ResType.ScriptFile filename
      = some ((Urho3D.GetResource s.registry Urho3D.ResType.ScriptFile filename).getD
          s.registry.length) ∧
     (DynamicResourceCache.AddAngelScriptFile b e s filename content).asScripts
      = Urho3D.mapSet s.asScripts filename
          ((Urho3D.GetResource s.registry Urho3D.ResType.ScriptFile filename).getD
            s.registry.length) ∧
     Urho3D.mapGet (DynamicResourceCache.AddAngelScriptFile b e s filename content).asScripts
        filename
      = some ((Urho3D.GetResource s.registry Urho3D.ResType.ScriptFile filename).getD
          s.registry.length) ∧
     (filename, (Urho3D.GetResource s.registry Urho3D.ResType.ScriptFile filename).getD
          s.registry.length)
        ∈ (DynamicResourceCache.AddAngelScriptFile b e s filename content).asScripts ∧
     (Urho3D.GetFunction e
          (DynamicResourceCache.AddAngelScriptFile b e s filename content).registry
          ((Urho3D.GetResource s.registry Urho3D.ResType.ScriptFile filename).getD
            s.registry.length) = true →
        (Urho3D.GetResource s.registry Urho3D.ResType.ScriptFile filename).getD
            s.registry.length
          ∈ (DynamicResourceCache.StartScripts b e
              (DynamicResourceCache.AddAngelScriptFile b e s filename content)).executed) ∧
     DynamicResourceCache.StartSingleScript b e
        (DynamicResourceCache.AddAngelScriptFile b e s filename content) filename
      = (if Urho3D.GetFunction e
            (DynamicResourceCache.AddAngelScriptFile b e s filename content).registry
            ((Urho3D.GetResource s.registry Urho3D.ResType.ScriptFile filename).getD
              s.registry.length)
         then { DynamicResourceCache.AddAngelScriptFile b e s filename content with
                executed :=
                  (DynamicResourceCache.AddAngelScriptFile b e s filename content).executed
                    ++ [(Urho3D.GetResource s.registry Urho3D.ResType.ScriptFile filename).getD
                          s.registry.length] }
         else DynamicResourceCache.AddAngelScriptFile b e s filename content) ∧
     (Urho3D.mapContains s.asScripts filename = true →
        (DynamicResourceCache.AddAngelScriptFile b e s filename content).asScripts.length
          = s.asScripts.length) ∧
     (∀ content2 : Urho3D.Str,
        (DynamicResourceCache.AddAngelScriptFile b e
            (DynamicResourceCache.AddAngelScriptFile b e s filename content)
            filename content2).asScripts
          = (DynamicResourceCache.AddAngelScriptFile b e s filename content).asScripts)) ∧
    (Urho3D.GetResource (WebResourceCache.AddAngelScriptFile b e s filename content).registry
        Urho3D.ResType.ScriptFile filename
      = some ((Urho3D.GetResource s.registry Urho3D.ResType.ScriptFile filename).getD
          s.registry.length) ∧
     (WebResourceCache.AddAngelScriptFile b e s filename content).asScripts
      = Urho3D.mapSet s.asScripts filename
          ((Urho3D.GetResource s.registry Urho3D.ResType.ScriptFile filename).getD
            s.registry.length) ∧
     Urho3D.mapGet (WebResourceCache.AddAngelScriptFile b e s filename content).asScripts
        filename
      = some ((Urho3D.GetResource s.registry Urho3D.ResType.ScriptFile filename).getD
          s.registry.length) ∧
     (filename, (Urho3D.GetResource s.registry Urho3D.ResType.ScriptFile filename).getD
          s.registry.length)
        ∈ (WebResourceCache.AddAngelScriptFile b e s filename content).asScripts ∧
     (Urho3D.GetFunction e
          (WebResourceCache.AddAngelScriptFile b e s filename content).registry
          ((Urho3D.GetResource s.registry Urho3D.ResType.ScriptFile filename).getD
            s.registry.length) = true →
        (Urho3D.GetResource s.registry Urho3D.ResType.ScriptFile filename).getD
            s.registry.length
          ∈ (WebResourceCache.StartScripts e
              (WebResourceCache.AddAngelScriptFile b e s filename content)).executed) ∧
     WebResourceCache.StartSingleScript e
        (WebResourceCache.AddAngelScriptFile b e s filename content) filename
      = (if Urho3D.GetFunction e
            (WebResourceCache.AddAngelScriptFile b e s filename content).registry
            ((Urho3D.GetResource s.registry Urho3D.ResType.ScriptFile filename).getD
              s.registry.length)
         then { WebResourceCache.AddAngelScriptFile b e s filename content with
                executed :=
                  (WebResourceCache.AddAngelScriptFile b e s filename content).executed
                    ++ [(Urho3D.GetResource s.registry Urho3D.ResType.ScriptFile filename).getD
                          s.registry.length] }
         else WebResourceCache.AddAngelScriptFile b e s filename content) ∧
     (Urho3D.mapContains s.asScripts filename = true →
        (WebResourceCache.AddAngelScriptFile b e s filename content).asScripts.length
          = s.asScripts.length) ∧
     (∀ content2 : Urho3D.Str,
        (WebResourceCache.AddAngelScriptFile b e
            (WebResourceCache.AddAngelScriptFile b e s filename content)
            filename content2).asScripts
          = (WebResourceCache.AddAngelScriptFile b e s filename content).asScripts)) := by
  have hmapD := DynamicResourceCache.addAngelScriptFile_asScripts b e s filename content hb
  rw [Urho3D.lookupOrCreate_snd] at hmapD
  have hregD := DynamicResourceCache.addAngelScriptFile_registry b e s filename content hb
  obtain ⟨d1, d2, d3, d4, _⟩ := Urho3D.recorded_core s _ filename content _ hregD hmapD
  have hmapW := WebResourceCache.web_addAngelScriptFile_asScripts b e s filename content
  rw [Urho3D.lookupOrCreate_snd] at hmapW
  have hregW := WebResourceCache.web_addAngelScriptFile_registry b e s filename content
  obtain ⟨w1, w2, w3, w4, _⟩ := Urho3D.recorded_core s _ filename content _ hregW hmapW
  refine ⟨⟨d1, hmapD, d2, d3, ?_, ?_, d4, ?_⟩, ⟨w1, hmapW, w2, w3, ?_, ?_, w4, ?_⟩⟩
  · intro hf
    unfold DynamicResourceCache.StartScripts
    rw [if_pos hb]
    exact Urho3D.mem_executed_foldl_startOne e _ _ d3 hf
  · exact DynamicResourceCache.startSingleScript_of_mapGet b e _ filename _ hb d2
  · intro content2
    rw [DynamicResourceCache.addAngelScriptFile_asScripts b e _ filename content2 hb,
      Urho3D.lookupOrCreate_snd, d1, Option.getD_some, hmapD, Urho3D.mapSet_mapSet]
  · intro hf
    unfold WebResourceCache.StartScripts
    exact Urho3D.mem_executed_foldl_startOne e _ _ w3 hf
  · exact WebResourceCache.web_startSingleScript_of_mapGet e _ filename _ w2
  · intro content2
    rw [WebResourceCache.web_addAngelScriptFile_asScripts b e _ filename content2,
      Urho3D.lookupOrCreate_snd, w1, Option.getD_some, hmapW, Urho3D.mapSet_mapSet]

/-- C21 witness: with an engine whose `Load` always fails, the script `a.as` is recorded
at address 0 all the same, and a second call leaves the one-entry map as it is. -/
theorem C21_script_recorded_witness :
    Urho3D.browserBuild.angelscript = true ∧
    (DynamicResourceCache.AddAngelScriptFile Urho3D.browserBuild
        { load := fun _ _ _ => false, xmlRoot := fun _ => [], hasStart := fun _ => true }
        {} "a.as".toList "void Start(".toList).asScripts
      = [("a.as".toList, 0)] ∧
    (DynamicResourceCache.AddAngelScriptFile Urho3D.browserBuild
        { load := fun _ _ _ => false, xmlRoot := fun _ => [], hasStart := fun _ => true }
        (DynamicResourceCache.AddAngelScriptFile Urho3D.browserBuild
          { load := fun _ _ _ => false, xmlRoot := fun _ => [], hasStart := fun _ => true }
          {} "a.as".toList "void Start(".toList)
        "a.as".toList "void Start() \x7b\x7d".toList).asScripts
      = (DynamicResourceCache.AddAngelScriptFile Urho3D.browserBuild
        { load := fun _ _ _ => false, xmlRoot := fun _ => [], hasStart := fun _ => true }
        {} "a.as".toList "void Start(".toList).asScripts :=
  ⟨rfl,
   (C21_script_recorded Urho3D.browserBuild
      { load := fun _ _ _ => false, xmlRoot := fun _ => [], hasStart := fun _ => true }
      {} "a.as".toList "void Start(".toList rfl).1.2.1,
   (C21_script_recorded Urho3D.browserBuild
      { load := fun _ _ _ => false, xmlRoot := fun _ => [], hasStart := fun _ => true }
      {} "a.as".toList "void Start(".toList rfl).1.2.2.2.2.2.2.2
        "void Start() \x7b\x7d".toList⟩

/-- C22 (as stated, refuted): a tick that finds a closed request with one byte available
moves that one byte, which is all `n = 1` of them and not fewer: after this single tick
the request has nothing left and the accumulator holds the whole content. -/
theorem C22_pump_counterexample :
    DynamicResourceCache.HandleUpdate Urho3D.browserBuild Urho3D.demoEngine
        { MakeHttpRequest := fun _ => none }
        { httpRequests :=
            [{ first_ := some { url := "u".toList,
                                state := Urho3D.HttpRequestState.HTTP_CLOSED,
                                available := "x".toList },
               second_ := { first_ := "a.json".toList } }] }
      = some { httpRequests :=
            [{ first_ := some { url := "u".toList,
                                state := Urho3D.HttpRequestState.HTTP_CLOSED,
                                available := [] },
               second_ := { first_ := "a.json".toList, second_ := "x".toList } }] } :=
  rfl

/-- C22 (amended): with each `ReadByte` lowering `GetAvailableSize` by one, the loop body
of `HandleUpdate` at a closed request with `n > 0` bytes available moves exactly
`(n + 1) / 2` bytes, the ceiling of `n / 2`, from the request into the accumulator and
goes on without `break`: the accumulator gains the first `(n + 1) / 2` available bytes in
their order, the request keeps the other `n / 2` in their order, and accumulator followed
by request is the same byte sequence before and after. For `n ≥ 2` this is fewer than `n`
bytes and the request is left non-empty, so the accumulator is complete only after
further ticks; `n` further runs of the pump (or any larger number) leave the request
empty and the accumulator holding all `n` bytes in order. -/
theorem C22_pump_count (b : Urho3D.Build) (e : Urho3D.Engine) (s : DynamicResourceCache.DState)
    (it : Nat) (r : Urho3D.NetworkResourceRequest) (req : Urho3D.HttpRequest)
    (hf : r.first_ = some req) (hc : req.state = Urho3D.HttpRequestState.HTTP_CLOSED)
    (hn : 0 < req.GetAvailableSize) :
    req.ReadByte.2.GetAvailableSize + 1 = req.GetAvailableSize ∧
    DynamicResourceCache.pollBody b e s it r
      = ({ s with
            httpRequests := s.httpRequests.set it
              { first_ := some { req with
                  available := req.available.drop ((req.GetAvailableSize + 1) / 2) },
                second_ :=
                  { first_ := r.second_.first_,
                    second_ := r.second_.second_
                      ++ req.available.take ((req.GetAvailableSize + 1) / 2) } } }, false) ∧
    (req.available.take ((req.GetAvailableSize + 1) / 2)).length
      = (req.GetAvailableSize + 1) / 2 ∧
    (req.available.drop ((req.GetAvailableSize + 1) / 2)).length = req.GetAvailableSize / 2 ∧
    (req.GetAvailableSize ≤ 2 * ((req.GetAvailableSize + 1) / 2) ∧
      2 * ((req.GetAvailableSize + 1) / 2) ≤ req.GetAvailableSize + 1) ∧
    (r.second_.second_ ++ req.available.take ((req.GetAvailableSize + 1) / 2))
        ++ req.available.drop ((req.GetAvailableSize + 1) / 2)
      = r.second_.second_ ++ req.available ∧
    (2 ≤ req.GetAvailableSize →
      (req.GetAvailableSize + 1) / 2 < req.GetAvailableSize ∧
      req.available.drop ((req.GetAvailableSize + 1) / 2) ≠ []) ∧
    (∀ rounds, req.GetAvailableSize ≤ rounds →
      DynamicResourceCache.pumpRounds rounds req r.second_.second_
        = ({ req with available := [] }, r.second_.second_ ++ req.available)) := by
  have ha : req.available ≠ [] := List.length_pos.mp hn
  have hlen : req.GetAvailableSize = req.available.length := rfl
  refine ⟨?_, ?_, ?_, ?_, ?_, ?_, ?_, ?_⟩
  · cases hav : req.available with
    | nil => exact absurd hav ha
    | cons a as => simp [Urho3D.HttpRequest.ReadByte, Urho3D.HttpRequest.GetAvailableSize, hav]
  · rw [DynamicResourceCache.pollBody_pump b e s it r req hf hc ha]
    unfold DynamicResourceCache.pumpEntry
    rw [DynamicResourceCache.pump_exact]
    rfl
  · rw [List.length_take, hlen]
    omega
  · rw [List.length_drop, hlen]
    omega
  · omega
  · rw [List.append_assoc, List.take_append_drop]
  · intro h2
    refine ⟨by omega, ?_⟩
    intro hd
    have hl : (req.available.drop ((req.GetAvailableSize + 1) / 2)).length = 0 := by
      rw [hd]; rfl
    rw [List.length_drop, hlen] at hl
    rw [hlen] at h2
    omega
  · intro rounds hr
    exact DynamicResourceCache.pumpRounds_all rounds req r.second_.second_ hr

/-- C22 witness: five bytes available, three of them moved by the tick. -/
theorem C22_pump_count_witness :
    (DynamicResourceCache.pollBody Urho3D.browserBuild Urho3D.demoEngine
        { httpRequests :=
            [{ first_ := some { url := "u".toList,
                                state := Urho3D.HttpRequestState.HTTP_CLOSED,
                                available := "hello".toList },
               second_ := { first_ := "a.json".toList } }] }
        0
        { first_ := some { url := "u".toList,
                           state := Urho3D.HttpRequestState.HTTP_CLOSED,
                           available := "hello".toList },
          second_ := { first_ := "a.json".toList } }).1.httpRequests
      = [{ first_ := some { url := "u".toList,
                            state := Urho3D.HttpRequestState.HTTP_CLOSED,
                            available := "lo".toList },
           second_ := { first_ := "a.json".toList, second_ := "hel".toList } }] :=
  congrArg (fun p : DynamicResourceCache.DState × Bool => p.1.httpRequests)
    (C22_pump_count Urho3D.browserBuild Urho3D.demoEngine
      { httpRequests :=
          [{ first_ := some { url := "u".toList,
                              state := Urho3D.HttpRequestState.HTTP_CLOSED,
                              available := "hello".toList },
             second_ := { first_ := "a.json".toList } }] }
      0
      { first_ := some { url := "u".toList,
                         state := Urho3D.HttpRequestState.HTTP_CLOSED,
                         available := "hello".toList },
        second_ := { first_ := "a.json".toList } }
      { url := "u".toList, state := Urho3D.HttpRequestState.HTTP_CLOSED,
        available := "hello".toList }
      rfl rfl (by decide)).2.1
